import Mathlib

/-!
# InventarioSCOMM: the global layout script (static/js/layout.js)

A shallow embedding of the alert system and of the session manager of
`layout.js`.  The page is an explicit state: the `.alert` elements of the
document in document order, the pending `setTimeout` timers, and the variables
captured by the closures of the script.  Every function of the script is a
function on that state; callbacks handed to `setTimeout` are constructors of
`Callback`, run by `fire`.

Time is counted in whole milliseconds.
-/

namespace Layout

/-! ## Strings -/

/-- White space and line terminators removed by `String.prototype.trim`. -/
def isTrimChar (c : Char) : Bool :=
  c.val = 0x09 || c.val = 0x0A || c.val = 0x0B || c.val = 0x0C || c.val = 0x0D ||
  c.val = 0x20 || c.val = 0xA0 || c.val = 0x1680 ||
  (0x2000 ≤ c.val && c.val ≤ 0x200A) ||
  c.val = 0x2028 || c.val = 0x2029 || c.val = 0x202F || c.val = 0x205F ||
  c.val = 0x3000 || c.val = 0xFEFF

/-- The method `trim` of a string. -/
def jsTrim (s : String) : String :=
  String.mk ((s.data.dropWhile isTrimChar).reverse.dropWhile isTrimChar).reverse

/-- The method `includes` of a string: `m` occurs in `s` as a substring. -/
def jsIncludes (s m : String) : Bool :=
  s.data.tails.any (fun t => m.data.isPrefixOf t)

/-! ## Elements, timers and the page -/

/-- The inline style properties of an element that the script writes or reads.
The empty string is a property that was never set. -/
structure Style where
  display : String
  opacity : String
  transform : String
  transition : String
  position : String
  margin : String
deriving DecidableEq, Repr

/-- An element matching the selector `.alert`.  `node` is the identity of the DOM
node, `hasCloseBtn` tells whether `querySelector('.alert-close')` finds a button
inside it. -/
structure AlertEl where
  node : Nat
  className : String
  textContent : String
  hasCloseBtn : Bool
  style : Style
deriving DecidableEq, Repr

/-- The callbacks that the script hands to `setTimeout`. -/
inductive Callback where
  /-- From hideAlert: `alert.style.display = 'none'`. -/
  | hideDone (node : Nat)
  /-- From showAlert, after 100 ms: opacity 1 and final position. -/
  | fadeIn (node : Nat)
  /-- From showAlert, after `duration`: `hideAlert(alertDiv)`. -/
  | autoHide (node : Nat)
  /-- From initAlertSystem: `hideAlert(alert); alertMessages.delete(alertText)`. -/
  | initAutoHide (node : Nat) (alertText : String)
  /-- From resetInactivityTimer: the logout after 30 minutes. -/
  | inactivity
  /-- From the visibilitychange listener: the logout 3 s after the warning. -/
  | forcedLogout
deriving DecidableEq, Repr

/-- A pending timer: the handle returned by `setTimeout`, the time at which it is
due, and its callback. -/
structure Timer where
  handle : Nat
  fireAt : Nat
  cb : Callback
deriving DecidableEq, Repr

/-- The value of `document.visibilityState`. -/
inductive Visibility where
  | visible
  | hidden
deriving DecidableEq, Repr

/-- The state of a page running `layout.js`.

The `.alert` elements are kept in document order, split at the place where
`insertBefore(alertDiv, alertContainer.firstChild)` inserts: `beforeContainer`
holds the alerts that precede the first child of the container
(`.content-wrapper`, or `body`), `fromContainer` the alerts from there on. -/
structure Page where
  now : Nat
  beforeContainer : List AlertEl
  fromContainer : List AlertEl
  nextNode : Nat
  timers : List Timer
  nextHandle : Nat
  /-- The set `alertMessages` of initAlertSystem, in insertion order. -/
  alertMessages : List String
  /-- Event types on which resetInactivityTimer is registered. -/
  activityListeners : List String
  beforeUnloadListener : Bool
  visibilityListener : Bool
  /-- The variable `inactivityTimer`; `none` is `undefined`. -/
  inactivityTimer : Option Nat
  warningShown : Bool
  /-- The entry `lastActiveTime` of `sessionStorage`. -/
  lastActiveTime : Option String
  visibilityState : Visibility
  /-- The value of `window.location.href`, as a path. -/
  location : String
deriving DecidableEq, Repr

/-- The result of `document.querySelectorAll('.alert')`. -/
def Page.alerts (p : Page) : List AlertEl :=
  p.beforeContainer ++ p.fromContainer

/-- The alert element with the given node identity, if it is in the document. -/
def Page.alert? (p : Page) (n : Nat) : Option AlertEl :=
  p.alerts.find? (fun a => a.node = n)

/-- Apply `f` to the elements of the list whose node is `n`. -/
def updateNode (n : Nat) (f : AlertEl → AlertEl) (l : List AlertEl) : List AlertEl :=
  l.map (fun a => if a.node = n then f a else a)

/-- Change the inline style of the element `n`. -/
def Page.setStyle (p : Page) (n : Nat) (f : Style → Style) : Page :=
  { p with
    beforeContainer := updateNode n (fun a => { a with style := f a.style }) p.beforeContainer
    fromContainer := updateNode n (fun a => { a with style := f a.style }) p.fromContainer }

/-- The call `setTimeout(cb, delay)`, for a delay of whole milliseconds that the
browser takes as it is, from 0 to 2 147 483 647: the new timer is due `delay` ms
from now.  The constant delays of the script are in that range, and so is the
delay 5000 + 500 * index of initAlertSystem for an index below 4 294 958;
showAlert converts its `duration` with `timerDelay` first. -/
def setTimeout (cb : Callback) (delay : Nat) (p : Page) : Nat × Page :=
  (p.nextHandle,
   { p with
     timers := p.timers ++ [{ handle := p.nextHandle, fireAt := p.now + delay, cb := cb }]
     nextHandle := p.nextHandle + 1 })

/-- The delay that `setTimeout` takes from a number of whole milliseconds: the
browser converts the number to a 32-bit signed integer, modulo 2^32, and counts
a negative delay as 0.  A duration from 2 147 483 648 to 4 294 967 295 runs at
once. -/
def timerDelay (duration : Int) : Nat :=
  if duration % 4294967296 < 2147483648 then (duration % 4294967296).toNat else 0

/-- The call `clearTimeout(h)`; `clearTimeout(undefined)` does nothing. -/
def clearTimeout (h : Option Nat) (p : Page) : Page :=
  match h with
  | none => p
  | some k => { p with timers := p.timers.filter (fun t => t.handle != k) }

/-! ## The alert system -/

/-- The function `hideAlert(alert)`.  The argument is `none` for `null` or
`undefined`; elements outside the document are not part of the page state. -/
def hideAlert (alert : Option Nat) (p : Page) : Page :=
  match alert.bind p.alert? with
  | none => p
  | some a =>
    if a.style.display ≠ "none" then
      (setTimeout (.hideDone a.node) 300
        (p.setStyle a.node (fun s =>
          { s with transition := "all 0.3s ease", opacity := "0",
                   transform := "translateY(-10px)" }))).2
    else p

/-- An ASCII letter. -/
def isAsciiLetter (c : Char) : Bool :=
  (65 ≤ c.val && c.val ≤ 90) || (97 ≤ c.val && c.val ≤ 122)

/-- An ASCII digit. -/
def isAsciiDigit (c : Char) : Bool :=
  48 ≤ c.val && c.val ≤ 57

/-- The markup that the model of `innerHTML` knows, each with the text that it
puts into the element: start and end tags of formatting elements, written in
lower case with no attribute, five character references, and the characters
that the parser replaces (a line break CR LF or CR becomes LF) or drops (NUL). -/
def htmlTokens : List (List Char × List Char) :=
  [("<b>".data, []), ("</b>".data, []), ("<i>".data, []), ("</i>".data, []),
   ("<u>".data, []), ("</u>".data, []), ("<em>".data, []), ("</em>".data, []),
   ("<strong>".data, []), ("</strong>".data, []), ("<small>".data, []),
   ("</small>".data, []), ("<br>".data, []),
   ("&amp;".data, ['&']), ("&lt;".data, ['<']), ("&gt;".data, ['>']),
   ("&quot;".data, [Char.ofNat 34]), ("&nbsp;".data, [Char.ofNat 0xA0]),
   (['\r', '\n'], ['\n']), (['\r'], ['\n']), ([Char.ofNat 0], [])]

/-- The text content that the assignment to `innerHTML` gives to the element for
the source text `cs`, of which the first `skip` characters end a token already
read.  The model is exact for a source made of text, of the tokens of
`htmlTokens`, and of characters '<' and '&' that open no tag and no reference
(see `plainText`).  Other markup (a tag with attributes or in upper case, a
comment, another reference, an element that changes how the rest is parsed) is
kept as text here, which the parser does not do. -/
def htmlText : Nat → List Char → List Char
  | _, [] => []
  | skip + 1, _ :: cs => htmlText skip cs
  | 0, c :: cs =>
    match htmlTokens.find? (fun t => t.1.isPrefixOf (c :: cs)) with
    | some t => t.2 ++ htmlText (t.1.length - 1) cs
    | none => c :: htmlText 0 cs

/-- The character after a '<' opens a tag, a comment or a declaration. -/
def opensTag : List Char → Bool
  | [] => false
  | d :: _ => isAsciiLetter d || d == '/' || d == '!' || d == '?'

/-- The character after a '&' opens a character reference. -/
def opensReference : List Char → Bool
  | [] => false
  | d :: _ => isAsciiLetter d || isAsciiDigit d || d == '#'

/-- The HTML parser reads the source as text, character for character: it has
no CR and no NUL, no '<' before a letter, '/', '!' or '?', and no '&' before a
letter, a digit or '#'.  In the template of showAlert a line break follows the
message, so a '<' or a '&' that ends the message opens nothing. -/
def plainText : List Char → Bool
  | [] => true
  | c :: cs =>
    c != '\r' && c != Char.ofNat 0 && (c != '<' || !opensTag cs) &&
      (c != '&' || !opensReference cs) && plainText cs

/-- The source starts with a character that the parser does not take as text. -/
def startsMarkup : List Char → Bool
  | [] => false
  | c :: cs =>
    c == '\r' || c == Char.ofNat 0 || (c == '<' && opensTag cs) || (c == '&' && opensReference cs)

/-- A message that the HTML parser reads as text, character for character. -/
def plainMessage (m : String) : Bool :=
  plainText m.data

/-- Text content of the element built by showAlert with the assignment
`alertDiv.innerHTML` of the template
`\n ${message}\n <button class="alert-close" ...>×</button>\n`: the text of the
template, with the text that the HTML parser makes of the message, and the
label of the button. -/
def alertTextContent (message : String) : String :=
  "\n            " ++ String.mk (htmlText 0 message.data) ++ "\n            ×\n        "

/-- The element created by showAlert. -/
def newAlert (node : Nat) (message type : String) : AlertEl :=
  { node := node
    className := "alert alert-" ++ type
    textContent := alertTextContent message
    hasCloseBtn := true
    style :=
      { display := "", position := "relative", margin := "1rem 0", opacity := "0",
        transform := "translateY(-10px)", transition := "all 0.3s ease" } }

/-- The function `showAlert(message, type, duration)`: the node of the returned
element, and the new page. -/
def showAlert (message type : String) (duration : Int) (p : Page) : Nat × Page :=
  match p.alerts.find? (fun a => jsIncludes a.textContent message) with
  | some a => (a.node, p)
  | none =>
    let alertDiv := newAlert p.nextNode message type
    let p1 := { p with fromContainer := alertDiv :: p.fromContainer
                       nextNode := p.nextNode + 1 }
    let p2 := (setTimeout (.fadeIn alertDiv.node) 100 p1).2
    let p3 := if duration > 0 then
                (setTimeout (.autoHide alertDiv.node) (timerDelay duration) p2).2
              else p2
    (alertDiv.node, p3)

/-- One iteration of the `forEach` of initAlertSystem, on the element `alert`
of the node list and its `index`. -/
def initAlertStep (alert : AlertEl) (index : Nat) (p : Page) : Page :=
  let alertText := jsTrim alert.textContent
  if alertText ∈ p.alertMessages then
    { p with
      beforeContainer := p.beforeContainer.filter (fun a => a.node != alert.node)
      fromContainer := p.fromContainer.filter (fun a => a.node != alert.node) }
  else
    let p1 := { p with alertMessages := p.alertMessages ++ [alertText] }
    let addBtn : AlertEl → AlertEl := fun a =>
      { a with hasCloseBtn := true, textContent := a.textContent ++ "×" }
    let p2 :=
      if alert.hasCloseBtn then p1
      else { p1 with
             beforeContainer := updateNode alert.node addBtn p1.beforeContainer
             fromContainer := updateNode alert.node addBtn p1.fromContainer }
    (setTimeout (.initAutoHide alert.node alertText) (5000 + index * 500) p2).2

/-- The `forEach` of initAlertSystem over the node list, from index `index` on. -/
def initAlertLoop : List AlertEl → Nat → Page → Page
  | [], _, p => p
  | alert :: rest, index, p => initAlertLoop rest (index + 1) (initAlertStep alert index p)

/-- The function `initAlertSystem()`: the node list of `querySelectorAll('.alert')`
is taken once, and the set `alertMessages` starts empty. -/
def initAlertSystem (p : Page) : Page :=
  initAlertLoop p.alerts 0 { p with alertMessages := [] }

/-! ## The session manager -/

/-- The value of a decimal or hexadecimal digit. -/
def digitValue (c : Char) : Option Nat :=
  if 48 ≤ c.toNat ∧ c.toNat ≤ 57 then some (c.toNat - 48)
  else if 97 ≤ c.toNat ∧ c.toNat ≤ 102 then some (c.toNat - 87)
  else if 65 ≤ c.toNat ∧ c.toNat ≤ 70 then some (c.toNat - 55)
  else none

/-- Read the longest prefix of digits of the given radix; `acc` is the value read
so far and `seen` tells whether a digit was read. -/
def parseDigits (radix : Nat) : List Char → Nat → Bool → Option Nat
  | [], acc, seen => if seen then some acc else none
  | c :: cs, acc, seen =>
    match digitValue c with
    | some d => if d < radix then parseDigits radix cs (acc * radix + d) true
                else if seen then some acc else none
    | none => if seen then some acc else none

/-- Read an unsigned integer: hexadecimal after `0x` or `0X`, decimal otherwise. -/
def parseUnsigned : List Char → Option Nat
  | '0' :: 'x' :: cs => parseDigits 16 cs 0 false
  | '0' :: 'X' :: cs => parseDigits 16 cs 0 false
  | cs => parseDigits 10 cs 0 false

/-- The global function `parseInt(string)` without a radix; `none` is `NaN`.
Integers are exact here; the number of the browser is the double nearest to the
integer read, which is that integer up to 2^53 in magnitude. -/
def parseInt (s : String) : Option Int :=
  match s.data.dropWhile isTrimChar with
  | '-' :: cs => (parseUnsigned cs).map (fun n => - (n : Int))
  | '+' :: cs => (parseUnsigned cs).map (fun n => (n : Int))
  | cs => (parseUnsigned cs).map (fun n => (n : Int))

/-- The inner function `resetInactivityTimer()`. -/
def resetInactivityTimer (p : Page) : Page :=
  let p1 := clearTimeout p.inactivityTimer p
  let p2 := { p1 with warningShown := false }
  let r := setTimeout .inactivity (30 * 60 * 1000) p2
  { r.2 with inactivityTimer := some r.1 }

/-- The event types that count as activity of the user. -/
def activityEvents : List String :=
  ["mousedown", "mousemove", "keypress", "scroll", "touchstart", "click"]

/-- The property `userId` of the global `sessionData`. -/
inductive UserId where
  | absent
  | number (n : Int)
  | text (s : String)
deriving DecidableEq, Repr

/-- Truthiness of a `userId`. -/
def UserId.truthy : UserId → Bool
  | .absent => false
  | .number n => n != 0
  | .text s => s != ""

/-- The call `document.addEventListener(event, resetInactivityTimer, true)`: a
listener that is already registered is not added again. -/
def addListener (l : List String) (e : String) : List String :=
  if e ∈ l then l else l ++ [e]

/-- The loop `activityEvents.forEach(event => document.addEventListener(event,
resetInactivityTimer, true))`. -/
def registerActivity (p : Page) : Page :=
  { p with activityListeners := activityEvents.foldl addListener p.activityListeners }

/-- The function `initSessionManager()`.  `sessionData` is `none` when the global
is not defined, otherwise its `userId`. -/
def initSessionManager (sessionData : Option UserId) (p : Page) : Page :=
  match sessionData with
  | some userId =>
    if userId.truthy then
      let p1 := { p with inactivityTimer := none, warningShown := false }
      let p2 := registerActivity p1
      let p3 := resetInactivityTimer p2
      { p3 with beforeUnloadListener := true, visibilityListener := true }
    else p
  | none => p

/-- The listener of `visibilitychange`, run when `document.visibilityState` has
become `state`. -/
def onVisibilityChange (state : Visibility) (p : Page) : Page :=
  let p0 := { p with visibilityState := state }
  if p0.visibilityListener then
    match state with
    | .hidden => { p0 with lastActiveTime := some (toString p0.now) }
    | .visible =>
      match p0.lastActiveTime with
      | none => p0
      | some lastActive =>
        if lastActive ≠ "" then
          match parseInt lastActive with
          | none => p0
          | some t =>
            let timeDiff : Int := (p0.now : Int) - t
            if timeDiff > 30 * 60 * 1000 then
              let p1 := (showAlert "Sesión cerrada por inactividad prolongada" "warning" 3000 p0).2
              (setTimeout .forcedLogout 3000 p1).2
            else p0
        else p0
  else p0

/-- A DOM event of type `type` reaches the document: the listeners registered by
initSessionManager for that type run. -/
def dispatchEvent (type : String) (p : Page) : Page :=
  if type ∈ p.activityListeners then resetInactivityTimer p else p

/-! ## Running the timers -/

/-- Run the callback of a timer. -/
def fire (cb : Callback) (p : Page) : Page :=
  match cb with
  | .hideDone n => p.setStyle n (fun s => { s with display := "none" })
  | .fadeIn n => p.setStyle n (fun s => { s with opacity := "1", transform := "translateY(0)" })
  | .autoHide n => hideAlert (some n) p
  | .initAutoHide n alertText =>
    let p1 := hideAlert (some n) p
    { p1 with alertMessages := p1.alertMessages.filter (fun m => m != alertText) }
  | .inactivity =>
    if !p.warningShown then { p with warningShown := true, location := "/logout" } else p
  | .forcedLogout => { p with location := "/logout" }

/-- Among the timers due at time `T`, the one that runs first: the earliest due
time, and the earliest registration among equal due times. -/
def nextDue (T : Nat) : List Timer → Option Timer
  | [] => none
  | t :: ts =>
    match nextDue T ts with
    | none => if t.fireAt ≤ T then some t else none
    | some b => if t.fireAt ≤ b.fireAt then some t else some b

/-- Run the next due timer: it is removed from the pending timers and its
callback runs at its due time. -/
def runNext (T : Nat) (p : Page) : Option Page :=
  match nextDue T p.timers with
  | none => none
  | some t =>
    some (fire t.cb { p with timers := p.timers.filter (fun u => u.handle != t.handle)
                             now := max p.now t.fireAt })

/-- Run due timers, at most `fuel` of them. -/
def runTimers : Nat → Nat → Page → Page
  | 0, _, p => p
  | fuel + 1, T, p =>
    match runNext T p with
    | none => p
    | some q => runTimers fuel T q

/-- How many callbacks the pending timers can still run: a callback that calls
hideAlert may arm one more timer. -/
def Callback.weight : Callback → Nat
  | .autoHide _ => 2
  | .initAutoHide _ _ => 2
  | _ => 1

/-- Bound on the number of callbacks run before no timer is pending. -/
def budget (ts : List Timer) : Nat :=
  (ts.map (fun t => t.cb.weight)).sum

/-- Let `dt` milliseconds pass: every timer due by then runs, in order. -/
def elapse (dt : Nat) (p : Page) : Page :=
  { runTimers (budget p.timers) (p.now + dt) p with now := p.now + dt }

/-! ## Sample pages and auxiliary definitions -/

/-- An empty page at time 0, before any script has run. -/
def emptyPage : Page :=
  { now := 0, beforeContainer := [], fromContainer := [], nextNode := 0, timers := [],
    nextHandle := 0, alertMessages := [], activityListeners := [],
    beforeUnloadListener := false, visibilityListener := false, inactivityTimer := none,
    warningShown := false, lastActiveTime := none, visibilityState := .visible,
    location := "/" }

/-- A server-rendered alert with no inline style. -/
def plainAlert (node : Nat) (text : String) (hasCloseBtn : Bool) : AlertEl :=
  { node := node, className := "alert alert-info", textContent := text,
    hasCloseBtn := hasCloseBtn,
    style := { display := "", opacity := "", transform := "", transition := "",
               position := "", margin := "" } }

/-- A page whose only alert is already hidden. -/
def hiddenAlertPage : Page :=
  { emptyPage with
    fromContainer := [{ plainAlert 0 "Guardado" true with
                        style := { display := "none", opacity := "0",
                                   transform := "translateY(-10px)",
                                   transition := "all 0.3s ease", position := "",
                                   margin := "" } }]
    nextNode := 1 }

/-- A page with two alerts, the second one inside the container. -/
def twoAlertPage : Page :=
  { emptyPage with
    beforeContainer := [plainAlert 0 "Producto guardado" true]
    fromContainer := [plainAlert 1 "Stock bajo" true]
    nextNode := 2 }

/-- What identifies an alert and is left alone by every timer: its node and its
text. -/
def AlertEl.ident (a : AlertEl) : Nat × String :=
  (a.node, a.textContent)

/-- The style written by hideAlert before its timer. -/
def fadeOut (s : Style) : Style :=
  { s with transition := "all 0.3s ease", opacity := "0", transform := "translateY(-10px)" }

/-- The callbacks that hide the element `n`: they call hideAlert on it, or finish
its hiding. -/
def Callback.hides (n : Nat) : Callback → Bool
  | .hideDone k => k == n
  | .autoHide k => k == n
  | .initAutoHide k _ => k == n
  | _ => false

/-- The element `n` is displayed with an unset `display`, and no pending timer
hides it. -/
def StaysShown (n : Nat) (q : Page) : Prop :=
  (∀ a ∈ q.alerts, a.node = n → a.style.display = "") ∧
  (∀ t ∈ q.timers, t.cb.hides n = false)

/-- The page after a first alert was shown on the empty page: its fade-in and
its dismissal are pending. -/
def shownAlertPage : Page :=
  (showAlert "Stock bajo" "warning" 5000 emptyPage).2

/-- The style written by the timer of hideAlert. -/
def displayNone (s : Style) : Style :=
  { s with display := "none" }

/-- The page after hideAlert has started to hide the displayed element `n`. -/
def afterHide (n : Nat) (p : Page) : Page :=
  { p.setStyle n fadeOut with
    timers := p.timers ++ [{ handle := p.nextHandle, fireAt := p.now + 300, cb := .hideDone n }]
    nextHandle := p.nextHandle + 1 }

/-- The page `dt` milliseconds later, when no timer has run. -/
def later (dt : Nat) (p : Page) : Page :=
  { p with now := p.now + dt }

/-- The page `dt` milliseconds later, when the timers of hideAlert for the
element `n` were the only ones pending and have run. -/
def afterHideDone (n dt : Nat) (p : Page) : Page :=
  { p.setStyle n displayNone with timers := [], now := p.now + dt }

/-- The text that initAlertSystem compares: the trimmed text content. -/
def AlertEl.alertText (a : AlertEl) : String :=
  jsTrim a.textContent

/-- The elements of the node list that the sweep of initAlertSystem keeps, each
with its index in the node list, when the texts `seen` are already in the set. -/
def kept (seen : List String) : List AlertEl → Nat → List (AlertEl × Nat)
  | [], _ => []
  | a :: rest, i =>
    if a.alertText ∈ seen then kept seen rest (i + 1)
    else (a, i) :: kept (seen ++ [a.alertText]) rest (i + 1)

/-- The elements of the node list that the sweep of initAlertSystem removes. -/
def dropped (seen : List String) : List AlertEl → List AlertEl
  | [] => []
  | a :: rest =>
    if a.alertText ∈ seen then a :: dropped seen rest
    else dropped (seen ++ [a.alertText]) rest

/-- The timers armed for the kept elements, with handles from `h` on. -/
def keptTimers (now : Nat) : List (AlertEl × Nat) → Nat → List Timer
  | [], _ => []
  | (a, i) :: rest, h =>
    { handle := h, fireAt := now + (5000 + i * 500), cb := .initAutoHide a.node a.alertText } ::
      keptTimers now rest (h + 1)

/-- The element on which a callback acts, if it acts on one. -/
def Callback.target : Callback → Option Nat
  | .hideDone n => some n
  | .fadeIn n => some n
  | .autoHide n => some n
  | .initAutoHide n _ => some n
  | .inactivity => none
  | .forcedLogout => none

/-- A page as the server renders it: four alerts, the third repeats the text of
the first up to surrounding white space. -/
def loadedPage : Page :=
  { emptyPage with
    beforeContainer := [plainAlert 0 " Producto guardado " false, plainAlert 1 "Stock bajo" true]
    fromContainer := [plainAlert 2 "Producto guardado" false, plainAlert 3 "Sesión iniciada" false]
    nextNode := 4 }

/-- What can happen on a page: a DOM event reaches the document, time passes, the
visibility of the page changes, or a script calls showAlert or hideAlert. -/
inductive Step where
  | event (type : String)
  | wait (dt : Nat)
  | visibility (state : Visibility)
  | alert (message type : String) (duration : Int)
  | dismiss (node : Nat)
deriving DecidableEq, Repr

/-- The effect of one step. -/
def step (s : Step) (p : Page) : Page :=
  match s with
  | .event type => dispatchEvent type p
  | .wait dt => elapse dt p
  | .visibility state => onVisibilityChange state p
  | .alert message type duration => (showAlert message type duration p).2
  | .dismiss node => hideAlert (some node) p

/-- The effect of a sequence of steps, in order. -/
def run (steps : List Step) (p : Page) : Page :=
  steps.foldl (fun q s => step s q) p

/-- Handles of pending timers are distinct and were all handed out; the variable
`inactivityTimer` holds a handle that was handed out, and the pending timer with
that handle, if any, is the only pending inactivity timeout. -/
def TimersOk (q : Page) : Prop :=
  (∀ t ∈ q.timers, t.handle < q.nextHandle) ∧
  (q.timers.map Timer.handle).Nodup ∧
  (∀ t ∈ q.timers, t.cb = .inactivity → q.inactivityTimer = some t.handle) ∧
  (∀ t ∈ q.timers, q.inactivityTimer = some t.handle → t.cb = .inactivity) ∧
  (∀ k, q.inactivityTimer = some k → k < q.nextHandle)

/-- A page on which initSessionManager has not run yet: handles of pending timers
are distinct and were all handed out, and no inactivity timeout is pending. -/
def FreshTimers (p : Page) : Prop :=
  (∀ t ∈ p.timers, t.handle < p.nextHandle) ∧
  (p.timers.map Timer.handle).Nodup ∧
  (∀ t ∈ p.timers, t.cb ≠ .inactivity)

/-- The listeners of initSessionManager are registered: every activity event
resets the inactivity timeout, and the page watches its visibility. -/
def SessionOn (q : Page) : Prop :=
  (∀ e ∈ activityEvents, e ∈ q.activityListeners) ∧ q.visibilityListener = true

/-- The callback navigates to the logout route. -/
def Callback.logsOut : Callback → Bool
  | .inactivity => true
  | .forcedLogout => true
  | _ => false

/-- The page reached from `p0` when initSessionManager has run with a session
(a truthy `userId`) and the given steps have followed. -/
def sessionPage (p0 : Page) (uid : UserId) (steps : List Step) : Page :=
  run steps (initSessionManager (some uid) p0)

/-- The page as loaded: the alerts of the server were swept by initAlertSystem. -/
def sweptPage : Page :=
  initAlertSystem loadedPage

/-- A user who moves the mouse, waits, clicks, and leaves the page alone for ten
minutes. -/
def someActivity : List Step :=
  [.wait 1000, .event "mousemove", .wait 4000, .event "click", .wait 600000]

/-- The characters are decimal digits. -/
def AllDigits (l : List Char) : Prop :=
  ∀ c ∈ l, ∃ d, d < 10 ∧ c = Nat.digitChar d

/-- The number written by a list of decimal digits, continuing from `acc`. -/
def decValue (acc : Nat) (l : List Char) : Nat :=
  l.foldl (fun a c => a * 10 + (c.toNat - 48)) acc

/-- The number of pending forced logouts of the visibility listener. -/
def forcedLogouts (p : Page) : Nat :=
  p.timers.countP (fun t => t.cb == .forcedLogout)

/-- A page with a session that was hidden at time 1000 and has stayed frozen, no
timer running, for exactly 30 minutes. -/
def atTimeoutPage : Page :=
  later 1800000
    (onVisibilityChange .hidden (elapse 1000 (initSessionManager (some (.number 7)) emptyPage)))

/-- The same page one millisecond later. -/
def pastTimeoutPage : Page :=
  later 1 atTimeoutPage

/-- A page on which a persistent alert was shown and then dismissed: the alert is
still in the document, with display 'none', and no timer is pending. -/
def dismissedAlertPage : Page :=
  elapse 400 (hideAlert (some 0) (elapse 200 (showAlert "Stock bajo" "warning" 0 emptyPage).2))

/-- A persistent alert has just been shown on the empty page; its fade-in timer,
due at 100 ms, is pending. -/
def freshAlertPage : Page :=
  (showAlert "Stock bajo" "warning" 0 emptyPage).2

/-- The alert of `freshAlertPage` is hidden once, 50 ms after it was shown, and
every timer has run by 1000 ms. -/
def hiddenOncePage : Page :=
  elapse 950 (hideAlert (some 0) (elapse 50 freshAlertPage))

/-- The alert of `freshAlertPage` is hidden at 50 ms and again at 150 ms, and
every timer has run by 1000 ms. -/
def hiddenTwicePage : Page :=
  elapse 850 (hideAlert (some 0) (elapse 100 (hideAlert (some 0) (elapse 50 freshAlertPage))))

/-- The timer with handle `h` was handed out and is no longer pending. -/
def Cancelled (h : Nat) (q : Page) : Prop :=
  h < q.nextHandle ∧ ∀ t ∈ q.timers, t.handle ≠ h

/-- While an inactivity timeout is pending the flag `warningShown` is false, so
the guard of its callback lets the navigation through. -/
def GuardOpen (q : Page) : Prop :=
  ∀ t ∈ q.timers, t.cb = .inactivity → q.warningShown = false

/-- A page with a session that is hidden right after loading and left alone,
its timers running, for 30 minutes. -/
def hiddenHalfHourPage : Page :=
  sessionPage emptyPage (.number 7) [.visibility .hidden, .wait 1800000]

/-! ## The form scripts: numbers and notices -/

/-- The test `a > b` on numbers; `none` is `NaN`, which compares false. -/
def jsGt (a b : Option Int) : Bool :=
  match a, b with
  | some x, some y => decide (x > y)
  | _, _ => false

/-- The conversion of a number to a string; `none` is `NaN`. -/
def numberToString : Option Int → String
  | some n => toString n
  | none => "NaN"

/-- The call `classList.add(c)` on a list of classes. -/
def addClass (c : String) (l : List String) : List String :=
  if c ∈ l then l else l ++ [c]

/-- The call `classList.remove(c)` on a list of classes. -/
def removeClass (c : String) (l : List String) : List String :=
  l.filter (fun x => x != c)

/-- A message element created by a form script: its node, its text and its
`style.animation`. -/
structure Notice where
  node : Nat
  text : String
  animation : String
deriving DecidableEq, Repr

/-! ## The stock adjustment form -/

/-- The callbacks that showTemporaryWarning passes to setTimeout: the outer one
starts the exit animation of the warning, the inner one removes it. -/
inductive StockCallback where
  | slideOut (node : Nat)
  | remove (node : Nat)
deriving DecidableEq, Repr

/-- A pending timer of the stock adjustment page. -/
structure StockTimer where
  handle : Nat
  fireAt : Nat
  cb : StockCallback
deriving DecidableEq, Repr

/-- The page of the stock adjustment form: the constant `currentStock` (`none`
is `NaN`), the value of the select `adjustment_type`, the value, the `max`
attribute, the placeholder and the classes of the input `quantity`, the value of
the field `reason`, the elements of class `temporary-warning` in document order,
the pending timers, and the element that has the focus. -/
structure StockPage where
  now : Nat
  currentStock : Option Int
  adjustmentType : String
  quantityValue : String
  quantityMax : Option String
  quantityPlaceholder : String
  quantityClasses : List String
  reasonValue : String
  warnings : List Notice
  nextNode : Nat
  timers : List StockTimer
  nextHandle : Nat
  focused : Option String
deriving DecidableEq, Repr

/-- The function `showTemporaryWarning(message)`: the first warning in the
document is removed, a new one is appended to the body, and its exit is
scheduled after 3 s. -/
def showTemporaryWarning (message : String) (p : StockPage) : StockPage :=
  let warning : Notice :=
    { node := p.nextNode, text := message, animation := "slideIn 0.3s ease" }
  { p with
    warnings := p.warnings.drop 1 ++ [warning]
    nextNode := p.nextNode + 1
    timers := p.timers ++
      [{ handle := p.nextHandle, fireAt := p.now + 3000, cb := .slideOut p.nextNode }]
    nextHandle := p.nextHandle + 1 }

/-- The listener of `change` on the select `adjustment_type`; the select already
holds the chosen value. -/
def onTypeChange (p : StockPage) : StockPage :=
  let selectedType := p.adjustmentType
  let p1 := { p with
    quantityClasses :=
      removeClass "quantity-input-subtract" (removeClass "quantity-input-add" p.quantityClasses) }
  if selectedType = "subtract" then
    let p2 := { p1 with
      quantityMax := some (numberToString p.currentStock)
      quantityPlaceholder := "Máximo: " ++ numberToString p.currentStock ++ " unidades"
      quantityClasses := addClass "quantity-input-subtract" p1.quantityClasses }
    if jsGt (parseInt p2.quantityValue) p.currentStock then
      { p2 with quantityValue := numberToString p.currentStock }
    else p2
  else if selectedType = "add" then
    { p1 with
      quantityMax := none
      quantityPlaceholder := "Cantidad a agregar"
      quantityClasses := addClass "quantity-input-add" p1.quantityClasses }
  else
    { p1 with
      quantityMax := none
      quantityPlaceholder := "Seleccione primero el tipo de ajuste" }

/-- The listener of `input` on the input `quantity`. -/
def onQuantityInput (p : StockPage) : StockPage :=
  let selectedType := p.adjustmentType
  let enteredValue := parseInt p.quantityValue
  if selectedType = "subtract" ∧ jsGt enteredValue p.currentStock = true then
    showTemporaryWarning "No puede reducir más stock del disponible"
      { p with quantityValue := numberToString p.currentStock }
  else p

/-- The user picks `type` in the select `adjustment_type`, and the `change`
event runs its listener. -/
def selectType (type : String) (p : StockPage) : StockPage :=
  onTypeChange { p with adjustmentType := type }

/-- The user edits the input `quantity` to hold `text`, and the `input` event
runs its listener. -/
def enterQuantity (text : String) (p : StockPage) : StockPage :=
  onQuantityInput { p with quantityValue := text }

/-- The stock adjustment page of a product with 12 units, as loaded. -/
def stockPage : StockPage :=
  { now := 0, currentStock := some 12, adjustmentType := "", quantityValue := "",
    quantityMax := none, quantityPlaceholder := "", quantityClasses := ["form-control"],
    reasonValue := "", warnings := [], nextNode := 0, timers := [], nextHandle := 0,
    focused := none }

/-! ## The add-product form: strings and numbers -/

/-- The number of UTF-16 code units of a character. -/
def utf16Units (c : Char) : Nat :=
  if c.val < 0x10000 then 1 else 2

/-- The property `length` of a string: its number of UTF-16 code units. -/
def jsLength (s : String) : Nat :=
  (s.data.map utf16Units).sum

/-- The characters of a list that lie between the code-unit positions `start`
and `stop`; `pos` is the position of the first character of the list. -/
def unitsBetween (start stop : Nat) : Nat → List Char → List Char
  | _, [] => []
  | pos, c :: cs =>
    if start ≤ pos ∧ pos + utf16Units c ≤ stop then
      c :: unitsBetween start stop (pos + utf16Units c) cs
    else unitsBetween start stop (pos + utf16Units c) cs

/-- The method `substring(start, stop)` of a string.  Positions count UTF-16 code
units.  A character of two code units that the range cuts in two is left out
here; the string of the browser keeps the half inside the range, a lone
surrogate, which a `String` cannot hold (see `cutsNoPair`). -/
def substring (s : String) (start stop : Nat) : String :=
  String.mk (unitsBetween (min start stop) (max start stop) 0 s.data)

/-- The code-unit position `k` of the text does not fall inside a character of
two code units. -/
def cutsNoPair : Nat → List Char → Bool
  | 0, _ => true
  | _, [] => true
  | k + 1, c :: cs => decide (utf16Units c ≤ k + 1) && cutsNoPair (k + 1 - utf16Units c) cs

/-- The letters above U+00FF with an upper-case form of one character, in runs:
`(lo, hi, step, target)` says that the characters lo, lo + step, ..., hi map to
target, target + step, ...  From the Unicode Character Database, version 14.0. -/
def upperRuns : List (Nat × Nat × Nat × Nat) :=
  [(0x101, 0x12F, 2, 0x100), (0x131, 0x131, 1, 0x49), (0x133, 0x137, 2, 0x132),
   (0x13A, 0x148, 2, 0x139), (0x14B, 0x177, 2, 0x14A), (0x17A, 0x17E, 2, 0x179),
   (0x17F, 0x17F, 1, 0x53), (0x180, 0x180, 1, 0x243), (0x183, 0x185, 2, 0x182),
   (0x188, 0x188, 1, 0x187), (0x18C, 0x18C, 1, 0x18B), (0x192, 0x192, 1, 0x191),
   (0x195, 0x195, 1, 0x1F6), (0x199, 0x199, 1, 0x198), (0x19A, 0x19A, 1, 0x23D),
   (0x19E, 0x19E, 1, 0x220), (0x1A1, 0x1A5, 2, 0x1A0), (0x1A8, 0x1A8, 1, 0x1A7),
   (0x1AD, 0x1AD, 1, 0x1AC), (0x1B0, 0x1B0, 1, 0x1AF), (0x1B4, 0x1B6, 2, 0x1B3),
   (0x1B9, 0x1B9, 1, 0x1B8), (0x1BD, 0x1BD, 1, 0x1BC), (0x1BF, 0x1BF, 1, 0x1F7),
   (0x1C5, 0x1C5, 1, 0x1C4), (0x1C6, 0x1C6, 1, 0x1C4), (0x1C8, 0x1C8, 1, 0x1C7),
   (0x1C9, 0x1C9, 1, 0x1C7), (0x1CB, 0x1CB, 1, 0x1CA), (0x1CC, 0x1CC, 1, 0x1CA),
   (0x1CE, 0x1DC, 2, 0x1CD), (0x1DD, 0x1DD, 1, 0x18E), (0x1DF, 0x1EF, 2, 0x1DE),
   (0x1F2, 0x1F2, 1, 0x1F1), (0x1F3, 0x1F3, 1, 0x1F1), (0x1F5, 0x1F5, 1, 0x1F4),
   (0x1F9, 0x21F, 2, 0x1F8), (0x223, 0x233, 2, 0x222), (0x23C, 0x23C, 1, 0x23B),
   (0x23F, 0x240, 1, 0x2C7E), (0x242, 0x242, 1, 0x241), (0x247, 0x24F, 2, 0x246),
   (0x250, 0x250, 1, 0x2C6F), (0x251, 0x251, 1, 0x2C6D), (0x252, 0x252, 1, 0x2C70),
   (0x253, 0x253, 1, 0x181), (0x254, 0x254, 1, 0x186), (0x256, 0x257, 1, 0x189),
   (0x259, 0x259, 1, 0x18F), (0x25B, 0x25B, 1, 0x190), (0x25C, 0x25C, 1, 0xA7AB),
   (0x260, 0x260, 1, 0x193), (0x261, 0x261, 1, 0xA7AC), (0x263, 0x263, 1, 0x194),
   (0x265, 0x265, 1, 0xA78D), (0x266, 0x266, 1, 0xA7AA), (0x268, 0x268, 1, 0x197),
   (0x269, 0x269, 1, 0x196), (0x26A, 0x26A, 1, 0xA7AE), (0x26B, 0x26B, 1, 0x2C62),
   (0x26C, 0x26C, 1, 0xA7AD), (0x26F, 0x26F, 1, 0x19C), (0x271, 0x271, 1, 0x2C6E),
   (0x272, 0x272, 1, 0x19D), (0x275, 0x275, 1, 0x19F), (0x27D, 0x27D, 1, 0x2C64),
   (0x280, 0x280, 1, 0x1A6), (0x282, 0x282, 1, 0xA7C5), (0x283, 0x283, 1, 0x1A9),
   (0x287, 0x287, 1, 0xA7B1), (0x288, 0x288, 1, 0x1AE), (0x289, 0x289, 1, 0x244),
   (0x28A, 0x28B, 1, 0x1B1), (0x28C, 0x28C, 1, 0x245), (0x292, 0x292, 1, 0x1B7),
   (0x29D, 0x29D, 1, 0xA7B2), (0x29E, 0x29E, 1, 0xA7B0), (0x345, 0x345, 1, 0x399),
   (0x371, 0x373, 2, 0x370), (0x377, 0x377, 1, 0x376), (0x37B, 0x37D, 1, 0x3FD),
   (0x3AC, 0x3AC, 1, 0x386), (0x3AD, 0x3AF, 1, 0x388), (0x3B1, 0x3C1, 1, 0x391),
   (0x3C2, 0x3C2, 1, 0x3A3), (0x3C3, 0x3CB, 1, 0x3A3), (0x3CC, 0x3CC, 1, 0x38C),
   (0x3CD, 0x3CE, 1, 0x38E), (0x3D0, 0x3D0, 1, 0x392), (0x3D1, 0x3D1, 1, 0x398),
   (0x3D5, 0x3D5, 1, 0x3A6), (0x3D6, 0x3D6, 1, 0x3A0), (0x3D7, 0x3D7, 1, 0x3CF),
   (0x3D9, 0x3EF, 2, 0x3D8), (0x3F0, 0x3F0, 1, 0x39A), (0x3F1, 0x3F1, 1, 0x3A1),
   (0x3F2, 0x3F2, 1, 0x3F9), (0x3F3, 0x3F3, 1, 0x37F), (0x3F5, 0x3F5, 1, 0x395),
   (0x3F8, 0x3F8, 1, 0x3F7), (0x3FB, 0x3FB, 1, 0x3FA), (0x430, 0x44F, 1, 0x410),
   (0x450, 0x45F, 1, 0x400), (0x461, 0x481, 2, 0x460), (0x48B, 0x4BF, 2, 0x48A),
   (0x4C2, 0x4CE, 2, 0x4C1), (0x4CF, 0x4CF, 1, 0x4C0), (0x4D1, 0x52F, 2, 0x4D0),
   (0x561, 0x586, 1, 0x531), (0x10D0, 0x10FA, 1, 0x1C90), (0x10FD, 0x10FF, 1, 0x1CBD),
   (0x13F8, 0x13FD, 1, 0x13F0), (0x1C80, 0x1C80, 1, 0x412), (0x1C81, 0x1C81, 1, 0x414),
   (0x1C82, 0x1C82, 1, 0x41E), (0x1C83, 0x1C84, 1, 0x421), (0x1C85, 0x1C85, 1, 0x422),
   (0x1C86, 0x1C86, 1, 0x42A), (0x1C87, 0x1C87, 1, 0x462), (0x1C88, 0x1C88, 1, 0xA64A),
   (0x1D79, 0x1D79, 1, 0xA77D), (0x1D7D, 0x1D7D, 1, 0x2C63), (0x1D8E, 0x1D8E, 1, 0xA7C6),
   (0x1E01, 0x1E95, 2, 0x1E00), (0x1E9B, 0x1E9B, 1, 0x1E60), (0x1EA1, 0x1EFF, 2, 0x1EA0),
   (0x1F00, 0x1F07, 1, 0x1F08), (0x1F10, 0x1F15, 1, 0x1F18), (0x1F20, 0x1F27, 1, 0x1F28),
   (0x1F30, 0x1F37, 1, 0x1F38), (0x1F40, 0x1F45, 1, 0x1F48), (0x1F51, 0x1F57, 2, 0x1F59),
   (0x1F60, 0x1F67, 1, 0x1F68), (0x1F70, 0x1F71, 1, 0x1FBA), (0x1F72, 0x1F75, 1, 0x1FC8),
   (0x1F76, 0x1F77, 1, 0x1FDA), (0x1F78, 0x1F79, 1, 0x1FF8), (0x1F7A, 0x1F7B, 1, 0x1FEA),
   (0x1F7C, 0x1F7D, 1, 0x1FFA), (0x1FB0, 0x1FB1, 1, 0x1FB8), (0x1FBE, 0x1FBE, 1, 0x399),
   (0x1FD0, 0x1FD1, 1, 0x1FD8), (0x1FE0, 0x1FE1, 1, 0x1FE8), (0x1FE5, 0x1FE5, 1, 0x1FEC),
   (0x214E, 0x214E, 1, 0x2132), (0x2170, 0x217F, 1, 0x2160), (0x2184, 0x2184, 1, 0x2183),
   (0x24D0, 0x24E9, 1, 0x24B6), (0x2C30, 0x2C5F, 1, 0x2C00), (0x2C61, 0x2C61, 1, 0x2C60),
   (0x2C65, 0x2C65, 1, 0x23A), (0x2C66, 0x2C66, 1, 0x23E), (0x2C68, 0x2C6C, 2, 0x2C67),
   (0x2C73, 0x2C73, 1, 0x2C72), (0x2C76, 0x2C76, 1, 0x2C75), (0x2C81, 0x2CE3, 2, 0x2C80),
   (0x2CEC, 0x2CEE, 2, 0x2CEB), (0x2CF3, 0x2CF3, 1, 0x2CF2), (0x2D00, 0x2D25, 1, 0x10A0),
   (0x2D27, 0x2D27, 1, 0x10C7), (0x2D2D, 0x2D2D, 1, 0x10CD), (0xA641, 0xA66D, 2, 0xA640),
   (0xA681, 0xA69B, 2, 0xA680), (0xA723, 0xA72F, 2, 0xA722), (0xA733, 0xA76F, 2, 0xA732),
   (0xA77A, 0xA77C, 2, 0xA779), (0xA77F, 0xA787, 2, 0xA77E), (0xA78C, 0xA78C, 1, 0xA78B),
   (0xA791, 0xA793, 2, 0xA790), (0xA794, 0xA794, 1, 0xA7C4), (0xA797, 0xA7A9, 2, 0xA796),
   (0xA7B5, 0xA7C3, 2, 0xA7B4), (0xA7C8, 0xA7CA, 2, 0xA7C7), (0xA7D1, 0xA7D1, 1, 0xA7D0),
   (0xA7D7, 0xA7D9, 2, 0xA7D6), (0xA7F6, 0xA7F6, 1, 0xA7F5), (0xAB53, 0xAB53, 1, 0xA7B3),
   (0xAB70, 0xABBF, 1, 0x13A0), (0xFF41, 0xFF5A, 1, 0xFF21), (0x10428, 0x1044F, 1, 0x10400),
   (0x104D8, 0x104FB, 1, 0x104B0), (0x10597, 0x105BB, 2, 0x10570),
   (0x10598, 0x105A1, 1, 0x10571), (0x105A4, 0x105B1, 1, 0x1057D),
   (0x105B4, 0x105B9, 1, 0x1058D), (0x105BC, 0x105BC, 1, 0x10595),
   (0x10CC0, 0x10CF2, 1, 0x10C80), (0x118C0, 0x118DF, 1, 0x118A0),
   (0x16E60, 0x16E7F, 1, 0x16E40), (0x1E922, 0x1E943, 1, 0x1E900)]

/-- The characters above U+00FF with an upper-case form of several characters
(SpecialCasing of the Unicode Character Database, version 14.0). -/
def upperSpecial : List (Nat × List Nat) :=
  [(0x149, [0x2BC, 0x4E]), (0x1F0, [0x4A, 0x30C]), (0x390, [0x399, 0x308, 0x301]),
   (0x3B0, [0x3A5, 0x308, 0x301]), (0x587, [0x535, 0x552]), (0x1E96, [0x48, 0x331]),
   (0x1E97, [0x54, 0x308]), (0x1E98, [0x57, 0x30A]), (0x1E99, [0x59, 0x30A]),
   (0x1E9A, [0x41, 0x2BE]), (0x1F50, [0x3A5, 0x313]), (0x1F52, [0x3A5, 0x313, 0x300]),
   (0x1F54, [0x3A5, 0x313, 0x301]), (0x1F56, [0x3A5, 0x313, 0x342]), (0x1F80, [0x1F08, 0x399]),
   (0x1F81, [0x1F09, 0x399]), (0x1F82, [0x1F0A, 0x399]), (0x1F83, [0x1F0B, 0x399]),
   (0x1F84, [0x1F0C, 0x399]), (0x1F85, [0x1F0D, 0x399]), (0x1F86, [0x1F0E, 0x399]),
   (0x1F87, [0x1F0F, 0x399]), (0x1F88, [0x1F08, 0x399]), (0x1F89, [0x1F09, 0x399]),
   (0x1F8A, [0x1F0A, 0x399]), (0x1F8B, [0x1F0B, 0x399]), (0x1F8C, [0x1F0C, 0x399]),
   (0x1F8D, [0x1F0D, 0x399]), (0x1F8E, [0x1F0E, 0x399]), (0x1F8F, [0x1F0F, 0x399]),
   (0x1F90, [0x1F28, 0x399]), (0x1F91, [0x1F29, 0x399]), (0x1F92, [0x1F2A, 0x399]),
   (0x1F93, [0x1F2B, 0x399]), (0x1F94, [0x1F2C, 0x399]), (0x1F95, [0x1F2D, 0x399]),
   (0x1F96, [0x1F2E, 0x399]), (0x1F97, [0x1F2F, 0x399]), (0x1F98, [0x1F28, 0x399]),
   (0x1F99, [0x1F29, 0x399]), (0x1F9A, [0x1F2A, 0x399]), (0x1F9B, [0x1F2B, 0x399]),
   (0x1F9C, [0x1F2C, 0x399]), (0x1F9D, [0x1F2D, 0x399]), (0x1F9E, [0x1F2E, 0x399]),
   (0x1F9F, [0x1F2F, 0x399]), (0x1FA0, [0x1F68, 0x399]), (0x1FA1, [0x1F69, 0x399]),
   (0x1FA2, [0x1F6A, 0x399]), (0x1FA3, [0x1F6B, 0x399]), (0x1FA4, [0x1F6C, 0x399]),
   (0x1FA5, [0x1F6D, 0x399]), (0x1FA6, [0x1F6E, 0x399]), (0x1FA7, [0x1F6F, 0x399]),
   (0x1FA8, [0x1F68, 0x399]), (0x1FA9, [0x1F69, 0x399]), (0x1FAA, [0x1F6A, 0x399]),
   (0x1FAB, [0x1F6B, 0x399]), (0x1FAC, [0x1F6C, 0x399]), (0x1FAD, [0x1F6D, 0x399]),
   (0x1FAE, [0x1F6E, 0x399]), (0x1FAF, [0x1F6F, 0x399]), (0x1FB2, [0x1FBA, 0x399]),
   (0x1FB3, [0x391, 0x399]), (0x1FB4, [0x386, 0x399]), (0x1FB6, [0x391, 0x342]),
   (0x1FB7, [0x391, 0x342, 0x399]), (0x1FBC, [0x391, 0x399]), (0x1FC2, [0x1FCA, 0x399]),
   (0x1FC3, [0x397, 0x399]), (0x1FC4, [0x389, 0x399]), (0x1FC6, [0x397, 0x342]),
   (0x1FC7, [0x397, 0x342, 0x399]), (0x1FCC, [0x397, 0x399]), (0x1FD2, [0x399, 0x308, 0x300]),
   (0x1FD3, [0x399, 0x308, 0x301]), (0x1FD6, [0x399, 0x342]), (0x1FD7, [0x399, 0x308, 0x342]),
   (0x1FE2, [0x3A5, 0x308, 0x300]), (0x1FE3, [0x3A5, 0x308, 0x301]), (0x1FE4, [0x3A1, 0x313]),
   (0x1FE6, [0x3A5, 0x342]), (0x1FE7, [0x3A5, 0x308, 0x342]), (0x1FF2, [0x1FFA, 0x399]),
   (0x1FF3, [0x3A9, 0x399]), (0x1FF4, [0x38F, 0x399]), (0x1FF6, [0x3A9, 0x342]),
   (0x1FF7, [0x3A9, 0x342, 0x399]), (0x1FFC, [0x3A9, 0x399]), (0xFB00, [0x46, 0x46]),
   (0xFB01, [0x46, 0x49]), (0xFB02, [0x46, 0x4C]), (0xFB03, [0x46, 0x46, 0x49]),
   (0xFB04, [0x46, 0x46, 0x4C]), (0xFB05, [0x53, 0x54]), (0xFB06, [0x53, 0x54]),
   (0xFB13, [0x544, 0x546]), (0xFB14, [0x544, 0x535]), (0xFB15, [0x544, 0x53B]),
   (0xFB16, [0x54E, 0x546]), (0xFB17, [0x544, 0x53D])]

/-- The upper-case form of a character in `String.prototype.toUpperCase`, the
full case mapping of Unicode without a locale (version 14.0 of the Unicode
Character Database; letters that later versions added are left as they are).
Basic Latin and Latin-1 Supplement: a letter maps to its capital, 'ß' to 'SS',
'ÿ' and 'µ' to their capitals outside the block. -/
def upperChar (c : Char) : List Char :=
  if c.val < 0x100 then
    if c.val = 0xDF then ['S', 'S']
    else if c.val = 0xFF then [Char.ofNat 0x178]
    else if c.val = 0xB5 then [Char.ofNat 0x39C]
    else if (0x61 ≤ c.val ∧ c.val ≤ 0x7A) ∨ (0xE0 ≤ c.val ∧ c.val ≤ 0xFE ∧ c.val ≠ 0xF7) then
      [Char.ofNat (c.toNat - 32)]
    else [c]
  else
    match upperSpecial.find? (fun e => e.1 == c.toNat) with
    | some e => e.2.map Char.ofNat
    | none =>
      match upperRuns.find? (fun e =>
          decide (e.1 ≤ c.toNat) && decide (c.toNat ≤ e.2.1) &&
            (c.toNat - e.1) % e.2.2.1 == 0) with
      | some e => [Char.ofNat (e.2.2.2 + (c.toNat - e.1))]
      | none => [c]

/-- The method `toUpperCase` of a string. -/
def toUpperCase (s : String) : String :=
  String.mk (s.data.map upperChar).flatten

/-- The method `padStart(n, c)` of a string, for a one-character filler. -/
def padStart (s : String) (n : Nat) (c : Char) : String :=
  String.mk (List.replicate (n - jsLength s) c ++ s.data)

/-- A decimal digit. -/
def isDigit (c : Char) : Bool :=
  48 ≤ c.toNat && c.toNat ≤ 57

/-- The result of parseFloat before it is rounded to a double: `NaN`, an
infinity, or the decimal number (-1)^neg * mant * 10^exp. -/
inductive Parsed where
  | nan
  | infinity (neg : Bool)
  | decimal (neg : Bool) (mant : Nat) (exp : Int)
deriving DecidableEq, Repr

/-- The exponent part of a decimal literal, 0 when there is none: `e` or `E`, an
optional sign, and digits. -/
def readExponent : List Char → Int
  | 'e' :: '-' :: ds => - (decValue 0 (ds.takeWhile isDigit) : Int)
  | 'E' :: '-' :: ds => - (decValue 0 (ds.takeWhile isDigit) : Int)
  | 'e' :: '+' :: ds => (decValue 0 (ds.takeWhile isDigit) : Int)
  | 'E' :: '+' :: ds => (decValue 0 (ds.takeWhile isDigit) : Int)
  | 'e' :: ds => (decValue 0 (ds.takeWhile isDigit) : Int)
  | 'E' :: ds => (decValue 0 (ds.takeWhile isDigit) : Int)
  | _ => 0

/-- The longest prefix that is an unsigned decimal literal: `Infinity`, or digits
with an optional fraction and an optional exponent. -/
def readDecimal (neg : Bool) (cs : List Char) : Parsed :=
  if "Infinity".data.isPrefixOf cs then .infinity neg
  else
    match cs.dropWhile isDigit with
    | '.' :: rest =>
      if cs.takeWhile isDigit = [] ∧ rest.takeWhile isDigit = [] then .nan
      else .decimal neg (decValue 0 (cs.takeWhile isDigit ++ rest.takeWhile isDigit))
        (readExponent (rest.dropWhile isDigit) - ((rest.takeWhile isDigit).length : Int))
    | rest =>
      if cs.takeWhile isDigit = [] then .nan
      else .decimal neg (decValue 0 (cs.takeWhile isDigit)) (readExponent rest)

/-- The global function `parseFloat(string)`. -/
def parseFloat (s : String) : Parsed :=
  match s.data.dropWhile isTrimChar with
  | '-' :: cs => readDecimal true cs
  | '+' :: cs => readDecimal false cs
  | cs => readDecimal false cs

/-- The global function `isNaN` on the result of parseFloat. -/
def Parsed.isNaN : Parsed → Bool
  | .nan => true
  | _ => false

/-- The test `x < 0` on the double read by parseFloat: the number is negative
and does not round to zero, that is, its magnitude exceeds 2^-1075, half the
least positive double (`n <<< 1075` is n * 2^1075). -/
def Parsed.ltZero : Parsed → Bool
  | .nan => false
  | .infinity neg => neg
  | .decimal neg mant exp =>
    neg && decide (10 ^ (-exp).toNat < (mant * 10 ^ exp.toNat) <<< 1075)

/-- The global function `isNaN` on the result of parseInt. -/
def isNaNInt (x : Option Int) : Bool :=
  x.isNone

/-- The test `x < 0` on the result of parseInt. -/
def ltZeroInt : Option Int → Bool
  | some n => decide (n < 0)
  | none => false

/-! ## The add-product form -/

/-- The callbacks that the add-product script passes to setTimeout: the end of
the visual feedback of generateSKU, and the removal of a validation alert. -/
inductive ProductCallback where
  | skuFeedbackDone
  | removeAlert (node : Nat)
deriving DecidableEq, Repr

/-- A pending timer of the add-product page. -/
structure ProductTimer where
  handle : Nat
  fireAt : Nat
  cb : ProductCallback
deriving DecidableEq, Repr

/-- The page of the add-product form: the values of its fields, the classes of
the field `sku`, the elements of class `validation-alert` of the form container
in document order, the pending timers, and the element that has the focus. -/
structure ProductPage where
  now : Nat
  nameValue : String
  categoryValue : String
  skuValue : String
  providerValue : String
  priceValue : String
  quantityValue : String
  stockMinValue : String
  skuClasses : List String
  alerts : List Notice
  nextNode : Nat
  timers : List ProductTimer
  nextHandle : Nat
  focused : Option String
deriving DecidableEq, Repr

/-- Round to the nearest integer, a tie to the even one. -/
def roundHalfEven (y : ℚ) : Int :=
  if y - ⌊y⌋ < 1 / 2 then ⌊y⌋
  else if 1 / 2 < y - ⌊y⌋ then ⌊y⌋ + 1
  else if ⌊y⌋ % 2 = 0 then ⌊y⌋ else ⌊y⌋ + 1

/-- The binary exponent of the unit in the last place of the doubles around a
positive number: 52 places below its leading bit, and -1074 among the subnormal
numbers. -/
def ulpExponent (x : ℚ) : Int :=
  max (Int.log 2 x - 52) (-1074)

/-- The double (IEEE 754 binary64) nearest to a rational number of magnitude
below 2^1024, a tie going to the even significand: the result of an arithmetic
operation of JavaScript whose exact result is `x`. -/
def roundDouble (x : ℚ) : ℚ :=
  if 0 ≤ x then (roundHalfEven (x / 2 ^ ulpExponent x) : ℚ) * 2 ^ ulpExponent x
  else -((roundHalfEven (-x / 2 ^ ulpExponent (-x)) : ℚ) * 2 ^ ulpExponent (-x))

/-- The text that generateSKU builds in its variable `sku` from the values of
the fields `category` and `name`, when `Math.random()` returns `r`.  The product
`Math.random() * 1000` is the double nearest to the exact product. -/
def skuText (category name : String) (r : ℚ) : String :=
  let sku := if jsTrim category ≠ "" then toUpperCase (substring (jsTrim category) 0 3)
             else "PROD"
  let sku := if jsTrim name ≠ "" then sku ++ toUpperCase (substring (jsTrim name) 0 2)
             else sku
  sku ++ ("-" ++ padStart (toString (Rat.floor (roundDouble (r * 1000)))) 3 '0')

/-- The function `generateSKU()`, when `Math.random()` returns `r`. -/
def generateSKU (r : ℚ) (p : ProductPage) : ProductPage :=
  { p with
    skuValue := skuText p.categoryValue p.nameValue r
    skuClasses := addClass "sku-generated" p.skuClasses
    timers := p.timers ++
      [{ handle := p.nextHandle, fireAt := p.now + 1000, cb := .skuFeedbackDone }]
    nextHandle := p.nextHandle + 1 }

/-- The function `showValidationError(message)` of the add-product script: the
first validation alert is removed, a new one becomes the first child of the form
container, and its removal is scheduled after 5 s. -/
def AddProduct.showValidationError (message : String) (p : ProductPage) : ProductPage :=
  let alert : Notice := { node := p.nextNode, text := message, animation := "" }
  { p with
    alerts := alert :: p.alerts.drop 1
    nextNode := p.nextNode + 1
    timers := p.timers ++
      [{ handle := p.nextHandle, fireAt := p.now + 5000, cb := .removeAlert p.nextNode }]
    nextHandle := p.nextHandle + 1 }

/-- The call `focus()` on the element with the given id. -/
def ProductPage.focus (id : String) (p : ProductPage) : ProductPage :=
  { p with focused := some id }

/-- The listener of `submit` of the add-product form.  `confirm` is the answer of
the user to a confirmation dialog with the given message; the first component of
the result tells whether `preventDefault` was called. -/
def AddProduct.onSubmit (confirm : String → Bool) (p : ProductPage) : Bool × ProductPage :=
  let name := jsTrim p.nameValue
  let price := parseFloat p.priceValue
  let quantity := parseInt p.quantityValue
  let stockMin := parseInt p.stockMinValue
  if name = "" then
    (true, (AddProduct.showValidationError "El nombre del producto es obligatorio" p).focus
      "name")
  else if jsLength name < 2 then
    (true, (AddProduct.showValidationError "El nombre debe tener al menos 2 caracteres" p).focus
      "name")
  else if (price.isNaN || price.ltZero) = true then
    (true, (AddProduct.showValidationError
      "El precio debe ser un número válido mayor o igual a 0" p).focus "price")
  else if (isNaNInt quantity || ltZeroInt quantity) = true then
    (true, (AddProduct.showValidationError
      "La cantidad debe ser un número válido mayor o igual a 0" p).focus "quantity")
  else if (isNaNInt stockMin || ltZeroInt stockMin) = true then
    (true, (AddProduct.showValidationError
      "El stock mínimo debe ser un número válido mayor o igual a 0" p).focus "stock_min")
  else if confirm ("¿Está seguro de agregar el producto \"" ++ name ++ "\"?") = false then
    (true, p)
  else (false, p)

/-- The listener of `blur` registered by `capitalizeFirstLetter(element)`, as a
function of the value of the element. -/
def capitalizeFirstLetter (value : String) : String :=
  match value.data with
  | [] => value
  | c :: cs => String.mk (upperChar c ++ cs)

/-- The text fields of the add-product form that have listeners of `blur`. -/
inductive TextField where
  | name
  | category
  | provider
  | sku
deriving DecidableEq, Repr

/-- The listeners of `blur` of a text field, run in the order of their
registration, as a function of the value of the field: the one of
capitalizeFirstLetter first, for the fields that have it, then the one that
trims. -/
def blurValue (f : TextField) (value : String) : String :=
  match f with
  | .sku => jsTrim value
  | _ => jsTrim (capitalizeFirstLetter value)

/-- The value of a text field. -/
def ProductPage.value (f : TextField) (p : ProductPage) : String :=
  match f with
  | .name => p.nameValue
  | .category => p.categoryValue
  | .provider => p.providerValue
  | .sku => p.skuValue

/-- The event `blur` on a text field of the add-product form. -/
def blur (f : TextField) (p : ProductPage) : ProductPage :=
  match f with
  | .name => { p with nameValue := blurValue .name p.nameValue }
  | .category => { p with categoryValue := blurValue .category p.categoryValue }
  | .provider => { p with providerValue := blurValue .provider p.providerValue }
  | .sku => { p with skuValue := blurValue .sku p.skuValue }

/-- The add-product form as loaded, with nothing entered. -/
def productPage : ProductPage :=
  { now := 0, nameValue := "", categoryValue := "", skuValue := "", providerValue := "",
    priceValue := "", quantityValue := "", stockMinValue := "", skuClasses := [],
    alerts := [], nextNode := 0, timers := [], nextHandle := 0, focused := none }

/-- The three decimal digits of a number below 1000, with leading zeros. -/
def threeDigits (n : Nat) : String :=
  String.mk [Nat.digitChar (n / 100), Nat.digitChar (n / 10 % 10), Nat.digitChar (n % 10)]

/-- The first `k` characters of a text, a character being a UTF-16 code unit: a
character of two code units counts for two. -/
def firstUnits : Nat → List Char → List Char
  | _, [] => []
  | k, c :: cs => if utf16Units c ≤ k then c :: firstUnits (k - utf16Units c) cs else []

/-- The SKU in the words of the specification, for a three-digit number `n`: the
upper-cased first 3 characters of the trimmed category, or 'PROD' for a blank
category, the upper-cased first 2 characters of the trimmed name, a hyphen, and
the number in three digits. -/
def skuSpec (category name : String) (n : Nat) : String :=
  (if jsTrim category = "" then "PROD"
   else toUpperCase (String.mk (firstUnits 3 (jsTrim category).data))) ++
  toUpperCase (String.mk (firstUnits 2 (jsTrim name).data)) ++ "-" ++
  threeDigits n

/-- A value of `Math.random()`, the double nearest to 0.119: just below 0.119,
while its product by 1000 rounds to the double 119. -/
def roundedDraw : ℚ := 535928355657089 / 4503599627370496

/-- The add-product form with the category 'Electrónicos' and the name 'Mouse'
entered. -/
def mousePage : ProductPage :=
  { productPage with categoryValue := "Electrónicos", nameValue := "Mouse" }

/-- The add-product form with no category and the name 'Teclado' entered. -/
def tecladoPage : ProductPage :=
  { productPage with nameValue := "Teclado" }

/-- The check of the price fails: the price is not a number, or is negative. -/
def priceInvalid (p : ProductPage) : Bool :=
  (parseFloat p.priceValue).isNaN || (parseFloat p.priceValue).ltZero

/-- The check of the quantity fails: the quantity is not a number, or is
negative. -/
def quantityInvalid (p : ProductPage) : Bool :=
  isNaNInt (parseInt p.quantityValue) || ltZeroInt (parseInt p.quantityValue)

/-- The check of the minimum stock fails: it is not a number, or is negative. -/
def stockMinInvalid (p : ProductPage) : Bool :=
  isNaNInt (parseInt p.stockMinValue) || ltZeroInt (parseInt p.stockMinValue)

/-- The message of the confirmation dialog of the add-product form. -/
def confirmMessage (p : ProductPage) : String :=
  "¿Está seguro de agregar el producto \"" ++ jsTrim p.nameValue ++ "\"?"

/-- The add-product form filled in with a negative price and a quantity that is
not a number. -/
def badPricePage : ProductPage :=
  { productPage with nameValue := " Mouse ", categoryValue := "Electrónicos",
                     priceValue := "-12.50", quantityValue := "abc", stockMinValue := "2" }

/-- The add-product form filled in with valid values. -/
def validPage : ProductPage :=
  { productPage with nameValue := " Mouse ", categoryValue := "Electrónicos",
                     priceValue := "12.50", quantityValue := "3", stockMinValue := "2" }

/-! ## The report form -/

/-- A leap year of the Gregorian calendar. -/
def isLeapYear (y : Nat) : Bool :=
  (y % 4 == 0 && y % 100 != 0) || y % 400 == 0

/-- The number of days of a month. -/
def daysInMonth (y m : Nat) : Nat :=
  if m = 2 then (if isLeapYear y then 29 else 28)
  else if m = 4 ∨ m = 6 ∨ m = 9 ∨ m = 11 then 30
  else 31

/-- The number of days from 1970-01-01 to the given day of the Gregorian
calendar. -/
def daysFromCivil (y m d : Nat) : Int :=
  let y1 : Int := if m ≤ 2 then (y : Int) - 1 else (y : Int)
  let era : Int := y1 / 400
  let yoe : Int := y1 - era * 400
  let mp : Int := if m ≤ 2 then (m : Int) + 9 else (m : Int) - 3
  let doy : Int := (153 * mp + 2) / 5 + (d : Int) - 1
  let doe : Int := yoe * 365 + yoe / 4 - yoe / 100 + doy
  era * 146097 + doe - 719468

/-- The time value of `new Date(s)` in milliseconds, for the values that an
input of type `date` can hold: `yyyy-mm-dd` is midnight UTC of that day; the
empty string and every other text give an invalid date, `none`, whose time value
is `NaN`. -/
def dateTime (s : String) : Option Int :=
  match s.data with
  | [y1, y2, y3, y4, '-', m1, m2, '-', d1, d2] =>
    if [y1, y2, y3, y4, m1, m2, d1, d2].all isDigit then
      let y := decValue 0 [y1, y2, y3, y4]
      let m := decValue 0 [m1, m2]
      let d := decValue 0 [d1, d2]
      if 1 ≤ m ∧ m ≤ 12 ∧ 1 ≤ d ∧ d ≤ daysInMonth y m then
        some (daysFromCivil y m d * 86400000)
      else none
    else none
  | _ => none

/-- The value `Math.ceil(Math.abs(b - a) / (1000 * 60 * 60 * 24))` for two time
values; `none` is `NaN`. -/
def diffDays (a b : Option Int) : Option Int :=
  match a, b with
  | some x, some y => some (((Int.natAbs (y - x) + 86399999) / 86400000 : Nat) : Int)
  | _, _ => none

/-- The callbacks that the report script passes to setTimeout: the removal of a
validation alert, and the restoring of the submit button to the given content. -/
inductive ReportCallback where
  | removeAlert (node : Nat)
  | restoreButton (html : String)
deriving DecidableEq, Repr

/-- A pending timer of the report page. -/
structure ReportTimer where
  handle : Nat
  fireAt : Nat
  cb : ReportCallback
deriving DecidableEq, Repr

/-- The page of the report form: the values of the select `report_type` and of
the inputs `date_from` and `date_to`, the elements of class `validation-alert` of
the report container in document order (with the text of their message), the
submit button, the pending timers, and the element that has the focus. -/
structure ReportPage where
  now : Nat
  reportType : String
  dateFrom : String
  dateTo : String
  alerts : List Notice
  buttonDisabled : Bool
  buttonHtml : String
  buttonClasses : List String
  nextNode : Nat
  timers : List ReportTimer
  nextHandle : Nat
  focused : Option String
deriving DecidableEq, Repr

/-- The function `showValidationError(message)` of the report script, for a
message that is plain text: the first validation alert is removed, a new one
becomes the first child of the report container, and its removal is scheduled
after 8 s. -/
def CustomReports.showValidationError (message : String) (p : ReportPage) : ReportPage :=
  let alert : Notice := { node := p.nextNode, text := message, animation := "" }
  { p with
    alerts := alert :: p.alerts.drop 1
    nextNode := p.nextNode + 1
    timers := p.timers ++
      [{ handle := p.nextHandle, fireAt := p.now + 8000, cb := .removeAlert p.nextNode }]
    nextHandle := p.nextHandle + 1 }

/-- The function `showLoadingIndicator()`: the submit button is disabled and
shows that the report is being generated; it is restored after 10 s. -/
def showLoadingIndicator (p : ReportPage) : ReportPage :=
  { p with
    buttonDisabled := true
    buttonHtml := "<span class=\"btn-icon\">⏳</span>Generando reporte..."
    buttonClasses := addClass "loading" p.buttonClasses
    timers := p.timers ++
      [{ handle := p.nextHandle, fireAt := p.now + 10000, cb := .restoreButton p.buttonHtml }]
    nextHandle := p.nextHandle + 1 }

/-- The call `focus()` on the element with the given id. -/
def ReportPage.focus (id : String) (p : ReportPage) : ReportPage :=
  { p with focused := some id }

/-- The listener of `submit` of the report form.  `confirm` is the answer of the
user to a confirmation dialog with the given message; the first component of
the result tells whether `preventDefault` was called. -/
def CustomReports.onSubmit (confirm : String → Bool) (p : ReportPage) : Bool × ReportPage :=
  let reportType := p.reportType
  if reportType = "" then
    (true, (CustomReports.showValidationError "Por favor selecciona un tipo de reporte" p).focus
      "report_type")
  else if reportType = "movements_by_period" then
    let dateFrom := p.dateFrom
    let dateTo := p.dateTo
    if dateFrom ≠ "" ∧ dateTo ≠ "" ∧ jsGt (dateTime dateFrom) (dateTime dateTo) = true then
      (true, (CustomReports.showValidationError
        "La fecha \"Desde\" no puede ser posterior a la fecha \"Hasta\"" p).focus "date_from")
    else if dateFrom ≠ "" ∧ dateTo ≠ "" ∧
        jsGt (diffDays (dateTime dateFrom) (dateTime dateTo)) (some 365) = true ∧
        confirm ("El rango de fechas es muy amplio (más de 1 año). " ++
          "Esto puede generar un reporte muy extenso. ¿Deseas continuar?") = false then
      (true, p)
    else (false, showLoadingIndicator p)
  else (false, showLoadingIndicator p)

/-- The report form with the dates of a movements report entered the wrong way
round. -/
def invertedDatesPage : ReportPage :=
  { now := 0, reportType := "movements_by_period", dateFrom := "2024-03-10",
    dateTo := "2024-03-01", alerts := [], buttonDisabled := false,
    buttonHtml := "<span class=\"btn-icon\">📊</span>Generar Movimientos", buttonClasses := [],
    nextNode := 0, timers := [], nextHandle := 0, focused := none }

/-- The same form after the user has changed the report type to the general
inventory: the date fields are hidden and keep their values. -/
def inventoryReportPage : ReportPage :=
  { invertedDatesPage with reportType := "inventory_general" }

/-! ## The form scripts: timers that run, and sequences of events -/

/-- A call of the function that shows a message (showValidationError or
showTemporaryWarning), or the firing of the pending timer with the given
handle. -/
inductive NoticeStep where
  | call (message : String)
  | timer (handle : Nat)
deriving DecidableEq, Repr

/-- The pending timer with handle `h` of the stock adjustment page runs, at its
due time or later: the outer callback of showTemporaryWarning starts the exit
animation of its warning, if it is still in the document, and schedules the
inner one, which removes the warning if it is still in the document. -/
def StockPage.fireTimer (h : Nat) (p : StockPage) : StockPage :=
  match p.timers.find? (fun t => t.handle = h) with
  | none => p
  | some t =>
    let p1 := { p with timers := p.timers.filter (fun u => u.handle != h)
                       now := max p.now t.fireAt }
    match t.cb with
    | .slideOut node =>
      if p1.warnings.any (fun w => w.node = node) then
        { p1 with
          warnings := p1.warnings.map
            (fun w => if w.node = node then { w with animation := "slideOut 0.3s ease" } else w)
          timers := p1.timers ++
            [{ handle := p1.nextHandle, fireAt := p1.now + 300, cb := .remove node }]
          nextHandle := p1.nextHandle + 1 }
      else p1
    | .remove node => { p1 with warnings := p1.warnings.filter (fun w => w.node != node) }

/-- The call `focus()` on the element with the given id. -/
def StockPage.focus (id : String) (p : StockPage) : StockPage :=
  { p with focused := some id }

/-- The test `!x` on the result of parseInt: `NaN` and 0 are falsy. -/
def falsyInt : Option Int → Bool
  | some n => n == 0
  | none => true

/-- The test `x <= 0` on the result of parseInt. -/
def leZeroInt : Option Int → Bool
  | some n => decide (n ≤ 0)
  | none => false

/-- The message of the confirmation dialog of the stock adjustment form. -/
def stockConfirmMessage (p : StockPage) : String :=
  "¿Está seguro de " ++ (if p.adjustmentType = "add" then "agregar" else "reducir") ++ " " ++
    numberToString (parseInt p.quantityValue) ++ " unidades?\n\nMotivo: " ++ jsTrim p.reasonValue

/-- The listener of `submit` of the stock adjustment form.  `confirm` is the
answer of the user to a confirmation dialog with the given message; the first
component of the result tells whether `preventDefault` was called. -/
def StockAdjustment.onSubmit (confirm : String → Bool) (p : StockPage) : Bool × StockPage :=
  let adjustmentType := p.adjustmentType
  let quantity := parseInt p.quantityValue
  let reason := jsTrim p.reasonValue
  if adjustmentType = "" then
    (true, (showTemporaryWarning "Debe seleccionar un tipo de ajuste" p).focus "adjustment_type")
  else if (falsyInt quantity || leZeroInt quantity) = true then
    (true, (showTemporaryWarning "Debe ingresar una cantidad válida" p).focus "quantity")
  else if reason = "" then
    (true, (showTemporaryWarning "Debe especificar el motivo del ajuste" p).focus "reason")
  else if confirm (stockConfirmMessage p) = false then (true, p)
  else (false, p)

/-- An event on the fields of the stock adjustment form: the user picks a type in
the select `adjustment_type` (event `change`), or edits the input `quantity`
(event `input`). -/
inductive StockStep where
  | select (type : String)
  | input (text : String)
deriving DecidableEq, Repr

/-- The effect of a sequence of events on the fields of the stock adjustment
form, in order. -/
def StockAdjustment.run (steps : List StockStep) (p : StockPage) : StockPage :=
  steps.foldl (fun q s => match s with
    | .select type => selectType type q
    | .input text => enterQuantity text q) p

/-- The effect of a sequence of calls of showTemporaryWarning and of firings of
timers on the stock adjustment page, in order. -/
def StockAdjustment.runNotices (steps : List NoticeStep) (p : StockPage) : StockPage :=
  steps.foldl (fun q s => match s with
    | .call message => showTemporaryWarning message q
    | .timer h => q.fireTimer h) p

/-- The function `checkAutoGenerate()`, when `Math.random()` returns `r`. -/
def checkAutoGenerate (r : ℚ) (p : ProductPage) : ProductPage :=
  if jsLength p.nameValue ≥ 2 ∧ jsLength p.categoryValue ≥ 2 then
    if jsTrim p.skuValue = "" then generateSKU r p else p
  else p

/-- The user edits the field `name` to hold `text`, and the `input` event runs
its listener, checkAutoGenerate. -/
def inputName (text : String) (r : ℚ) (p : ProductPage) : ProductPage :=
  checkAutoGenerate r { p with nameValue := text }

/-- The user edits the field `category` to hold `text`, and the `input` event
runs its listener, checkAutoGenerate. -/
def inputCategory (text : String) (r : ℚ) (p : ProductPage) : ProductPage :=
  checkAutoGenerate r { p with categoryValue := text }

/-- The pending timer with handle `h` of the add-product page runs, at its due
time or later: the feedback class of the field `sku` is removed, or the
validation alert is removed if it is still in the document. -/
def ProductPage.fireTimer (h : Nat) (p : ProductPage) : ProductPage :=
  match p.timers.find? (fun t => t.handle = h) with
  | none => p
  | some t =>
    let p1 := { p with timers := p.timers.filter (fun u => u.handle != h)
                       now := max p.now t.fireAt }
    match t.cb with
    | .skuFeedbackDone => { p1 with skuClasses := removeClass "sku-generated" p1.skuClasses }
    | .removeAlert node => { p1 with alerts := p1.alerts.filter (fun a => a.node != node) }

/-- The effect of a sequence of calls of showValidationError and of firings of
timers on the add-product page, in order. -/
def AddProduct.runNotices (steps : List NoticeStep) (p : ProductPage) : ProductPage :=
  steps.foldl (fun q s => match s with
    | .call message => AddProduct.showValidationError message q
    | .timer h => q.fireTimer h) p

/-- The pending timer with handle `h` of the report page runs, at its due time or
later: the validation alert is removed if it is still in the document, or the
submit button is restored. -/
def ReportPage.fireTimer (h : Nat) (p : ReportPage) : ReportPage :=
  match p.timers.find? (fun t => t.handle = h) with
  | none => p
  | some t =>
    let p1 := { p with timers := p.timers.filter (fun u => u.handle != h)
                       now := max p.now t.fireAt }
    match t.cb with
    | .removeAlert node => { p1 with alerts := p1.alerts.filter (fun a => a.node != node) }
    | .restoreButton html =>
      { p1 with buttonDisabled := false, buttonHtml := html,
                buttonClasses := removeClass "loading" p1.buttonClasses }

/-- The effect of a sequence of calls of showValidationError and of firings of
timers on the report page, in order. -/
def CustomReports.runNotices (steps : List NoticeStep) (p : ReportPage) : ReportPage :=
  steps.foldl (fun q s => match s with
    | .call message => CustomReports.showValidationError message q
    | .timer h => q.fireTimer h) p

/-- The stock adjustment form filled in to remove 5 units, with no reason
given. -/
def noReasonPage : StockPage :=
  { selectType "subtract" stockPage with quantityValue := "5", reasonValue := "  " }

/-- The add-product form with a name, a category and an SKU typed by the
user. -/
def manualSkuPage : ProductPage :=
  { productPage with nameValue := "Mouse", categoryValue := "Electrónicos",
                     skuValue := "MO-001" }

/-! ## The reports page: the chart of the most moved products -/

/-- The UTF-16 code units of a character. -/
def charUnits (c : Char) : List Nat :=
  if c.toNat < 0x10000 then [c.toNat]
  else [0xD800 + (c.toNat - 0x10000) / 0x400, 0xDC00 + (c.toNat - 0x10000) % 0x400]

/-- The UTF-16 code units of a string. -/
def utf16 (s : String) : List Nat :=
  (s.data.map charUnits).flatten

/-- An element of the array given to createMostMovedChart.  The name is kept as
the sequence of its UTF-16 code units, which is what `length` and `substring`
count. -/
structure MovedProduct where
  productName : List Nat
  movementCount : Int
deriving DecidableEq, Repr

/-- What createMostMovedChart hands to `new Chart`: the labels of the x axis, the
data of the series, and the array `fullNames` that the tooltip callbacks read. -/
structure BarChart where
  labels : List (List Nat)
  data : List Int
  fullNames : List (List Nat)
deriving DecidableEq, Repr

/-- The tooltip callback `title` for the data index `i`: `fullNames[i]`; `none`
is `undefined`. -/
def BarChart.tooltipTitle (c : BarChart) (i : Nat) : Option (List Nat) :=
  c.fullNames[i]?

/-- The label that createMostMovedChart builds from a product name. -/
def chartLabel (name : List Nat) : List Nat :=
  if name.length > 15 then name.take 15 ++ utf16 "..." else name

/-- The function `createMostMovedChart(mostMovedProducts)`.  The argument is
`none` for `null` or `undefined`; `canvas` tells whether the element
`mostMovedChart` is in the document.  The result is the chart that was created,
if any. -/
def createMostMovedChart (mostMovedProducts : Option (List MovedProduct)) (canvas : Bool) :
    Option BarChart :=
  match mostMovedProducts with
  | none => none
  | some products =>
    if products.length = 0 then none
    else if !canvas then none
    else
      some { labels := products.map (fun product => chartLabel product.productName)
             data := products.map (fun product => product.movementCount)
             fullNames := products.map (fun product => product.productName) }

/-- Two products, the second with a name of 31 characters. -/
def sampleProducts : List MovedProduct :=
  [{ productName := utf16 "Mouse", movementCount := 12 },
   { productName := utf16 "Teclado mecánico retroiluminado", movementCount := 7 }]

/-! ## The life of an alert -/

/-- The pending timers that act on the element `n`. -/
def timersOn (n : Nat) (q : Page) : List Timer :=
  q.timers.filter (fun t => t.cb.target == some n)

/-- What is known of the element `n` at a point of its life: it is in the
document, every element with that node has the given `display` and `opacity`,
and the pending timers that act on it are those of `pending`. -/
def Stage (n : Nat) (display opacity : String) (pending : List Timer) (q : Page) : Prop :=
  (∃ a ∈ q.alerts, a.node = n) ∧
  (∀ a ∈ q.alerts, a.node = n → a.style.display = display ∧ a.style.opacity = opacity) ∧
  timersOn n q = pending

/-- The page when the timer `u` has been taken from the pending timers to run at
its due time. -/
def dequeued (u : Timer) (q : Page) : Page :=
  { q with timers := q.timers.filter (fun v => v.handle != u.handle)
           now := max q.now u.fireAt }

/-- The life of the element `n` that showAlert created at time `t0` with a
duration of `D` ms, its timers having the handles `h0` and `h0 + 1`, while the
timers due by the time `T` run: the element is created and waits for its
fade-in; or it has faded in and waits for its dismissal; or hideAlert has
started to hide it; or it is hidden. -/
def Life (n h0 t0 D T : Nat) (q : Page) : Prop :=
  TimersOk q ∧
  ((Stage n "" "0" [{ handle := h0, fireAt := t0 + 100, cb := .fadeIn n },
                    { handle := h0 + 1, fireAt := t0 + D, cb := .autoHide n }] q ∧
      q.now ≤ t0 + D) ∨
   (Stage n "" "1" [{ handle := h0 + 1, fireAt := t0 + D, cb := .autoHide n }] q ∧
      q.now ≤ t0 + D ∧ t0 + 100 ≤ T) ∨
   (∃ h, Stage n "" "0" [{ handle := h, fireAt := t0 + D + 300, cb := .hideDone n }] q ∧
      t0 + D ≤ T) ∨
   (Stage n "none" "0" [] q ∧ t0 + D + 300 ≤ T))

/-- An alert with a duration of 50 ms has just been shown on the empty page. -/
def briefAlertPage : Page :=
  (showAlert "Stock bajo" "warning" 50 emptyPage).2

/-! ## The form scripts: looking up the elements at initialisation -/

/-- A use of a node that the initialisation of a script has looked up, with
the listener that it registers on it or the property that it reads.  The node
is named by the selector of its lookup; `.btn-primary lastChild` names the
result of `submitBtn.querySelector('span:not(.btn-icon)') || submitBtn.lastChild`
in updateSubmitButton, which is a node exactly when the button `.btn-primary`
has a child node.  A `required` use has no check before it: it is a method call
or a property read on the result of the lookup.  An `optional` use comes after a
check of presence.  An `optionalUnless` use comes after a check that the element
is present and that no element matches the selector `other`. -/
inductive Lookup where
  | required (selector : String) (use : String)
  | optional (selector : String) (use : String)
  | optionalUnless (selector : String) (other : String) (use : String)
deriving DecidableEq, Repr

/-- The selector of a use. -/
def Lookup.selector : Lookup → String
  | .required selector _ => selector
  | .optional selector _ => selector
  | .optionalUnless selector _ _ => selector

/-- What a use registers or reads. -/
def Lookup.use : Lookup → String
  | .required _ use => use
  | .optional _ use => use
  | .optionalUnless _ _ use => use

/-- Whether a use is made on a document in which `present` tells the selectors
that find an element, when the script reaches it. -/
def Lookup.made (present : String → Bool) : Lookup → Bool
  | .required selector _ => present selector
  | .optional selector _ => present selector
  | .optionalUnless selector other _ => present selector && !present other

/-- Run the uses in order on a document in which `present` tells the lookups
that find a node.  A `required` use of an absent node raises a TypeError
(a method call or a property read on `null`), and nothing after it runs.  The
result is the list of the uses that were made, and the error that was raised, if
any. -/
def runLookups (present : String → Bool) :
    List Lookup → List (String × String) → List (String × String) × Option String
  | [], done => (done, none)
  | .required selector use :: rest, done =>
    if present selector then runLookups present rest (done ++ [(selector, use)])
    else (done, some ("TypeError: " ++ selector ++ " is null"))
  | .optional selector use :: rest, done =>
    runLookups present rest (if present selector then done ++ [(selector, use)] else done)
  | .optionalUnless selector other use :: rest, done =>
    runLookups present rest
      (if present selector && !present other then done ++ [(selector, use)] else done)

/-- The selectors of the uses that have no check before them. -/
def requiredSelectors : List Lookup → List String
  | [] => []
  | .required selector _ :: rest => selector :: requiredSelectors rest
  | .optional _ _ :: rest => requiredSelectors rest
  | .optionalUnless _ _ _ :: rest => requiredSelectors rest

/-- The uses that are made when no use raises an error. -/
def usesMade (present : String → Bool) (l : List Lookup) : List (String × String) :=
  (l.filter (fun k => k.made present)).map (fun k => (k.selector, k.use))

/-- The uses of elements in the initialisation of add_product.js, in the order
of the source. -/
def AddProduct.lookups : List Lookup :=
  [.required "#name" "input", .required "#category" "input",
   .required ".add-product-form form" "submit", .required "#price" "blur",
   .required "#quantity" "input", .required "#price" "input", .required "#stock_min" "input",
   .required "#name" "blur", .required "#category" "blur", .required "#provider" "blur",
   .required "#name" "blur", .required "#category" "blur", .required "#provider" "blur",
   .required "#sku" "blur"]

/-- The uses of elements in the initialisation of quick_stock_adjustment.js, in
the order of the source. -/
def StockAdjustment.lookups : List Lookup :=
  [.required "[data-current-stock]" "dataset", .required "#adjustment_type" "change",
   .required "#quantity" "input", .required ".adjustment-form-container form" "submit"]

/-- The uses of elements in the initialisation of custom_reports.js, in the
order of the source, when the select of the report type holds `reportType`: the
first call of updateFormFields with updateSubmitButton (which reads `nodeType`
of the text of the button in either branch), the listener of `submit`, and the
uses that a check guards.  The call of loadSavedFilters, inside `try`,
raises nothing. -/
def CustomReports.lookups (reportType : String) : List Lookup :=
  [.required "#report_type" "value"] ++
  (if reportType = "movements_by_period" then
     [.required "#date_from" "value", .required "#date_to" "value"] else []) ++
  [.required ".btn-primary" "querySelector", .required ".btn-primary lastChild" "nodeType",
   .required ".report-form" "submit",
   .optional "#category" "focus", .optional "#category" "blur",
   .optional "#provider" "focus", .optional "#provider" "blur",
   .optional "#report_type" "change", .optional "#category" "change",
   .optional "#provider" "change", .optional "#date_from" "change",
   .optional "#date_to" "change", .optional "#stock_level" "change",
   .optionalUnless ".form-actions" ".clear-filters-btn" "appendChild"]

/-- The initialisation of add_product.js: the uses made, and the error raised,
if any. -/
def AddProduct.init (present : String → Bool) : List (String × String) × Option String :=
  runLookups present AddProduct.lookups []

/-- The initialisation of quick_stock_adjustment.js: the uses made, and the error
raised, if any. -/
def StockAdjustment.init (present : String → Bool) :
    List (String × String) × Option String :=
  runLookups present StockAdjustment.lookups []

/-- The initialisation of custom_reports.js: the uses made, and the error
raised, if any. -/
def CustomReports.init (reportType : String) (present : String → Bool) :
    List (String × String) × Option String :=
  runLookups present (CustomReports.lookups reportType) []

/-- A document in which every lookup finds a node but the given one. -/
def allBut (missing : String) (selector : String) : Bool :=
  selector != missing

/-- A page of reports that has no select of categories, before the script has
added its button. -/
def noCategoryDocument (selector : String) : Bool :=
  selector != "#category" && selector != ".clear-filters-btn"

/-! ## The report form: saved filters -/

/-- The object that saveFilters writes to the local storage as JSON. -/
structure SavedFilters where
  report_type : String
  category : String
  provider : String
  date_from : String
  date_to : String
  stock_level : String
deriving DecidableEq, Repr

/-- The filter fields of the report form: the values and the options of the
selects `report_type`, `category` and `provider` (the last two are `none` when the
element is not in the page), the values of the fields `date_from`, `date_to` and
`stock_level`, whether the groups of date fields and of stock fields are shown,
the text of the submit button, and the entry `customReportFilters` of the local
storage. -/
structure FilterForm where
  reportType : String
  reportTypeOptions : List String
  category : Option String
  categoryOptions : List String
  provider : Option String
  providerOptions : List String
  dateFrom : String
  dateTo : String
  stockLevel : String
  dateFieldsShown : Bool
  stockFieldsShown : Bool
  buttonText : String
  storage : Option SavedFilters
deriving DecidableEq, Repr

/-- The assignment `select.value = v`: a value that no option has selects
nothing, and the value of the select is then empty. -/
def setSelect (options : List String) (v : String) : String :=
  if v ∈ options then v else ""

/-- The text that updateSubmitButton gives to the submit button. -/
def submitButtonText (reportType : String) : String :=
  if reportType = "inventory_general" then "Generar Inventario General"
  else if reportType = "inventory_by_category" then "Generar por Categoría"
  else if reportType = "low_stock" then "Generar Stock Bajo"
  else if reportType = "movements_by_period" then "Generar Movimientos"
  else if reportType = "value_by_provider" then "Generar por Proveedor"
  else "Generar Reporte"

/-- The function `updateFormFields()`, as far as the filter fields go: `today`
and `lastMonth` are the dates of today and of one month ago, as `yyyy-mm-dd`. -/
def updateFormFields (today lastMonth : String) (f : FilterForm) : FilterForm :=
  let f1 := { f with dateFieldsShown := decide (f.reportType = "movements_by_period")
                     stockFieldsShown := decide (f.reportType = "inventory_general")
                     buttonText := submitButtonText f.reportType }
  if f.reportType = "movements_by_period" then
    { f1 with dateFrom := if f.dateFrom = "" then lastMonth else f.dateFrom
              dateTo := if f.dateTo = "" then today else f.dateTo }
  else f1

/-- The function `saveFilters()`. -/
def saveFilters (f : FilterForm) : FilterForm :=
  let filters : SavedFilters :=
    { report_type := f.reportType
      category := f.category.getD ""
      provider := f.provider.getD ""
      date_from := f.dateFrom
      date_to := f.dateTo
      stock_level := f.stockLevel }
  { f with storage := some filters }

/-- The function `loadSavedFilters()`, on a storage that holds nothing or what
saveFilters wrote. -/
def loadSavedFilters (today lastMonth : String) (f : FilterForm) : FilterForm :=
  match f.storage with
  | none => f
  | some filters =>
    let f1 := if f.reportType = "" ∧ filters.report_type ≠ "" then
                { f with reportType := setSelect f.reportTypeOptions filters.report_type }
              else f
    let f2 := if f1.category = some "" ∧ filters.category ≠ "" then
                { f1 with category := some (setSelect f1.categoryOptions filters.category) }
              else f1
    let f3 := if f2.provider = some "" ∧ filters.provider ≠ "" then
                { f2 with provider := some (setSelect f2.providerOptions filters.provider) }
              else f2
    updateFormFields today lastMonth f3

/-- The form on a later visit of the page: the fields are empty, the local
storage is kept. -/
def reloaded (f : FilterForm) : FilterForm :=
  { f with reportType := "", category := f.category.map (fun _ => ""),
           provider := f.provider.map (fun _ => ""), dateFrom := "", dateTo := "",
           stockLevel := "", dateFieldsShown := false, stockFieldsShown := false,
           buttonText := "Generar Reporte" }

/-- A report form set for the general inventory of a category, with the stock
level 'low'. -/
def inventoryFilters : FilterForm :=
  { reportType := "inventory_general",
    reportTypeOptions := ["", "inventory_general", "inventory_by_category", "low_stock",
                          "movements_by_period", "value_by_provider"],
    category := some "Periféricos", categoryOptions := ["", "Periféricos", "Monitores"],
    provider := some "", providerOptions := ["", "Logitech"],
    dateFrom := "", dateTo := "", stockLevel := "low",
    dateFieldsShown := false, stockFieldsShown := true,
    buttonText := "Generar Inventario General", storage := none }

/-- A report form set for the movements of January 2024. -/
def movementFilters : FilterForm :=
  { inventoryFilters with reportType := "movements_by_period", dateFrom := "2024-01-01",
                          dateTo := "2024-01-31", stockLevel := "",
                          dateFieldsShown := true, stockFieldsShown := false,
                          buttonText := "Generar Movimientos" }

/-! ## The dashboard -/

/-- The state of the dashboard page that the refresh controls act on: the
handles of the active intervals that run autoRefresh, the variable
`refreshTimer` (`none` is `undefined` or `null`), the next handle that
setInterval returns, the variable `isAutoRefreshEnabled`, the text and the title
of the toggle button, and `document.hidden`. -/
structure Dashboard where
  intervals : List Nat
  refreshTimer : Option Nat
  nextHandle : Nat
  isAutoRefreshEnabled : Bool
  toggleText : String
  toggleTitle : String
  hidden : Bool
deriving DecidableEq, Repr

/-- The function `startAutoRefresh()`. -/
def startAutoRefresh (d : Dashboard) : Dashboard :=
  { d with intervals := d.intervals ++ [d.nextHandle]
           refreshTimer := some d.nextHandle
           nextHandle := d.nextHandle + 1 }

/-- The function `stopAutoRefresh()`; a handle is truthy when it is not 0. -/
def stopAutoRefresh (d : Dashboard) : Dashboard :=
  match d.refreshTimer with
  | some h =>
    if h ≠ 0 then { d with intervals := d.intervals.filter (fun k => k != h)
                           refreshTimer := none }
    else d
  | none => d

/-- The listener of `click` of the toggle button. -/
def onToggleClick (d : Dashboard) : Dashboard :=
  if d.isAutoRefreshEnabled then
    { stopAutoRefresh d with toggleText := "▶️"
                             toggleTitle := "Reanudar actualización automática"
                             isAutoRefreshEnabled := false }
  else
    { startAutoRefresh d with toggleText := "⏸️"
                              toggleTitle := "Pausar actualización automática"
                              isAutoRefreshEnabled := true }

/-- The listener of `visibilitychange` of the dashboard, run when
`document.hidden` has become `hidden`; the time stamp that it updates is not
part of this state. -/
def Dashboard.onVisibilityChange (hidden : Bool) (d : Dashboard) : Dashboard :=
  if hidden then stopAutoRefresh { d with hidden := hidden }
  else startAutoRefresh { d with hidden := hidden }

/-- The dashboard after its initialisation on a visible page with a page header:
startAutoRefresh has run once, with the first handle, 1, and the controls are
added with auto-refresh enabled; the interval that updates the time stamp has
taken the handle 2. -/
def dashboardLoaded : Dashboard :=
  { startAutoRefresh { intervals := [], refreshTimer := none, nextHandle := 1,
                       isAutoRefreshEnabled := true, toggleText := "⏸️",
                       toggleTitle := "Pausar/Reanudar actualización automática",
                       hidden := false } with
    nextHandle := 3 }

/-- What the user does on the dashboard: a click on the toggle button, or the
page is hidden or shown. -/
inductive DashboardStep where
  | toggle
  | visibility (hidden : Bool)
deriving DecidableEq, Repr

/-- The effect of a sequence of steps on the dashboard, in order. -/
def Dashboard.run (steps : List DashboardStep) (d : Dashboard) : Dashboard :=
  steps.foldl (fun q s => match s with
    | .toggle => onToggleClick q
    | .visibility hidden => q.onVisibilityChange hidden) d

/-! ## An alert that is being hidden -/

/-- The style written by the fade-in timer of showAlert. -/
def fadedIn (s : Style) : Style :=
  { s with opacity := "1", transform := "translateY(0)" }

/-- The element `n` is in the document, its state satisfies `S`, and it is out
of the layout or will be by the time `D`: its display is 'none', or a timer of
hideAlert that sets it so is pending, due at `D` at the latest. -/
def Hidden (n : Nat) (S : AlertEl → Prop) (D : Nat) (q : Page) : Prop :=
  ∃ a, q.alert? n = some a ∧ S a ∧
    (a.style.display = "none" ∨ ∃ t ∈ q.timers, t.cb = .hideDone n ∧ t.fireAt ≤ D)

/-- The invariant of an element that is being hidden, on a page with well-formed
timers: `S` is kept by the fade-in if a fade-in of the element is pending. -/
def Hiding (n : Nat) (S : AlertEl → Prop) (D : Nat) (q : Page) : Prop :=
  TimersOk q ∧
  ((∃ t ∈ q.timers, t.cb = .fadeIn n) → ∀ b, S b → S { b with style := fadedIn b.style }) ∧
  Hidden n S D q

/-- What `S` must allow: the style that hideAlert writes on a displayed element,
and the style that its timer writes. -/
def HideStable (S : AlertEl → Prop) : Prop :=
  (∀ b, S b → b.style.display ≠ "none" → S { b with style := fadeOut b.style }) ∧
  (∀ b, S b → S { b with style := displayNone b.style })

/-- The page after showAlert has shown the message, `dt1` ms have passed,
hideAlert was called on the element that showAlert returned, and `dt2` more ms
have passed. -/
def shownThenHidden (m type : String) (d : Int) (dt1 dt2 : Nat) (p : Page) : Page :=
  elapse dt2 (hideAlert (some (showAlert m type d p).1) (elapse dt1 (showAlert m type d p).2))

/-- A message with markup of its own. -/
def markupMessage : String := "<b>Stock</b> bajo"

/-- A page with a session one second after loading: the inactivity timeout and
the dismissals of the alerts of the server are pending. -/
def busyPage : Page :=
  sessionPage sweptPage (.number 7) [.wait 1000]

/-! ## Properties of the alert system -/

theorem jsIncludes_append (a m b : String) : jsIncludes (a ++ m ++ b) m = true := by
  simp only [jsIncludes, List.any_eq_true, String.data_append]
  refine ⟨m.data ++ b.data, ?_, ?_⟩
  · rw [List.mem_tails]
    exact ⟨a.data, by simp⟩
  · simp

theorem htmlTokens_startsMarkup : ∀ t ∈ htmlTokens, startsMarkup t.1 = true ∧ t.1 ≠ [] := by
  decide

theorem startsMarkup_of_prefix (t s : List Char) (h : t.isPrefixOf s = true)
    (ht : startsMarkup t = true) : startsMarkup s = true := by
  match t, s with
  | [], _ => simp [startsMarkup] at ht
  | _ :: _, [] => simp [List.isPrefixOf] at h
  | [c], d :: s =>
    simp only [List.isPrefixOf, Bool.and_eq_true, beq_iff_eq] at h
    obtain ⟨rfl, -⟩ := h
    simp only [startsMarkup, opensTag, opensReference, Bool.and_false, Bool.or_false] at ht ⊢
    simp only [Bool.or_eq_true] at ht ⊢
    exact Or.inl (Or.inl ht)
  | c :: c2 :: t, [d] =>
    simp [List.isPrefixOf] at h
  | c :: c2 :: t, d :: d2 :: s =>
    simp only [List.isPrefixOf, Bool.and_eq_true, beq_iff_eq] at h
    obtain ⟨rfl, rfl, -⟩ := h
    simpa [startsMarkup, opensTag, opensReference] using ht

theorem plainText_not_startsMarkup (c : Char) (cs : List Char)
    (h : plainText (c :: cs) = true) : startsMarkup (c :: cs) = false ∧ plainText cs = true := by
  simp only [plainText, Bool.and_eq_true, bne_iff_ne, ne_eq, Bool.or_eq_true,
    Bool.not_eq_true'] at h
  obtain ⟨⟨⟨⟨h1, h2⟩, h3⟩, h4⟩, h5⟩ := h
  refine ⟨?_, h5⟩
  simp only [startsMarkup, Bool.or_eq_false_iff, Bool.and_eq_false_iff, beq_eq_false_iff_ne, ne_eq]
  exact ⟨⟨⟨h1, h2⟩, h3⟩, h4⟩

theorem htmlText_plain (cs : List Char) (h : plainText cs = true) : htmlText 0 cs = cs := by
  induction cs with
  | nil => rfl
  | cons c cs ih =>
    obtain ⟨h1, h2⟩ := plainText_not_startsMarkup c cs h
    have hf : htmlTokens.find? (fun t => t.1.isPrefixOf (c :: cs)) = none := by
      rw [List.find?_eq_none]
      intro t ht hp
      have := startsMarkup_of_prefix t.1 (c :: cs) hp (htmlTokens_startsMarkup t ht).1
      rw [h1] at this
      exact Bool.false_ne_true this
    rw [htmlText, hf, ih h2]

theorem alertTextContent_plain (m : String) (h : plainMessage m = true) :
    alertTextContent m = "\n            " ++ m ++ "\n            ×\n        " := by
  unfold alertTextContent
  rw [htmlText_plain m.data h]

theorem jsIncludes_alertTextContent (m : String) (h : plainMessage m = true) :
    jsIncludes (alertTextContent m) m = true := by
  rw [alertTextContent_plain m h]
  exact jsIncludes_append _ m _

/-- C3. hideAlert on an absent alert (`null` or `undefined`), or on an alert whose
display is already 'none', is a no-op: it returns normally and the page is
unchanged, so no style of any element changes and no timer is scheduled. -/
theorem hideAlert_absent_or_hidden (p : Page) (alert : Option Nat)
    (h : alert = none ∨
      ∃ n a, alert = some n ∧ p.alert? n = some a ∧ a.style.display = "none") :
    hideAlert alert p = p := by
  rcases h with h | ⟨n, a, hn, ha, hd⟩
  · subst h
    rfl
  · subst hn
    simp [hideAlert, ha, hd]

theorem hideAlert_absent_or_hidden_witness :
    (∃ n a, some 0 = some n ∧ hiddenAlertPage.alert? n = some a ∧
      a.style.display = "none") ∧
    hideAlert (some 0) hiddenAlertPage = hiddenAlertPage :=
  ⟨⟨0, _, rfl, rfl, rfl⟩,
   hideAlert_absent_or_hidden hiddenAlertPage (some 0) (Or.inr ⟨0, _, rfl, rfl, rfl⟩)⟩

/-- C2. If some `.alert` element has a text content containing the message,
showAlert returns the first such element in document order and leaves the page
unchanged (nothing inserted, no timer scheduled); otherwise it returns a newly
created element, inserted as the first child of the container. -/
theorem showAlert_existing_or_inserted (m type : String) (d : Int) (p : Page) :
    ((∃ a ∈ p.alerts, jsIncludes a.textContent m = true) →
      ∃ pre a post, p.alerts = pre ++ a :: post ∧ jsIncludes a.textContent m = true ∧
        (∀ b ∈ pre, jsIncludes b.textContent m = false) ∧
        showAlert m type d p = (a.node, p)) ∧
    ((∀ a ∈ p.alerts, jsIncludes a.textContent m = false) →
      (showAlert m type d p).1 = p.nextNode ∧
      (showAlert m type d p).2.nextNode = p.nextNode + 1 ∧
      (showAlert m type d p).2.beforeContainer = p.beforeContainer ∧
      (showAlert m type d p).2.fromContainer =
        newAlert p.nextNode m type :: p.fromContainer) := by
  constructor
  · rintro ⟨a, ha, hm⟩
    cases hf : p.alerts.find? (fun a => jsIncludes a.textContent m) with
    | none =>
      rw [List.find?_eq_none] at hf
      exact absurd hm (hf a ha)
    | some b =>
      obtain ⟨hb, pre, post, hsplit, hpre⟩ := List.find?_eq_some.mp hf
      refine ⟨pre, b, post, hsplit, hb, ?_, ?_⟩
      · intro c hc
        simpa using hpre c hc
      · simp [showAlert, hf]
  · intro hnone
    have hf : p.alerts.find? (fun a => jsIncludes a.textContent m) = none := by
      rw [List.find?_eq_none]
      intro x hx
      simp [hnone x hx]
    unfold showAlert
    rw [hf]
    by_cases hd : d > 0 <;> simp [hd, setTimeout, newAlert]

theorem showAlert_existing_or_inserted_witness :
    (∃ pre a post, twoAlertPage.alerts = pre ++ a :: post ∧
        jsIncludes a.textContent "Stock" = true ∧
        (∀ b ∈ pre, jsIncludes b.textContent "Stock" = false) ∧
        showAlert "Stock" "warning" 5000 twoAlertPage = (a.node, twoAlertPage)) ∧
    ((showAlert "Sin conexión" "error" 0 twoAlertPage).1 = twoAlertPage.nextNode ∧
      (showAlert "Sin conexión" "error" 0 twoAlertPage).2.nextNode =
        twoAlertPage.nextNode + 1 ∧
      (showAlert "Sin conexión" "error" 0 twoAlertPage).2.beforeContainer =
        twoAlertPage.beforeContainer ∧
      (showAlert "Sin conexión" "error" 0 twoAlertPage).2.fromContainer =
        newAlert twoAlertPage.nextNode "Sin conexión" "error" ::
          twoAlertPage.fromContainer) :=
  ⟨(showAlert_existing_or_inserted "Stock" "warning" 5000 twoAlertPage).1
      ⟨plainAlert 1 "Stock bajo" true, by decide, by decide⟩,
   (showAlert_existing_or_inserted "Sin conexión" "error" 0 twoAlertPage).2 (by decide)⟩

/-! ## Running timers: what is preserved -/

theorem hideAlert_cases (alert : Option Nat) (p : Page) :
    hideAlert alert p = p ∨
    ∃ a, alert.bind p.alert? = some a ∧ a.style.display ≠ "none" ∧
      hideAlert alert p = (setTimeout (.hideDone a.node) 300 (p.setStyle a.node fadeOut)).2 := by
  unfold hideAlert
  cases h : alert.bind p.alert? with
  | none => exact Or.inl rfl
  | some a =>
    by_cases hd : a.style.display = "none"
    · left
      simp [hd]
    · right
      exact ⟨a, rfl, hd, by show (if a.style.display ≠ "none" then _ else _) = _; rw [if_pos hd]; rfl⟩

theorem updateNode_style_ident (n : Nat) (f : Style → Style) (l : List AlertEl) :
    (updateNode n (fun a => { a with style := f a.style }) l).map AlertEl.ident =
      l.map AlertEl.ident := by
  induction l with
  | nil => rfl
  | cons a l ih =>
    simp only [updateNode, List.map_cons, List.map_map] at ih ⊢
    rw [ih]
    by_cases h : a.node = n <;> simp [h, AlertEl.ident]

theorem setStyle_ident (p : Page) (n : Nat) (f : Style → Style) :
    (p.setStyle n f).beforeContainer.map AlertEl.ident = p.beforeContainer.map AlertEl.ident ∧
    (p.setStyle n f).fromContainer.map AlertEl.ident = p.fromContainer.map AlertEl.ident :=
  ⟨updateNode_style_ident n f _, updateNode_style_ident n f _⟩

theorem hideAlert_ident (alert : Option Nat) (p : Page) :
    (hideAlert alert p).beforeContainer.map AlertEl.ident =
      p.beforeContainer.map AlertEl.ident ∧
    (hideAlert alert p).fromContainer.map AlertEl.ident =
      p.fromContainer.map AlertEl.ident := by
  rcases hideAlert_cases alert p with h | ⟨a, _, _, h⟩
  · rw [h]
    exact ⟨rfl, rfl⟩
  · rw [h]
    exact setStyle_ident p a.node fadeOut

theorem fire_ident (cb : Callback) (p : Page) :
    (fire cb p).beforeContainer.map AlertEl.ident = p.beforeContainer.map AlertEl.ident ∧
    (fire cb p).fromContainer.map AlertEl.ident = p.fromContainer.map AlertEl.ident := by
  cases cb with
  | hideDone n => exact setStyle_ident p n _
  | fadeIn n => exact setStyle_ident p n _
  | autoHide n => exact hideAlert_ident (some n) p
  | initAutoHide n t => exact hideAlert_ident (some n) p
  | inactivity =>
    simp only [fire]
    split <;> exact ⟨rfl, rfl⟩
  | forcedLogout => exact ⟨rfl, rfl⟩

/-- A property kept by every timer that runs is kept by running the due timers. -/
theorem runTimers_invariant (I : Page → Prop) (T : Nat)
    (hstep : ∀ p q, I p → runNext T p = some q → I q) :
    ∀ fuel p, I p → I (runTimers fuel T p) := by
  intro fuel
  induction fuel with
  | zero => intro p hp; exact hp
  | succ k ih =>
    intro p hp
    simp only [runTimers]
    cases h : runNext T p with
    | none => exact hp
    | some q => exact ih q (hstep p q hp h)

theorem runNext_eq_some {T : Nat} {p q : Page} (h : runNext T p = some q) :
    ∃ t, nextDue T p.timers = some t ∧
      q = fire t.cb { p with timers := p.timers.filter (fun u => u.handle != t.handle)
                             now := max p.now t.fireAt } := by
  unfold runNext at h
  cases hn : nextDue T p.timers with
  | none => simp [hn] at h
  | some t =>
    simp only [hn, Option.some.injEq] at h
    exact ⟨t, rfl, h.symm⟩

theorem elapse_ident (dt : Nat) (p : Page) :
    (elapse dt p).beforeContainer.map AlertEl.ident = p.beforeContainer.map AlertEl.ident ∧
    (elapse dt p).fromContainer.map AlertEl.ident = p.fromContainer.map AlertEl.ident := by
  have h := runTimers_invariant
    (fun q => q.beforeContainer.map AlertEl.ident = p.beforeContainer.map AlertEl.ident ∧
      q.fromContainer.map AlertEl.ident = p.fromContainer.map AlertEl.ident) (p.now + dt)
    (by
      intro a b ha hb
      obtain ⟨t, _, rfl⟩ := runNext_eq_some hb
      have := fire_ident t.cb { a with timers := a.timers.filter (fun u => u.handle != t.handle)
                                       now := max a.now t.fireAt }
      exact ⟨this.1.trans ha.1, this.2.trans ha.2⟩)
    (budget p.timers) p ⟨rfl, rfl⟩
  exact h

theorem find?_includes_none {m : String} {p : Page}
    (hnone : ∀ a ∈ p.alerts, jsIncludes a.textContent m = false) :
    p.alerts.find? (fun a => jsIncludes a.textContent m) = none := by
  rw [List.find?_eq_none]
  intro x hx
  simp [hnone x hx]

theorem showAlert_existing (m type : String) (d : Int) (p : Page) (x : AlertEl)
    (hfind : p.alerts.find? (fun a => jsIncludes a.textContent m) = some x) :
    showAlert m type d p = (x.node, p) := by
  unfold showAlert
  rw [hfind]

theorem timerDelay_eq (d : Int) (h0 : 0 ≤ d) (h1 : d ≤ 2147483647) :
    timerDelay d = d.toNat := by
  have hmod : d % 4294967296 = d := Int.emod_eq_of_lt h0 (by omega)
  unfold timerDelay
  rw [hmod, if_pos (by omega)]

theorem timerDelay_overflow (d : Int) (h0 : 2147483648 ≤ d) (h1 : d ≤ 4294967295) :
    timerDelay d = 0 := by
  have hmod : d % 4294967296 = d := Int.emod_eq_of_lt (by omega) (by omega)
  unfold timerDelay
  rw [hmod, if_neg (by omega)]

/-- The page after showAlert has created an element. -/
theorem showAlert_new (m type : String) (d : Int) (p : Page)
    (hnone : ∀ a ∈ p.alerts, jsIncludes a.textContent m = false) :
    showAlert m type d p =
      (p.nextNode,
       if d > 0 then
         (setTimeout (.autoHide p.nextNode) (timerDelay d)
           (setTimeout (.fadeIn p.nextNode) 100
             { p with fromContainer := newAlert p.nextNode m type :: p.fromContainer
                      nextNode := p.nextNode + 1 }).2).2
       else
         (setTimeout (.fadeIn p.nextNode) 100
           { p with fromContainer := newAlert p.nextNode m type :: p.fromContainer
                    nextNode := p.nextNode + 1 }).2) := by
  unfold showAlert
  rw [find?_includes_none hnone]
  rfl

theorem showAlert_new_lists (m type : String) (d : Int) (p : Page)
    (hnone : ∀ a ∈ p.alerts, jsIncludes a.textContent m = false) :
    (showAlert m type d p).1 = p.nextNode ∧
    (showAlert m type d p).2.beforeContainer = p.beforeContainer ∧
    (showAlert m type d p).2.fromContainer = newAlert p.nextNode m type :: p.fromContainer := by
  rw [showAlert_new m type d p hnone]
  by_cases hd : d > 0 <;> simp [hd, setTimeout]

theorem no_match_of_ident {m : String} {l l0 : List AlertEl}
    (h : l.map AlertEl.ident = l0.map AlertEl.ident)
    (h0 : ∀ a ∈ l0, jsIncludes a.textContent m = false) :
    ∀ a ∈ l, jsIncludes a.textContent m = false := by
  intro a ha
  have : a.ident ∈ l0.map AlertEl.ident := h ▸ List.mem_map_of_mem _ ha
  obtain ⟨b, hb, hab⟩ := List.mem_map.mp this
  have ht : b.textContent = a.textContent := congrArg Prod.snd hab
  rw [← ht]
  exact h0 b hb

/-- C1. When showAlert(m) has created an alert and is called again with the same
message while that alert is still displayed (timers may have run in between),
the second call returns the alert of the first call and leaves the page
unchanged, and exactly one displayed alert has a text containing m. -/
theorem showAlert_twice_one_alert (m type type2 : String) (d d2 : Int) (dt : Nat) (p : Page)
    (hplain : plainMessage m = true)
    (hnew : ∀ a ∈ p.alerts, jsIncludes a.textContent m = false)
    (hshown : ∀ a ∈ (elapse dt (showAlert m type d p).2).alerts,
      a.node = (showAlert m type d p).1 → a.style.display ≠ "none") :
    showAlert m type2 d2 (elapse dt (showAlert m type d p).2) =
      ((showAlert m type d p).1, elapse dt (showAlert m type d p).2) ∧
    ((elapse dt (showAlert m type d p).2).alerts.filter
        (fun a => jsIncludes a.textContent m && a.style.display != "none")).map
      AlertEl.node = [(showAlert m type d p).1] := by
  obtain ⟨h1, h2, h3⟩ := showAlert_new_lists m type d p hnew
  obtain ⟨e1, e2⟩ := elapse_ident dt (showAlert m type d p).2
  rw [h2] at e1
  rw [h3] at e2
  obtain ⟨x, rest, hx, hrest, hcons⟩ := List.map_eq_cons_iff.mp e2
  have hpre : ∀ a ∈ (elapse dt (showAlert m type d p).2).beforeContainer,
      jsIncludes a.textContent m = false :=
    no_match_of_ident e1 (fun a ha => hnew a (List.mem_append_left _ ha))
  have hpost : ∀ a ∈ rest, jsIncludes a.textContent m = false :=
    no_match_of_ident hcons (fun a ha => hnew a (List.mem_append_right _ ha))
  have hxnode : x.node = p.nextNode := congrArg Prod.fst hrest
  have hxtext : jsIncludes x.textContent m = true := by
    have : x.textContent = alertTextContent m := congrArg Prod.snd hrest
    rw [this]
    exact jsIncludes_alertTextContent m hplain
  have halerts : (elapse dt (showAlert m type d p).2).alerts =
      (elapse dt (showAlert m type d p).2).beforeContainer ++ x :: rest := by
    rw [Page.alerts, hx]
  have hxshown : x.style.display ≠ "none" :=
    hshown x (by rw [halerts]; simp) (by rw [hxnode, h1])
  constructor
  · have hfind : (elapse dt (showAlert m type d p).2).alerts.find?
        (fun a => jsIncludes a.textContent m) = some x := by
      rw [List.find?_eq_some]
      exact ⟨hxtext, _, rest, halerts, fun a ha => by simp [hpre a ha]⟩
    rw [showAlert_existing m type2 d2 _ x hfind, hxnode, h1]
  · rw [halerts, List.filter_append, List.filter_cons]
    have hA : (elapse dt (showAlert m type d p).2).beforeContainer.filter
        (fun a => jsIncludes a.textContent m && a.style.display != "none") = [] := by
      rw [List.filter_eq_nil_iff]
      intro a ha
      simp [hpre a ha]
    have hB : rest.filter
        (fun a => jsIncludes a.textContent m && a.style.display != "none") = [] := by
      rw [List.filter_eq_nil_iff]
      intro a ha
      simp [hpost a ha]
    rw [hA, hB]
    simp [hxtext, hxshown, hxnode, h1]

theorem showAlert_twice_one_alert_witness :
    plainMessage "Sin conexión" = true ∧
    (∀ a ∈ twoAlertPage.alerts, jsIncludes a.textContent "Sin conexión" = false) ∧
    (∀ a ∈ (elapse 200 (showAlert "Sin conexión" "error" 5000 twoAlertPage).2).alerts,
      a.node = (showAlert "Sin conexión" "error" 5000 twoAlertPage).1 →
        a.style.display ≠ "none") ∧
    showAlert "Sin conexión" "error" 5000
        (elapse 200 (showAlert "Sin conexión" "error" 5000 twoAlertPage).2) =
      ((showAlert "Sin conexión" "error" 5000 twoAlertPage).1,
        elapse 200 (showAlert "Sin conexión" "error" 5000 twoAlertPage).2) ∧
    ((elapse 200 (showAlert "Sin conexión" "error" 5000 twoAlertPage).2).alerts.filter
        (fun a => jsIncludes a.textContent "Sin conexión" && a.style.display != "none")).map
      AlertEl.node = [(showAlert "Sin conexión" "error" 5000 twoAlertPage).1] :=
  ⟨by decide, by decide, by decide,
   showAlert_twice_one_alert "Sin conexión" "error" "error" 5000 5000 200 twoAlertPage
     (by decide) (by decide) (by decide)⟩

theorem nextDue_mem {T : Nat} {ts : List Timer} {t : Timer} (h : nextDue T ts = some t) :
    t ∈ ts ∧ t.fireAt ≤ T := by
  induction ts generalizing t with
  | nil => simp [nextDue] at h
  | cons u us ih =>
    simp only [nextDue] at h
    cases hn : nextDue T us with
    | none =>
      simp only [hn] at h
      by_cases hu : u.fireAt ≤ T
      · simp only [hu, if_true, Option.some.injEq] at h
        subst h
        exact ⟨List.mem_cons_self _ _, hu⟩
      · simp [hu] at h
    | some b =>
      simp only [hn] at h
      obtain ⟨hb, hbT⟩ := ih hn
      by_cases hu : u.fireAt ≤ b.fireAt
      · simp only [hu, if_true, Option.some.injEq] at h
        subst h
        exact ⟨List.mem_cons_self _ _, le_trans hu hbT⟩
      · simp only [hu, if_false, Option.some.injEq] at h
        subst h
        exact ⟨List.mem_cons_of_mem _ hb, hbT⟩

theorem mem_updateNode {n : Nat} {f : AlertEl → AlertEl} {l : List AlertEl} {a : AlertEl}
    (h : a ∈ updateNode n f l) :
    a ∈ l ∧ a.node ≠ n ∨ ∃ b ∈ l, b.node = n ∧ a = f b := by
  simp only [updateNode, List.mem_map] at h
  obtain ⟨b, hb, hab⟩ := h
  by_cases hn : b.node = n
  · right
    exact ⟨b, hb, hn, by simp [hn] at hab; exact hab.symm⟩
  · left
    simp only [hn, if_false] at hab
    subst hab
    exact ⟨hb, hn⟩

/-- An element of the page after a style change is an element of the page before,
with its style changed when its node is the one addressed. -/
theorem mem_setStyle {p : Page} {k : Nat} {f : Style → Style} {a : AlertEl}
    (h : a ∈ (p.setStyle k f).alerts) :
    a ∈ p.alerts ∧ a.node ≠ k ∨
    ∃ b ∈ p.alerts, b.node = k ∧ a.node = k ∧ a.style = f b.style := by
  simp only [Page.alerts, Page.setStyle, List.mem_append] at h ⊢
  rcases h with h | h
  · rcases mem_updateNode h with ⟨h1, h2⟩ | ⟨b, hb, hk, rfl⟩
    · exact Or.inl ⟨Or.inl h1, h2⟩
    · exact Or.inr ⟨b, Or.inl hb, hk, hk, rfl⟩
  · rcases mem_updateNode h with ⟨h1, h2⟩ | ⟨b, hb, hk, rfl⟩
    · exact Or.inl ⟨Or.inr h1, h2⟩
    · exact Or.inr ⟨b, Or.inr hb, hk, hk, rfl⟩

theorem alert?_node {p : Page} {k : Nat} {a : AlertEl} (h : p.alert? k = some a) :
    a.node = k := by
  have := List.find?_some h
  simpa using this

theorem staysShown_setStyle {n k : Nat} {f : Style → Style} {q : Page}
    (hf : k = n → ∀ s, (f s).display = s.display) (h : StaysShown n q) :
    StaysShown n (q.setStyle k f) := by
  refine ⟨?_, h.2⟩
  intro a ha hn
  rcases mem_setStyle ha with ⟨h1, _⟩ | ⟨b, hb, hbk, hak, hs⟩
  · exact h.1 a h1 hn
  · rw [hs, hf (hak.symm.trans hn)]
    exact h.1 b hb (hbk.trans (hak.symm.trans hn))

theorem staysShown_hideAlert {n k : Nat} {q : Page} (hk : k ≠ n) (h : StaysShown n q) :
    StaysShown n (hideAlert (some k) q) := by
  rcases hideAlert_cases (some k) q with e | ⟨a, ha, _, e⟩
  · rw [e]
    exact h
  · rw [e]
    have hak : a.node = k := alert?_node (by simpa using ha)
    have h1 := staysShown_setStyle (n := n) (k := a.node) (f := fadeOut) (q := q)
      (fun _ _ => rfl) h
    refine ⟨h1.1, ?_⟩
    intro t ht
    simp only [setTimeout, List.mem_append, List.mem_singleton] at ht
    rcases ht with ht | rfl
    · exact h1.2 t ht
    · simp [Callback.hides, hak, hk]

theorem staysShown_runNext {n T : Nat} {p q : Page} (h : StaysShown n p)
    (hq : runNext T p = some q) : StaysShown n q := by
  obtain ⟨t, ht, rfl⟩ := runNext_eq_some hq
  have htm := (nextDue_mem ht).1
  have hcb := h.2 t htm
  have h0 : StaysShown n { p with timers := p.timers.filter (fun u => u.handle != t.handle)
                                  now := max p.now t.fireAt } :=
    ⟨h.1, fun u hu => h.2 u (List.mem_filter.mp hu).1⟩
  cases hc : t.cb with
  | hideDone k =>
    rw [hc] at hcb
    have hk : k ≠ n := by simpa [Callback.hides] using hcb
    exact staysShown_setStyle (fun e => absurd e hk) h0
  | fadeIn k => exact staysShown_setStyle (fun _ _ => rfl) h0
  | autoHide k =>
    rw [hc] at hcb
    have hk : k ≠ n := by simpa [Callback.hides] using hcb
    exact staysShown_hideAlert hk h0
  | initAutoHide k txt =>
    rw [hc] at hcb
    have hk : k ≠ n := by simpa [Callback.hides] using hcb
    have := staysShown_hideAlert hk h0
    exact ⟨this.1, this.2⟩
  | inactivity =>
    simp only [fire]
    split
    · exact ⟨h0.1, h0.2⟩
    · exact h0
  | forcedLogout => exact ⟨h0.1, h0.2⟩

theorem staysShown_elapse {n : Nat} (dt : Nat) {p : Page} (h : StaysShown n p) :
    StaysShown n (elapse dt p) := by
  have := runTimers_invariant (StaysShown n) (p.now + dt)
    (fun a b ha hb => staysShown_runNext ha hb) (budget p.timers) p h
  exact ⟨this.1, this.2⟩

/-- C5, amended. When no alert of the document, displayed or hidden, matches the
message, showAlert with duration 0 schedules only the fade-in timer, no
dismissal: whatever time passes, the created alert is in the document with its
display unset, as long as nothing else hides it.  With a duration d > 0 of at
most 2 147 483 647 ms exactly one dismissal, the call hideAlert(alertDiv), is
scheduled, due d milliseconds after the call.  A larger duration does not fit
the 32-bit delay of `setTimeout`: from 2 147 483 648 to 4 294 967 295 the one
dismissal is due at once. -/
theorem showAlert_duration (m type : String) (d : Int) (p : Page)
    (hnew : ∀ a ∈ p.alerts, jsIncludes a.textContent m = false)
    (hnode : ∀ a ∈ p.alerts, a.node ≠ p.nextNode)
    (htimers : ∀ t ∈ p.timers, t.cb.hides p.nextNode = false) :
    (d = 0 →
      (showAlert m type d p).2.timers =
        p.timers ++ [{ handle := p.nextHandle, fireAt := p.now + 100,
                       cb := .fadeIn p.nextNode }] ∧
      ∀ dt, ∃ a, (elapse dt (showAlert m type d p).2).alert? (showAlert m type d p).1 = some a ∧
        a.style.display = "") ∧
    (0 < d → d ≤ 2147483647 →
      (showAlert m type d p).2.timers =
        p.timers ++ [{ handle := p.nextHandle, fireAt := p.now + 100,
                       cb := .fadeIn p.nextNode },
                     { handle := p.nextHandle + 1, fireAt := p.now + d.toNat,
                       cb := .autoHide p.nextNode }] ∧
      (d.toNat : Int) = d) ∧
    (2147483648 ≤ d → d ≤ 4294967295 →
      (showAlert m type d p).2.timers =
        p.timers ++ [{ handle := p.nextHandle, fireAt := p.now + 100,
                       cb := .fadeIn p.nextNode },
                     { handle := p.nextHandle + 1, fireAt := p.now,
                       cb := .autoHide p.nextNode }]) := by
  refine ⟨?_, ?_, ?_⟩
  · intro hd
    subst hd
    have hpage := showAlert_new m type 0 p hnew
    simp only [gt_iff_lt, lt_self_iff_false, if_false] at hpage
    have htm : (showAlert m type 0 p).2.timers =
        p.timers ++ [{ handle := p.nextHandle, fireAt := p.now + 100,
                       cb := .fadeIn p.nextNode }] := by
      rw [hpage]
      rfl
    refine ⟨htm, ?_⟩
    intro dt
    have hst : StaysShown p.nextNode (showAlert m type 0 p).2 := by
      constructor
      · intro a ha hn
        rw [hpage] at ha
        simp only [Page.alerts, setTimeout, List.mem_append, List.mem_cons] at ha
        rcases ha with ha | rfl | ha
        · exact absurd hn (hnode a (List.mem_append_left _ ha))
        · rfl
        · exact absurd hn (hnode a (List.mem_append_right _ ha))
      · intro t ht
        rw [htm] at ht
        simp only [List.mem_append, List.mem_singleton] at ht
        rcases ht with ht | rfl
        · exact htimers t ht
        · rfl
    have hel := staysShown_elapse dt hst
    have h1 : (showAlert m type 0 p).1 = p.nextNode := by rw [hpage]
    have hex : ∃ x ∈ (elapse dt (showAlert m type 0 p).2).alerts, x.node = p.nextNode := by
      obtain ⟨_, e2⟩ := elapse_ident dt (showAlert m type 0 p).2
      rw [(showAlert_new_lists m type 0 p hnew).2.2] at e2
      obtain ⟨x, rest, hx, hrest, _⟩ := List.map_eq_cons_iff.mp e2
      exact ⟨x, by simp [Page.alerts, hx], congrArg Prod.fst hrest⟩
    rw [h1]
    cases hfind : (elapse dt (showAlert m type 0 p).2).alert? p.nextNode with
    | none =>
      obtain ⟨x, hx, hxn⟩ := hex
      simp only [Page.alert?, List.find?_eq_none] at hfind
      exact absurd (by simpa using hxn) (hfind x hx)
    | some a =>
      exact ⟨a, rfl, hel.1 a (List.mem_of_find?_eq_some hfind) (alert?_node hfind)⟩
  · intro hd hmax
    have hpage := showAlert_new m type d p hnew
    simp only [gt_iff_lt, hd, if_true] at hpage
    refine ⟨?_, Int.toNat_of_nonneg (le_of_lt hd)⟩
    rw [hpage, timerDelay_eq d (le_of_lt hd) hmax]
    simp [setTimeout]
  · intro hmin hmax
    have hd : 0 < d := by omega
    have hpage := showAlert_new m type d p hnew
    simp only [gt_iff_lt, hd, if_true] at hpage
    rw [hpage, timerDelay_overflow d hmin hmax]
    simp [setTimeout]

theorem showAlert_duration_witness :
    ((∀ a ∈ shownAlertPage.alerts, jsIncludes a.textContent "Sin conexión" = false) ∧
      (∀ a ∈ shownAlertPage.alerts, a.node ≠ shownAlertPage.nextNode) ∧
      (∀ t ∈ shownAlertPage.timers, t.cb.hides shownAlertPage.nextNode = false)) ∧
    ((showAlert "Sin conexión" "error" 0 shownAlertPage).2.timers =
        shownAlertPage.timers ++ [{ handle := shownAlertPage.nextHandle,
                                    fireAt := shownAlertPage.now + 100,
                                    cb := .fadeIn shownAlertPage.nextNode }] ∧
      ∀ dt, ∃ a, (elapse dt (showAlert "Sin conexión" "error" 0 shownAlertPage).2).alert?
          (showAlert "Sin conexión" "error" 0 shownAlertPage).1 = some a ∧
        a.style.display = "") ∧
    ((showAlert "Sin conexión" "error" 5000 shownAlertPage).2.timers =
        shownAlertPage.timers ++ [{ handle := shownAlertPage.nextHandle,
                                    fireAt := shownAlertPage.now + 100,
                                    cb := .fadeIn shownAlertPage.nextNode },
                                  { handle := shownAlertPage.nextHandle + 1,
                                    fireAt := shownAlertPage.now + (5000 : Int).toNat,
                                    cb := .autoHide shownAlertPage.nextNode }] ∧
      (((5000 : Int).toNat : Nat) : Int) = 5000) :=
  ⟨⟨by decide, by decide, by decide⟩,
   (showAlert_duration "Sin conexión" "error" 0 shownAlertPage
      (by decide) (by decide) (by decide)).1 rfl,
   (showAlert_duration "Sin conexión" "error" 5000 shownAlertPage
      (by decide) (by decide) (by decide)).2.1 (by decide) (by decide)⟩

/-- C5 as stated fails when the only matching alert is hidden.  No alert
containing the message is displayed, yet showAlert with duration 5000 returns
the hidden element and leaves the page as it is: no dismissal is scheduled and
no alert with that text is displayed afterwards. -/
theorem showAlert_hidden_match_no_timer :
    (∀ a ∈ dismissedAlertPage.alerts,
      jsIncludes a.textContent "Stock bajo" = true → a.style.display = "none") ∧
    showAlert "Stock bajo" "warning" 5000 dismissedAlertPage = (0, dismissedAlertPage) ∧
    (showAlert "Stock bajo" "warning" 5000 dismissedAlertPage).2.timers = [] ∧
    (showAlert "Stock bajo" "warning" 5000 dismissedAlertPage).2.alerts.filter
      (fun a => jsIncludes a.textContent "Stock bajo" && a.style.display != "none") = [] := by
  decide

/-! ## Running timers: every due timer runs -/

theorem weight_pos (cb : Callback) : 0 < cb.weight := by
  cases cb <;> simp [Callback.weight]

theorem budget_filter_le (P : Timer → Bool) (ts : List Timer) :
    budget (ts.filter P) ≤ budget ts := by
  induction ts with
  | nil => simp [budget]
  | cons u us ih =>
    simp only [budget, List.filter_cons] at ih ⊢
    by_cases hu : P u = true
    · simp only [hu, if_true, List.map_cons, List.sum_cons]
      omega
    · simp only [hu, List.map_cons, List.sum_cons]
      simp only [Bool.false_eq_true, if_false]
      omega

theorem budget_filter_mem (P : Timer → Bool) (ts : List Timer) (t : Timer) (ht : t ∈ ts)
    (hP : P t = false) : budget (ts.filter P) + t.cb.weight ≤ budget ts := by
  induction ts with
  | nil => simp at ht
  | cons u us ih =>
    rcases List.mem_cons.mp ht with rfl | hmem
    · have := budget_filter_le P us
      simp only [budget, List.filter_cons, hP, List.map_cons, List.sum_cons] at this ⊢
      simp only [Bool.false_eq_true, if_false]
      omega
    · have h1 := ih hmem
      simp only [budget, List.filter_cons] at h1 ⊢
      by_cases hu : P u = true
      · simp only [hu, if_true, List.map_cons, List.sum_cons]
        omega
      · simp only [hu, List.map_cons, List.sum_cons]
        simp only [Bool.false_eq_true, if_false]
        omega

theorem budget_append (l1 l2 : List Timer) : budget (l1 ++ l2) = budget l1 + budget l2 := by
  simp [budget]

theorem hideAlert_budget (k : Nat) (p : Page) :
    budget (hideAlert (some k) p).timers ≤ budget p.timers + 1 := by
  rcases hideAlert_cases (some k) p with e | ⟨a, _, _, e⟩
  · rw [e]
    omega
  · rw [e]
    show budget (p.timers ++ [_]) ≤ _
    rw [budget_append]
    simp [budget, Callback.weight]

theorem fire_budget (cb : Callback) (p : Page) :
    budget (fire cb p).timers < budget p.timers + cb.weight := by
  cases cb with
  | hideDone n => simp [fire, Page.setStyle, Callback.weight]
  | fadeIn n => simp [fire, Page.setStyle, Callback.weight]
  | autoHide n =>
    have := hideAlert_budget n p
    simp only [fire, Callback.weight]
    omega
  | initAutoHide n t =>
    have := hideAlert_budget n p
    simp only [fire, Callback.weight]
    omega
  | inactivity =>
    simp only [fire, Callback.weight]
    split <;> simp
  | forcedLogout => simp [fire, Callback.weight]

theorem runNext_budget {T : Nat} {p q : Page} (h : runNext T p = some q) :
    budget q.timers < budget p.timers := by
  obtain ⟨t, ht, rfl⟩ := runNext_eq_some h
  have hmem := (nextDue_mem ht).1
  have h1 := budget_filter_mem (fun u => u.handle != t.handle) p.timers t hmem (by simp)
  have h2 := fire_budget t.cb { p with timers := p.timers.filter (fun u => u.handle != t.handle)
                                       now := max p.now t.fireAt }
  simp only at h2
  omega

theorem nextDue_eq_none {T : Nat} {ts : List Timer} :
    nextDue T ts = none ↔ ∀ t ∈ ts, T < t.fireAt := by
  induction ts with
  | nil => simp [nextDue]
  | cons u us ih =>
    simp only [nextDue, List.mem_cons, forall_eq_or_imp]
    cases hn : nextDue T us with
    | none =>
      rw [hn] at ih
      have hall := ih.mp rfl
      by_cases hu : u.fireAt ≤ T
      · simp [hu]
      · simp only [hu, if_false, true_iff]
        exact ⟨by omega, hall⟩
    | some b =>
      rw [hn] at ih
      have hne : ¬ ∀ t ∈ us, T < t.fireAt := fun h => by simpa using ih.mpr h
      constructor
      · intro h
        exfalso
        by_cases hub : u.fireAt ≤ b.fireAt <;> simp [hub] at h
      · intro h
        exact absurd h.2 hne

/-- With fuel for the whole budget, no due timer is left. -/
theorem runTimers_complete (T : Nat) :
    ∀ fuel p, budget p.timers ≤ fuel → runNext T (runTimers fuel T p) = none := by
  intro fuel
  induction fuel with
  | zero =>
    intro p hp
    simp only [runTimers]
    have hnil : p.timers = [] := by
      cases hts : p.timers with
      | nil => rfl
      | cons u us =>
        rw [hts] at hp
        have := weight_pos u.cb
        simp only [budget, List.map_cons, List.sum_cons] at hp
        omega
    simp [runNext, hnil, nextDue]
  | succ k ih =>
    intro p hp
    simp only [runTimers]
    cases h : runNext T p with
    | none => exact h
    | some q =>
      have := runNext_budget h
      exact ih q (by omega)

/-- After `elapse dt` every timer that was due by then has run: the timers still
pending are due later. -/
theorem elapse_complete (dt : Nat) (p : Page) :
    ∀ t ∈ (elapse dt p).timers, p.now + dt < t.fireAt := by
  have h := runTimers_complete (p.now + dt) (budget p.timers) p (le_refl _)
  have hn : nextDue (p.now + dt) (runTimers (budget p.timers) (p.now + dt) p).timers = none := by
    unfold runNext at h
    split at h
    · assumption
    · simp at h
  exact nextDue_eq_none.mp hn

/-! ## hideAlert called twice -/

theorem elapse_idle (dt : Nat) (p : Page) (h : p.timers = []) :
    elapse dt p = later dt p := by
  simp [elapse, h, budget, runTimers, later]

theorem elapse_not_due (dt : Nat) (p : Page) (t : Timer) (h : p.timers = [t])
    (hlt : p.now + dt < t.fireAt) : elapse dt p = later dt p := by
  have hnd : ¬ t.fireAt ≤ p.now + dt := by omega
  have hw := weight_pos t.cb
  obtain ⟨k, hk⟩ : ∃ k, t.cb.weight = k + 1 := ⟨t.cb.weight - 1, by omega⟩
  simp [elapse, h, budget, hk, runTimers, runNext, nextDue, hnd, later]

theorem elapse_hideDone (dt : Nat) (p : Page) (t : Timer) (n : Nat) (h : p.timers = [t])
    (hcb : t.cb = .hideDone n) (hdue : t.fireAt ≤ p.now + dt) :
    elapse dt p = afterHideDone n dt p := by
  simp [elapse, h, budget, hcb, Callback.weight, runTimers, runNext, nextDue, hdue, fire,
    Page.setStyle, displayNone, afterHideDone]

theorem elapse_hideDone_two (dt : Nat) (p : Page) (t1 t2 : Timer) (n : Nat)
    (h : p.timers = [t1, t2]) (hcb1 : t1.cb = .hideDone n) (hcb2 : t2.cb = .hideDone n)
    (hne : t2.handle ≠ t1.handle) (hle : t1.fireAt ≤ t2.fireAt)
    (hdue : t2.fireAt ≤ p.now + dt) :
    elapse dt p = afterHideDone n dt (p.setStyle n displayNone) := by
  simp [elapse, h, budget, hcb1, hcb2, Callback.weight, runTimers, runNext, nextDue, hdue, hle,
    hne, fire, Page.setStyle, displayNone, afterHideDone]

theorem hideAlert_shown {p : Page} {n : Nat} {a : AlertEl} (ha : p.alert? n = some a)
    (hd : a.style.display ≠ "none") : hideAlert (some n) p = afterHide n p := by
  have hn := alert?_node ha
  have hb : (some n).bind p.alert? = some a := ha
  unfold hideAlert
  rw [hb]
  show (if a.style.display ≠ "none" then _ else _) = _
  rw [if_pos hd, hn]
  rfl

theorem hideAlert_hidden {p : Page} {n : Nat} {a : AlertEl} (ha : p.alert? n = some a)
    (hd : a.style.display = "none") : hideAlert (some n) p = p := by
  simp [hideAlert, ha, hd]

theorem find?_updateNode (n : Nat) (f : Style → Style) (l : List AlertEl) :
    (updateNode n (fun a => { a with style := f a.style }) l).find? (fun a => a.node = n) =
      (l.find? (fun a => a.node = n)).map (fun a => { a with style := f a.style }) := by
  induction l with
  | nil => rfl
  | cons b l ih =>
    simp only [updateNode, List.map_cons] at ih ⊢
    by_cases hb : b.node = n
    · simp [hb]
    · simp [hb, ih]

theorem alert?_setStyle (p : Page) (n : Nat) (f : Style → Style) :
    (p.setStyle n f).alert? n =
      (p.alert? n).map (fun a => { a with style := f a.style }) := by
  simp only [Page.alert?, Page.alerts, Page.setStyle, List.find?_append, find?_updateNode]
  cases p.beforeContainer.find? (fun a => a.node = n) <;> simp

theorem updateNode_updateNode (n : Nat) (f g : AlertEl → AlertEl) (l : List AlertEl)
    (hg : ∀ a, (g a).node = a.node) :
    updateNode n f (updateNode n g l) = updateNode n (fun a => f (g a)) l := by
  simp only [updateNode, List.map_map]
  apply List.map_congr_left
  intro b _
  by_cases hb : b.node = n <;> simp [hb, hg]

/-- C4 as stated fails in two ways.  While the fade-in timer of showAlert is
pending, hiding an alert twice (at 50 ms and at 150 ms) does not end in the same
state as hiding it once (at 50 ms): once, the fade-in at 100 ms leaves opacity 1
and no translation; twice, the second call writes opacity 0 and the translation
again.  And on the alert hidden once, which has display 'none' and opacity 1,
hideAlert changes nothing, so that the alert does not end with opacity 0. -/
theorem hideAlert_twice_differs_with_fadeIn :
    hiddenOncePage.timers = [] ∧ hiddenTwicePage.timers = [] ∧
    hiddenOncePage.now = hiddenTwicePage.now ∧
    (hiddenOncePage.alert? 0).map (fun a => (a.style.display, a.style.opacity, a.style.transform)) =
      some ("none", "1", "translateY(0)") ∧
    (hiddenTwicePage.alert? 0).map (fun a => (a.style.display, a.style.opacity, a.style.transform)) =
      some ("none", "0", "translateY(-10px)") ∧
    hiddenTwicePage.alerts ≠ hiddenOncePage.alerts ∧
    elapse 300 (hideAlert (some 0) (elapse 100 (hideAlert (some 0) hiddenOncePage))) =
      later 400 hiddenOncePage := by
  decide

/-! ## The sweep of initAlertSystem -/

theorem map_node_updateNode (n : Nat) (f : AlertEl → AlertEl) (l : List AlertEl)
    (hf : ∀ a, (f a).node = a.node) :
    (updateNode n f l).map AlertEl.node = l.map AlertEl.node := by
  simp only [updateNode, List.map_map]
  apply List.map_congr_left
  intro a _
  by_cases h : a.node = n <;> simp [h, hf]

theorem map_node_filter (x : Nat) (l : List AlertEl) :
    (l.filter (fun a => a.node != x)).map AlertEl.node =
      (l.map AlertEl.node).filter (fun n => n != x) := by
  induction l with
  | nil => rfl
  | cons a l ih =>
    by_cases h : a.node = x <;> simp [List.filter_cons, h, ih]

/-- What one iteration of the sweep does to the timers, the set and the nodes. -/
theorem initAlertStep_spec (a : AlertEl) (i : Nat) (p : Page) :
    (a.alertText ∈ p.alertMessages →
      (initAlertStep a i p).timers = p.timers ∧
      (initAlertStep a i p).nextHandle = p.nextHandle ∧
      (initAlertStep a i p).alertMessages = p.alertMessages ∧
      (initAlertStep a i p).now = p.now ∧
      (initAlertStep a i p).alerts.map AlertEl.node =
        (p.alerts.map AlertEl.node).filter (fun n => n != a.node)) ∧
    (a.alertText ∉ p.alertMessages →
      (initAlertStep a i p).timers =
        p.timers ++ [{ handle := p.nextHandle, fireAt := p.now + (5000 + i * 500),
                       cb := .initAutoHide a.node a.alertText }] ∧
      (initAlertStep a i p).nextHandle = p.nextHandle + 1 ∧
      (initAlertStep a i p).alertMessages = p.alertMessages ++ [a.alertText] ∧
      (initAlertStep a i p).now = p.now ∧
      (initAlertStep a i p).alerts.map AlertEl.node = p.alerts.map AlertEl.node) := by
  constructor
  · intro h
    have h' : jsTrim a.textContent ∈ p.alertMessages := h
    have e : initAlertStep a i p =
        { p with
          beforeContainer := p.beforeContainer.filter (fun b => b.node != a.node)
          fromContainer := p.fromContainer.filter (fun b => b.node != a.node) } := by
      unfold initAlertStep
      exact if_pos h'
    rw [e]
    refine ⟨rfl, rfl, rfl, rfl, ?_⟩
    simp only [Page.alerts, List.map_append, List.filter_append, map_node_filter]
  · intro h
    have h' : ¬ jsTrim a.textContent ∈ p.alertMessages := h
    cases hb : a.hasCloseBtn
    · have e : initAlertStep a i p =
          (setTimeout (.initAutoHide a.node (jsTrim a.textContent)) (5000 + i * 500)
            { p with
              alertMessages := p.alertMessages ++ [jsTrim a.textContent]
              beforeContainer := updateNode a.node
                (fun b => { b with hasCloseBtn := true, textContent := b.textContent ++ "×" })
                p.beforeContainer
              fromContainer := updateNode a.node
                (fun b => { b with hasCloseBtn := true, textContent := b.textContent ++ "×" })
                p.fromContainer }).2 := by
        unfold initAlertStep
        simp only [h', if_false, hb, Bool.false_eq_true]
      rw [e]
      refine ⟨rfl, rfl, rfl, rfl, ?_⟩
      simp only [setTimeout, Page.alerts, List.map_append]
      simp (disch := intro _; rfl) only [map_node_updateNode]
    · have e : initAlertStep a i p =
          (setTimeout (.initAutoHide a.node (jsTrim a.textContent)) (5000 + i * 500)
            { p with alertMessages := p.alertMessages ++ [jsTrim a.textContent] }).2 := by
        unfold initAlertStep
        simp only [h', if_false, hb, if_true]
      rw [e]
      exact ⟨rfl, rfl, rfl, rfl, rfl⟩

/-- The whole sweep, from any index and any state of the set. -/
theorem initAlertLoop_spec (l : List AlertEl) :
    ∀ (i : Nat) (p : Page),
      (initAlertLoop l i p).timers =
        p.timers ++ keptTimers p.now (kept p.alertMessages l i) p.nextHandle ∧
      (initAlertLoop l i p).now = p.now ∧
      (initAlertLoop l i p).alerts.map AlertEl.node =
        (p.alerts.map AlertEl.node).filter
          (fun n => !((dropped p.alertMessages l).map AlertEl.node).contains n) := by
  induction l with
  | nil =>
    intro i p
    simp [initAlertLoop, kept, keptTimers, dropped]
  | cons a rest ih =>
    intro i p
    obtain ⟨ht, hn, hal⟩ := ih (i + 1) (initAlertStep a i p)
    simp only [initAlertLoop]
    by_cases hmem : a.alertText ∈ p.alertMessages
    · obtain ⟨s1, s2, s3, s4, s5⟩ := (initAlertStep_spec a i p).1 hmem
      rw [s1, s2, s3, s4] at ht
      rw [s4] at hn
      rw [s3, s5] at hal
      refine ⟨?_, hn, ?_⟩
      · rw [ht]
        simp [kept, hmem]
      · rw [hal, List.filter_filter]
        simp only [dropped, hmem, if_true, List.map_cons]
        apply List.filter_congr
        intro n _
        by_cases hna : n = a.node <;> simp [hna, Bool.and_comm]
    · obtain ⟨s1, s2, s3, s4, s5⟩ := (initAlertStep_spec a i p).2 hmem
      rw [s1, s2, s3, s4] at ht
      rw [s4] at hn
      rw [s3, s5] at hal
      refine ⟨?_, hn, ?_⟩
      · rw [ht]
        simp [kept, hmem, keptTimers]
      · rw [hal]
        simp [dropped, hmem]

theorem kept_mem {seen : List String} {l : List AlertEl} {i : Nat} {x : AlertEl} {j : Nat}
    (h : (x, j) ∈ kept seen l i) : x ∈ l ∧ i ≤ j ∧ x.alertText ∉ seen := by
  induction l generalizing seen i with
  | nil => simp [kept] at h
  | cons a rest ih =>
    simp only [kept] at h
    by_cases ha : a.alertText ∈ seen
    · simp only [ha, if_true] at h
      obtain ⟨h1, h2, h3⟩ := ih h
      exact ⟨List.mem_cons_of_mem _ h1, by omega, h3⟩
    · simp only [ha, if_false, List.mem_cons, Prod.mk.injEq] at h
      rcases h with ⟨rfl, rfl⟩ | h
      · exact ⟨List.mem_cons_self _ _, le_refl _, ha⟩
      · obtain ⟨h1, h2, h3⟩ := ih h
        exact ⟨List.mem_cons_of_mem _ h1, by omega, fun hc => h3 (List.mem_append_left _ hc)⟩

theorem dropped_mem {seen : List String} {l : List AlertEl} {x : AlertEl}
    (h : x ∈ dropped seen l) : x ∈ l := by
  induction l generalizing seen with
  | nil => simp [dropped] at h
  | cons a rest ih =>
    simp only [dropped] at h
    by_cases ha : a.alertText ∈ seen
    · simp only [ha, if_true, List.mem_cons] at h
      rcases h with rfl | h
      · exact List.mem_cons_self _ _
      · exact List.mem_cons_of_mem _ (ih h)
    · simp only [ha, if_false] at h
      exact List.mem_cons_of_mem _ (ih h)

/-- The first element with a text not yet seen is kept, with its index. -/
theorem kept_of_first {seen : List String} {pre post : List AlertEl} {a : AlertEl} {i : Nat}
    (hs : a.alertText ∉ seen) (hpre : ∀ b ∈ pre, b.alertText ≠ a.alertText) :
    (a, i + pre.length) ∈ kept seen (pre ++ a :: post) i := by
  induction pre generalizing seen i with
  | nil => simp [kept, hs]
  | cons c r ih =>
    have hc : c.alertText ≠ a.alertText := hpre c (List.mem_cons_self _ _)
    have hr : ∀ b ∈ r, b.alertText ≠ a.alertText := fun b hb => hpre b (List.mem_cons_of_mem _ hb)
    have e : i + (c :: r).length = (i + 1) + r.length := by simp; omega
    rw [e]
    simp only [List.cons_append, kept]
    by_cases hcs : c.alertText ∈ seen
    · simp only [hcs, if_true]
      exact ih hs hr
    · simp only [hcs, if_false]
      refine List.mem_cons_of_mem _ (ih ?_ hr)
      simp only [List.mem_append, List.mem_singleton, not_or]
      exact ⟨hs, fun h => hc h.symm⟩

/-- With distinct nodes, an element is kept exactly when its text was not seen
and no element before it has the same text. -/
theorem kept_node_iff {seen : List String} {pre post : List AlertEl} {a : AlertEl} {i : Nat}
    (hnd : ((pre ++ a :: post).map AlertEl.node).Nodup) :
    a.node ∈ (kept seen (pre ++ a :: post) i).map (fun x => x.1.node) ↔
      a.alertText ∉ seen ∧ ∀ b ∈ pre, b.alertText ≠ a.alertText := by
  constructor
  · intro h
    induction pre generalizing seen i with
    | nil =>
      simp only [List.nil_append, kept] at h
      by_cases hs : a.alertText ∈ seen
      · exfalso
        simp only [hs, if_true, List.mem_map] at h
        obtain ⟨⟨x, j⟩, hx, hxn⟩ := h
        have hxp := (kept_mem hx).1
        simp only [List.nil_append, List.map_cons, List.nodup_cons, List.mem_map] at hnd
        exact hnd.1 ⟨x, hxp, hxn⟩
      · exact ⟨hs, by simp⟩
    | cons c r ih =>
      simp only [List.cons_append, List.map_cons, List.nodup_cons] at hnd
      have hca : c.node ≠ a.node := by
        intro e
        apply hnd.1
        rw [e]
        simp
      simp only [List.cons_append, kept] at h
      by_cases hcs : c.alertText ∈ seen
      · simp only [hcs, if_true] at h
        obtain ⟨h1, h2⟩ := ih hnd.2 h
        refine ⟨h1, ?_⟩
        intro b hb
        rcases List.mem_cons.mp hb with rfl | hb
        · intro e
          exact h1 (e ▸ hcs)
        · exact h2 b hb
      · simp only [hcs, if_false, List.map_cons, List.mem_cons] at h
        rcases h with h | h
        · exact absurd h.symm hca
        · obtain ⟨h1, h2⟩ := ih hnd.2 h
          simp only [List.mem_append, List.mem_singleton, not_or] at h1
          refine ⟨h1.1, ?_⟩
          intro b hb
          rcases List.mem_cons.mp hb with rfl | hb
          · exact fun e => h1.2 e.symm
          · exact h2 b hb
  · rintro ⟨hs, hpre⟩
    exact List.mem_map.mpr ⟨(a, i + pre.length), kept_of_first hs hpre, rfl⟩

/-- With distinct nodes, the nodes left after removing the dropped elements are
the nodes of the kept elements, in order. -/
theorem filter_dropped_eq_kept (seen : List String) (l : List AlertEl) (i : Nat)
    (hnd : (l.map AlertEl.node).Nodup) :
    (l.map AlertEl.node).filter
        (fun n => !((dropped seen l).map AlertEl.node).contains n) =
      (kept seen l i).map (fun x => x.1.node) := by
  induction l generalizing seen i with
  | nil => simp [kept, dropped]
  | cons a rest ih =>
    simp only [List.map_cons, List.nodup_cons] at hnd
    have hrest : ∀ (s : List String), ¬ a.node ∈ (dropped s rest).map AlertEl.node := by
      intro s hmem
      obtain ⟨x, hx, hxn⟩ := List.mem_map.mp hmem
      exact hnd.1 (List.mem_map.mpr ⟨x, dropped_mem hx, hxn⟩)
    by_cases ha : a.alertText ∈ seen
    · simp only [kept, dropped, ha, if_true, List.map_cons, List.filter_cons]
      have h1 : (!(a.node :: (dropped seen rest).map AlertEl.node).contains a.node) = false := by
        simp
      rw [h1]
      simp only [Bool.false_eq_true, if_false]
      rw [← ih seen (i + 1) hnd.2]
      apply List.filter_congr
      intro n hn
      have hna : n ≠ a.node := fun e => hnd.1 (e ▸ hn)
      simp [hna]
    · simp only [kept, dropped, ha, if_false, List.map_cons, List.filter_cons]
      have h1 : (!((dropped (seen ++ [a.alertText]) rest).map AlertEl.node).contains a.node) =
          true := by
        simpa using hrest (seen ++ [a.alertText])
      rw [h1]
      simp only [if_true]
      rw [ih (seen ++ [a.alertText]) (i + 1) hnd.2]

theorem kept_texts_nodup (seen : List String) (l : List AlertEl) (i : Nat) :
    ((kept seen l i).map (fun x => x.1.alertText)).Nodup := by
  induction l generalizing seen i with
  | nil => simp [kept]
  | cons a rest ih =>
    simp only [kept]
    by_cases ha : a.alertText ∈ seen
    · simp only [ha, if_true]
      exact ih seen (i + 1)
    · simp only [ha, if_false, List.map_cons, List.nodup_cons]
      refine ⟨?_, ih _ _⟩
      intro hmem
      obtain ⟨⟨x, j⟩, hx, hxt⟩ := List.mem_map.mp hmem
      have := (kept_mem hx).2.2
      simp only [List.mem_append, List.mem_singleton, not_or] at this
      exact this.2 hxt

theorem kept_index_sorted (seen : List String) (l : List AlertEl) (i : Nat) :
    ((kept seen l i).map Prod.snd).Pairwise (· < ·) := by
  induction l generalizing seen i with
  | nil => simp [kept]
  | cons a rest ih =>
    simp only [kept]
    by_cases ha : a.alertText ∈ seen
    · simp only [ha, if_true]
      exact ih seen (i + 1)
    · simp only [ha, if_false, List.map_cons, List.pairwise_cons]
      refine ⟨?_, ih _ _⟩
      intro j hj
      obtain ⟨⟨x, j2⟩, hx, rfl⟩ := List.mem_map.mp hj
      have := (kept_mem hx).2.1
      show i < j2
      omega

theorem keptTimers_fireAt (now : Nat) (ks : List (AlertEl × Nat)) (h : Nat) :
    (keptTimers now ks h).map Timer.fireAt = ks.map (fun x => now + (5000 + x.2 * 500)) := by
  induction ks generalizing h with
  | nil => rfl
  | cons k ks ih =>
    obtain ⟨a, i⟩ := k
    simp [keptTimers, ih]

theorem keptTimers_target (now : Nat) (ks : List (AlertEl × Nat)) (h : Nat) :
    (keptTimers now ks h).map (fun t => t.cb.target) = ks.map (fun x => some x.1.node) := by
  induction ks generalizing h with
  | nil => rfl
  | cons k ks ih =>
    obtain ⟨a, i⟩ := k
    simp only [keptTimers, List.map_cons, ih]
    rfl

theorem keptTimers_mem (now : Nat) (ks : List (AlertEl × Nat)) (h : Nat) (a : AlertEl)
    (j : Nat) (hmem : (a, j) ∈ ks) :
    ∃ h2, ({ handle := h2, fireAt := now + (5000 + j * 500),
             cb := .initAutoHide a.node a.alertText } : Timer) ∈ keptTimers now ks h := by
  induction ks generalizing h with
  | nil => simp at hmem
  | cons k ks ih =>
    obtain ⟨b, i⟩ := k
    rcases List.mem_cons.mp hmem with e | hm
    · simp only [Prod.mk.injEq] at e
      obtain ⟨rfl, rfl⟩ := e
      exact ⟨h, by simp [keptTimers]⟩
    · obtain ⟨h2, hh⟩ := ih (h + 1) hm
      exact ⟨h2, by simp [keptTimers, hh]⟩

/-- The page after initAlertSystem: the nodes left and the timers armed. -/
theorem initAlertSystem_spec (p : Page) (hnodup : (p.alerts.map AlertEl.node).Nodup) :
    (initAlertSystem p).alerts.map AlertEl.node =
      (kept [] p.alerts 0).map (fun x => x.1.node) ∧
    (initAlertSystem p).timers =
      p.timers ++ keptTimers p.now (kept [] p.alerts 0) p.nextHandle := by
  obtain ⟨ht, _, hal⟩ := initAlertLoop_spec p.alerts 0 { p with alertMessages := [] }
  refine ⟨?_, ht⟩
  have h := filter_dropped_eq_kept [] p.alerts 0 hnodup
  unfold initAlertSystem
  rw [hal]
  exact h

theorem node_mem_kept {seen : List String} {l : List AlertEl} {i : Nat} {a : AlertEl}
    (hnd : (l.map AlertEl.node).Nodup) (ha : a ∈ l)
    (h : a.node ∈ (kept seen l i).map (fun x => x.1.node)) :
    ∃ j, (a, j) ∈ kept seen l i := by
  obtain ⟨⟨x, j⟩, hx, hxn⟩ := List.mem_map.mp h
  have hxl := (kept_mem hx).1
  have : x = a := List.inj_on_of_nodup_map hnd hxl ha hxn
  subst this
  exact ⟨j, hx⟩

/-- C6. After initAlertSystem the alerts left in the document are exactly the
first occurrences of each trimmed text among the alerts present at page load, in
their original order: no two of them have the same trimmed text, and every
removed alert has the trimmed text of an earlier alert that is left.  Texts are
those read by the sweep, at page load. -/
theorem initAlertSystem_keeps_first_occurrences (p : Page)
    (hnodup : (p.alerts.map AlertEl.node).Nodup) :
    ((initAlertSystem p).alerts.map AlertEl.node).Sublist (p.alerts.map AlertEl.node) ∧
    (∀ pre a post, p.alerts = pre ++ a :: post →
      (a.node ∈ (initAlertSystem p).alerts.map AlertEl.node ↔
        ∀ b ∈ pre, jsTrim b.textContent ≠ jsTrim a.textContent)) ∧
    (∀ a ∈ p.alerts, ∀ b ∈ p.alerts,
      a.node ∈ (initAlertSystem p).alerts.map AlertEl.node →
      b.node ∈ (initAlertSystem p).alerts.map AlertEl.node →
      jsTrim a.textContent = jsTrim b.textContent → a = b) ∧
    (∀ pre a post, p.alerts = pre ++ a :: post →
      a.node ∉ (initAlertSystem p).alerts.map AlertEl.node →
      ∃ b ∈ pre, b.node ∈ (initAlertSystem p).alerts.map AlertEl.node ∧
        jsTrim b.textContent = jsTrim a.textContent) := by
  obtain ⟨hnodes, _⟩ := initAlertSystem_spec p hnodup
  have hiff : ∀ pre a post, p.alerts = pre ++ a :: post →
      (a.node ∈ (initAlertSystem p).alerts.map AlertEl.node ↔
        ∀ b ∈ pre, jsTrim b.textContent ≠ jsTrim a.textContent) := by
    intro pre a post hsplit
    rw [hnodes, hsplit]
    rw [hsplit] at hnodup
    rw [kept_node_iff hnodup]
    simp [AlertEl.alertText]
  refine ⟨?_, hiff, ?_, ?_⟩
  · obtain ⟨_, _, hal⟩ := initAlertLoop_spec p.alerts 0 { p with alertMessages := [] }
    unfold initAlertSystem
    rw [hal]
    exact List.filter_sublist _
  · intro a ha b hb hka hkb htext
    rw [hnodes] at hka hkb
    obtain ⟨j, hj⟩ := node_mem_kept hnodup ha hka
    obtain ⟨k, hk⟩ := node_mem_kept hnodup hb hkb
    have := List.inj_on_of_nodup_map (kept_texts_nodup [] p.alerts 0) hj hk htext
    exact congrArg Prod.fst this
  · intro pre a post hsplit hnot
    have hex : ∃ b ∈ pre, jsTrim b.textContent = jsTrim a.textContent := by
      by_contra hcon
      apply hnot
      rw [hiff pre a post hsplit]
      intro b hb e
      exact hcon ⟨b, hb, e⟩
    obtain ⟨b0, hb0, hb0t⟩ := hex
    cases hfind : pre.find? (fun b => jsTrim b.textContent == jsTrim a.textContent) with
    | none =>
      rw [List.find?_eq_none] at hfind
      exact absurd (by simpa using hb0t) (hfind b0 hb0)
    | some b =>
      obtain ⟨hbt, front, back, hpre, hfront⟩ := List.find?_eq_some.mp hfind
      have hbt2 : jsTrim b.textContent = jsTrim a.textContent := by simpa using hbt
      refine ⟨b, by rw [hpre]; simp, ?_, hbt2⟩
      have hsplit2 : p.alerts = front ++ b :: (back ++ a :: post) := by
        rw [hsplit, hpre]
        simp
      rw [hiff front b _ hsplit2]
      intro c hc e
      have := hfront c hc
      rw [hbt2] at e
      simp [e] at this

theorem initAlertSystem_keeps_first_occurrences_witness :
    (loadedPage.alerts.map AlertEl.node).Nodup ∧
    (initAlertSystem loadedPage).alerts.map AlertEl.node = [0, 1, 3] ∧
    ((initAlertSystem loadedPage).alerts.map AlertEl.node).Sublist
      (loadedPage.alerts.map AlertEl.node) ∧
    (∀ pre a post, loadedPage.alerts = pre ++ a :: post →
      (a.node ∈ (initAlertSystem loadedPage).alerts.map AlertEl.node ↔
        ∀ b ∈ pre, jsTrim b.textContent ≠ jsTrim a.textContent)) ∧
    (∀ a ∈ loadedPage.alerts, ∀ b ∈ loadedPage.alerts,
      a.node ∈ (initAlertSystem loadedPage).alerts.map AlertEl.node →
      b.node ∈ (initAlertSystem loadedPage).alerts.map AlertEl.node →
      jsTrim a.textContent = jsTrim b.textContent → a = b) ∧
    (∀ pre a post, loadedPage.alerts = pre ++ a :: post →
      a.node ∉ (initAlertSystem loadedPage).alerts.map AlertEl.node →
      ∃ b ∈ pre, b.node ∈ (initAlertSystem loadedPage).alerts.map AlertEl.node ∧
        jsTrim b.textContent = jsTrim a.textContent) :=
  ⟨by decide, by decide, initAlertSystem_keeps_first_occurrences loadedPage (by decide)⟩

/-- C7. initAlertSystem arms the dismissal of each alert it leaves in the
document 5000 + 500 * i milliseconds after the sweep, where i is the index of
the alert in the initial list of alerts (removed duplicates counted).  It arms
one timer for each such alert, in document order, and their due times are
strictly increasing, so no two of these alerts are dismissed at the same time. -/
theorem initAlertSystem_staggered_delays (p : Page)
    (hnodup : (p.alerts.map AlertEl.node).Nodup) :
    (∀ pre a post, p.alerts = pre ++ a :: post →
      a.node ∈ (initAlertSystem p).alerts.map AlertEl.node →
      ∃ h, ({ handle := h, fireAt := p.now + (5000 + 500 * pre.length),
              cb := .initAutoHide a.node (jsTrim a.textContent) } : Timer) ∈
        (initAlertSystem p).timers) ∧
    ∃ armed, (initAlertSystem p).timers = p.timers ++ armed ∧
      armed.map (fun t => t.cb.target) =
        (initAlertSystem p).alerts.map (fun a => some a.node) ∧
      (armed.map Timer.fireAt).Pairwise (· < ·) := by
  obtain ⟨hnodes, htimers⟩ := initAlertSystem_spec p hnodup
  constructor
  · intro pre a post hsplit hmem
    rw [hnodes, hsplit] at hmem
    have hnd2 := hnodup
    rw [hsplit] at hnd2
    obtain ⟨hs, hpre⟩ := (kept_node_iff hnd2).mp hmem
    have hk : (a, 0 + pre.length) ∈ kept [] p.alerts 0 := by
      rw [hsplit]
      exact kept_of_first hs hpre
    obtain ⟨h, hh⟩ := keptTimers_mem p.now _ p.nextHandle a _ hk
    refine ⟨h, ?_⟩
    rw [htimers]
    apply List.mem_append_right
    have e : 500 * pre.length = (0 + pre.length) * 500 := by omega
    rw [e]
    exact hh
  · refine ⟨keptTimers p.now (kept [] p.alerts 0) p.nextHandle, htimers, ?_, ?_⟩
    · rw [keptTimers_target]
      have : (initAlertSystem p).alerts.map (fun a => some a.node) =
          ((initAlertSystem p).alerts.map AlertEl.node).map some := by simp
      rw [this, hnodes]
      simp
    · rw [keptTimers_fireAt]
      have hs := kept_index_sorted [] p.alerts 0
      rw [List.pairwise_map] at hs ⊢
      exact hs.imp (fun h => by omega)

theorem initAlertSystem_staggered_delays_witness :
    (loadedPage.alerts.map AlertEl.node).Nodup ∧
    (initAlertSystem loadedPage).timers.map Timer.fireAt = [5000, 5500, 6500] ∧
    (∀ pre a post, loadedPage.alerts = pre ++ a :: post →
      a.node ∈ (initAlertSystem loadedPage).alerts.map AlertEl.node →
      ∃ h, ({ handle := h, fireAt := loadedPage.now + (5000 + 500 * pre.length),
              cb := .initAutoHide a.node (jsTrim a.textContent) } : Timer) ∈
        (initAlertSystem loadedPage).timers) ∧
    ∃ armed, (initAlertSystem loadedPage).timers = loadedPage.timers ++ armed ∧
      armed.map (fun t => t.cb.target) =
        (initAlertSystem loadedPage).alerts.map (fun a => some a.node) ∧
      (armed.map Timer.fireAt).Pairwise (· < ·) :=
  ⟨by decide, by decide, initAlertSystem_staggered_delays loadedPage (by decide)⟩

/-! ## The session manager: one inactivity timeout -/

theorem timersOk_congr {p q : Page} (ht : q.timers = p.timers)
    (hh : q.nextHandle = p.nextHandle) (hi : q.inactivityTimer = p.inactivityTimer)
    (h : TimersOk p) : TimersOk q := by
  unfold TimersOk
  rw [ht, hh, hi]
  exact h

theorem timersOk_setTimeout {p : Page} (cb : Callback) (d : Nat) (hcb : cb ≠ .inactivity)
    (h : TimersOk p) : TimersOk (setTimeout cb d p).2 := by
  obtain ⟨h1, h2, h3, h4, h5⟩ := h
  refine ⟨?_, ?_, ?_, ?_, ?_⟩
  · intro t ht
    simp only [setTimeout, List.mem_append, List.mem_singleton] at ht ⊢
    rcases ht with ht | rfl
    · have := h1 t ht
      omega
    · simp
  · simp only [setTimeout, List.map_append, List.map_cons, List.map_nil]
    rw [List.nodup_append]
    refine ⟨h2, by simp, ?_⟩
    intro x hx hx2
    obtain ⟨t, ht, rfl⟩ := List.mem_map.mp hx
    simp only [List.mem_singleton] at hx2
    have := h1 t ht
    omega
  · intro t ht hc
    simp only [setTimeout, List.mem_append, List.mem_singleton] at ht
    rcases ht with ht | rfl
    · exact h3 t ht hc
    · exact absurd hc hcb
  · intro t ht hk
    simp only [setTimeout, List.mem_append, List.mem_singleton] at ht
    rcases ht with ht | rfl
    · exact h4 t ht hk
    · have := h5 _ hk
      simp at this
  · intro k hk
    have := h5 k hk
    show k < p.nextHandle + 1
    omega

theorem timersOk_filter {p : Page} (P : Timer → Bool) (h : TimersOk p) :
    TimersOk { p with timers := p.timers.filter P } := by
  obtain ⟨h1, h2, h3, h4, h5⟩ := h
  refine ⟨fun t ht => h1 t (List.mem_filter.mp ht).1, ?_,
    fun t ht hc => h3 t (List.mem_filter.mp ht).1 hc,
    fun t ht hc => h4 t (List.mem_filter.mp ht).1 hc, h5⟩
  exact h2.sublist ((List.filter_sublist _).map _)

theorem timersOk_hideAlert {p : Page} (alert : Option Nat) (h : TimersOk p) :
    TimersOk (hideAlert alert p) := by
  rcases hideAlert_cases alert p with e | ⟨a, _, _, e⟩
  · rw [e]
    exact h
  · rw [e]
    exact timersOk_setTimeout _ _ (by simp) (timersOk_congr rfl rfl rfl h)

theorem timersOk_showAlert {p : Page} (m type : String) (d : Int) (h : TimersOk p) :
    TimersOk (showAlert m type d p).2 := by
  unfold showAlert
  cases hf : p.alerts.find? (fun a => jsIncludes a.textContent m) with
  | some a => exact h
  | none =>
    have h1 : TimersOk (setTimeout (.fadeIn p.nextNode) 100
        { p with fromContainer := newAlert p.nextNode m type :: p.fromContainer
                 nextNode := p.nextNode + 1 }).2 :=
      timersOk_setTimeout _ _ (by simp) (timersOk_congr rfl rfl rfl h)
    by_cases hd : d > 0
    · simp only [hd, if_true]
      exact timersOk_setTimeout _ _ (by simp) h1
    · simp only [hd, if_false]
      exact h1

theorem timersOk_fire {p : Page} (cb : Callback) (h : TimersOk p) : TimersOk (fire cb p) := by
  cases cb with
  | hideDone n => exact timersOk_congr rfl rfl rfl h
  | fadeIn n => exact timersOk_congr rfl rfl rfl h
  | autoHide n => exact timersOk_hideAlert _ h
  | initAutoHide n t => exact timersOk_congr rfl rfl rfl (timersOk_hideAlert (some n) h)
  | inactivity =>
    simp only [fire]
    split
    · exact timersOk_congr rfl rfl rfl h
    · exact h
  | forcedLogout => exact timersOk_congr rfl rfl rfl h

theorem timersOk_runNext {T : Nat} {p q : Page} (h : TimersOk p) (hq : runNext T p = some q) :
    TimersOk q := by
  obtain ⟨t, _, rfl⟩ := runNext_eq_some hq
  exact timersOk_fire _ (timersOk_congr rfl rfl rfl (timersOk_filter _ h))

theorem timersOk_elapse (dt : Nat) {p : Page} (h : TimersOk p) : TimersOk (elapse dt p) :=
  timersOk_congr rfl rfl rfl
    (runTimers_invariant TimersOk (p.now + dt) (fun _ _ ha hb => timersOk_runNext ha hb)
      (budget p.timers) p h)

/-- After resetInactivityTimer the only inactivity timeout pending is the new
one, due 30 minutes from now; the other timers are untouched. -/
theorem resetInactivityTimer_spec {p : Page} (h : TimersOk p) :
    TimersOk (resetInactivityTimer p) ∧
    (resetInactivityTimer p).timers =
      (p.timers.filter (fun t => t.cb != .inactivity)) ++
        [{ handle := p.nextHandle, fireAt := p.now + 1800000, cb := .inactivity }] := by
  obtain ⟨h1, h2, h3, h4, h5⟩ := h
  have hclear : (clearTimeout p.inactivityTimer p).timers =
      p.timers.filter (fun t => t.cb != .inactivity) := by
    cases hk : p.inactivityTimer with
    | none =>
      simp only [clearTimeout]
      symm
      rw [List.filter_eq_self]
      intro t ht
      have := h3 t ht
      rw [hk] at this
      by_cases hc : t.cb = .inactivity
      · exact absurd (this hc) (by simp)
      · simpa using hc
    | some k =>
      simp only [clearTimeout]
      apply List.filter_congr
      intro t ht
      have e3 := h3 t ht
      have e4 := h4 t ht
      rw [hk] at e3 e4
      by_cases hc : t.cb = .inactivity
      · have hk2 : k = t.handle := by simpa using e3 hc
        have l1 : (t.handle != k) = false := by simp [hk2]
        have l2 : (t.cb != Callback.inactivity) = false := by simp [hc]
        rw [l1, l2]
      · have hne : t.handle ≠ k := fun e => hc (e4 (by rw [e]))
        have l1 : (t.handle != k) = true := by simpa using hne
        have l2 : (t.cb != Callback.inactivity) = true := by simpa using hc
        rw [l1, l2]
  have htimers : (resetInactivityTimer p).timers =
      (p.timers.filter (fun t => t.cb != .inactivity)) ++
        [{ handle := p.nextHandle, fireAt := p.now + 1800000, cb := .inactivity }] := by
    have hn : (clearTimeout p.inactivityTimer p).nextHandle = p.nextHandle := by
      cases p.inactivityTimer <;> rfl
    have hw : (clearTimeout p.inactivityTimer p).now = p.now := by
      cases p.inactivityTimer <;> rfl
    show (clearTimeout p.inactivityTimer p).timers ++
        [{ handle := (clearTimeout p.inactivityTimer p).nextHandle,
           fireAt := (clearTimeout p.inactivityTimer p).now + 30 * 60 * 1000,
           cb := .inactivity }] = _
    rw [hclear, hn, hw]
  have hnh : (resetInactivityTimer p).nextHandle = p.nextHandle + 1 := by
    show (clearTimeout p.inactivityTimer p).nextHandle + 1 = _
    cases p.inactivityTimer <;> rfl
  have hit : (resetInactivityTimer p).inactivityTimer = some p.nextHandle := by
    show some (clearTimeout p.inactivityTimer p).nextHandle = _
    cases p.inactivityTimer <;> rfl
  refine ⟨⟨?_, ?_, ?_, ?_, ?_⟩, htimers⟩
  · intro t ht
    rw [htimers] at ht
    simp only [List.mem_append, List.mem_filter, List.mem_singleton] at ht
    rw [hnh]
    rcases ht with ht | rfl
    · have := h1 t ht.1
      omega
    · simp
  · rw [htimers, List.map_append, List.nodup_append]
    refine ⟨h2.sublist ((List.filter_sublist _).map _), by simp, ?_⟩
    intro x hx hx2
    obtain ⟨t, ht, rfl⟩ := List.mem_map.mp hx
    simp only [List.map_cons, List.map_nil, List.mem_singleton] at hx2
    have := h1 t (List.mem_filter.mp ht).1
    omega
  · intro t ht hc
    rw [htimers] at ht
    simp only [List.mem_append, List.mem_filter, List.mem_singleton] at ht
    rcases ht with ht | rfl
    · simp [hc] at ht
    · exact hit
  · intro t ht hk
    rw [htimers] at ht
    simp only [List.mem_append, List.mem_filter, List.mem_singleton] at ht
    rw [hit] at hk
    rcases ht with ht | rfl
    · have := h1 t ht.1
      simp only [Option.some.injEq] at hk
      omega
    · rfl
  · intro k hk
    rw [hit] at hk
    simp only [Option.some.injEq] at hk
    rw [hnh]
    omega

theorem timersOk_dispatchEvent {p : Page} (type : String) (h : TimersOk p) :
    TimersOk (dispatchEvent type p) := by
  unfold dispatchEvent
  split
  · exact (resetInactivityTimer_spec h).1
  · exact h

theorem timersOk_onVisibilityChange {p : Page} (state : Visibility) (h : TimersOk p) :
    TimersOk (onVisibilityChange state p) := by
  have h0 : TimersOk { p with visibilityState := state } := timersOk_congr rfl rfl rfl h
  unfold onVisibilityChange
  simp only
  split
  · cases state with
    | hidden => exact timersOk_congr rfl rfl rfl h
    | visible =>
      simp only
      split
      · exact h0
      · split
        · split
          · exact h0
          · split
            · exact timersOk_setTimeout _ _ (by simp) (timersOk_showAlert _ _ _ h0)
            · exact h0
        · exact h0
  · exact h0

theorem timersOk_step {p : Page} (s : Step) (h : TimersOk p) : TimersOk (step s p) := by
  cases s with
  | event type => exact timersOk_dispatchEvent type h
  | wait dt => exact timersOk_elapse dt h
  | visibility state => exact timersOk_onVisibilityChange state h
  | alert m type d => exact timersOk_showAlert m type d h
  | dismiss n => exact timersOk_hideAlert (some n) h

theorem run_invariant (I : Page → Prop) (hstep : ∀ s p, I p → I (step s p)) :
    ∀ steps p, I p → I (run steps p) := by
  intro steps
  induction steps with
  | nil => intro p hp; exact hp
  | cons s rest ih =>
    intro p hp
    exact ih (step s p) (hstep s p hp)

theorem timersOk_run {p : Page} (steps : List Step) (h : TimersOk p) :
    TimersOk (run steps p) :=
  run_invariant TimersOk (fun s _ hq => timersOk_step s hq) steps p h

theorem foldl_listeners_mem (es : List String) (l : List String) :
    (∀ e ∈ l, e ∈ es.foldl addListener l) ∧ (∀ e ∈ es, e ∈ es.foldl addListener l) := by
  induction es generalizing l with
  | nil => exact ⟨fun e he => he, fun e he => by simp at he⟩
  | cons x xs ih =>
    simp only [List.foldl_cons]
    obtain ⟨i1, i2⟩ := ih (addListener l x)
    constructor
    · intro e he
      apply i1
      unfold addListener
      split
      · exact he
      · exact List.mem_append_left _ he
    · intro e he
      rcases List.mem_cons.mp he with rfl | he
      · apply i1
        unfold addListener
        split
        · assumption
        · simp
      · exact i2 e he

theorem hideAlert_session (alert : Option Nat) (p : Page) :
    (hideAlert alert p).activityListeners = p.activityListeners ∧
    (hideAlert alert p).visibilityListener = p.visibilityListener ∧
    (hideAlert alert p).location = p.location := by
  rcases hideAlert_cases alert p with e | ⟨a, _, _, e⟩ <;> rw [e] <;> exact ⟨rfl, rfl, rfl⟩

theorem showAlert_session (m type : String) (d : Int) (p : Page) :
    (showAlert m type d p).2.activityListeners = p.activityListeners ∧
    (showAlert m type d p).2.visibilityListener = p.visibilityListener ∧
    (showAlert m type d p).2.location = p.location := by
  unfold showAlert
  cases p.alerts.find? (fun a => jsIncludes a.textContent m) with
  | some a => exact ⟨rfl, rfl, rfl⟩
  | none =>
    by_cases hd : d > 0
    · simp only [hd, if_true]
      exact ⟨rfl, rfl, rfl⟩
    · simp only [hd, if_false]
      exact ⟨rfl, rfl, rfl⟩

theorem fire_session (cb : Callback) (p : Page) :
    (fire cb p).activityListeners = p.activityListeners ∧
    (fire cb p).visibilityListener = p.visibilityListener := by
  cases cb with
  | hideDone n => exact ⟨rfl, rfl⟩
  | fadeIn n => exact ⟨rfl, rfl⟩
  | autoHide n => exact ⟨(hideAlert_session _ p).1, (hideAlert_session _ p).2.1⟩
  | initAutoHide n t => exact ⟨(hideAlert_session (some n) p).1, (hideAlert_session (some n) p).2.1⟩
  | inactivity =>
    simp only [fire]
    split <;> exact ⟨rfl, rfl⟩
  | forcedLogout => exact ⟨rfl, rfl⟩

theorem elapse_session (dt : Nat) (p : Page) :
    (elapse dt p).activityListeners = p.activityListeners ∧
    (elapse dt p).visibilityListener = p.visibilityListener := by
  have h := runTimers_invariant
    (fun q => q.activityListeners = p.activityListeners ∧
      q.visibilityListener = p.visibilityListener) (p.now + dt)
    (by
      intro a b ha hb
      obtain ⟨t, _, rfl⟩ := runNext_eq_some hb
      have := fire_session t.cb { a with timers := a.timers.filter (fun u => u.handle != t.handle)
                                         now := max a.now t.fireAt }
      exact ⟨this.1.trans ha.1, this.2.trans ha.2⟩)
    (budget p.timers) p ⟨rfl, rfl⟩
  exact h

theorem resetInactivityTimer_session (p : Page) :
    (resetInactivityTimer p).activityListeners = p.activityListeners ∧
    (resetInactivityTimer p).visibilityListener = p.visibilityListener ∧
    (resetInactivityTimer p).location = p.location ∧
    (resetInactivityTimer p).now = p.now ∧
    (resetInactivityTimer p).nextHandle = p.nextHandle + 1 := by
  unfold resetInactivityTimer
  cases p.inactivityTimer <;> exact ⟨rfl, rfl, rfl, rfl, rfl⟩

theorem onVisibilityChange_session (state : Visibility) (p : Page) :
    (onVisibilityChange state p).activityListeners = p.activityListeners ∧
    (onVisibilityChange state p).visibilityListener = p.visibilityListener := by
  unfold onVisibilityChange
  simp only
  split
  · cases state with
    | hidden => exact ⟨rfl, rfl⟩
    | visible =>
      simp only
      split
      · exact ⟨rfl, rfl⟩
      · split
        · split
          · exact ⟨rfl, rfl⟩
          · split
            · have := showAlert_session "Sesión cerrada por inactividad prolongada" "warning" 3000
                { p with visibilityState := Visibility.visible }
              exact ⟨this.1, this.2.1⟩
            · exact ⟨rfl, rfl⟩
        · exact ⟨rfl, rfl⟩
  · exact ⟨rfl, rfl⟩

theorem registerActivity_mem (p : Page) :
    ∀ e ∈ activityEvents, e ∈ (registerActivity p).activityListeners := by
  intro e he
  simp only [registerActivity]
  exact (foldl_listeners_mem activityEvents p.activityListeners).2 e he

/-- With a session, initSessionManager registers its listeners and leaves the
timers in order. -/
theorem initSessionManager_spec (uid : UserId) (p : Page) (hfresh : FreshTimers p)
    (huid : uid.truthy = true) :
    TimersOk (initSessionManager (some uid) p) ∧ SessionOn (initSessionManager (some uid) p) := by
  obtain ⟨f1, f2, f3⟩ := hfresh
  have hok0 : TimersOk
      (registerActivity { p with inactivityTimer := none, warningShown := false }) := by
    unfold TimersOk
    simp only [registerActivity]
    refine ⟨f1, f2, fun t ht hc => absurd hc (f3 t ht), ?_, ?_⟩
    · intro t _ hk
      cases hk
    · intro k hk
      cases hk
  have hr := (resetInactivityTimer_spec hok0).1
  have hs := (resetInactivityTimer_session
    (registerActivity { p with inactivityTimer := none, warningShown := false })).1
  have hm := registerActivity_mem { p with inactivityTimer := none, warningShown := false }
  have e : initSessionManager (some uid) p =
      { resetInactivityTimer
          (registerActivity { p with inactivityTimer := none, warningShown := false }) with
        beforeUnloadListener := true, visibilityListener := true } := by
    unfold initSessionManager
    simp only [huid, if_true]
  rw [e]
  generalize registerActivity { p with inactivityTimer := none, warningShown := false } = X
    at hm hr hs ⊢
  refine ⟨?_, ?_, rfl⟩
  · unfold TimersOk at hr ⊢
    exact hr
  · intro x hx
    show x ∈ (resetInactivityTimer X).activityListeners
    rw [hs]
    exact hm x hx

theorem sessionOn_step {p : Page} (s : Step) (h : SessionOn p) : SessionOn (step s p) := by
  have key : (step s p).activityListeners = p.activityListeners ∧
      (step s p).visibilityListener = p.visibilityListener := by
    cases s with
    | event type =>
      simp only [step, dispatchEvent]
      split
      · exact ⟨(resetInactivityTimer_session p).1, (resetInactivityTimer_session p).2.1⟩
      · exact ⟨rfl, rfl⟩
    | wait dt => exact elapse_session dt p
    | visibility state => exact onVisibilityChange_session state p
    | alert m type d => exact ⟨(showAlert_session m type d p).1, (showAlert_session m type d p).2.1⟩
    | dismiss n => exact ⟨(hideAlert_session _ p).1, (hideAlert_session _ p).2.1⟩
  unfold SessionOn
  rw [key.1, key.2]
  exact h

theorem sessionOn_run {p : Page} (steps : List Step) (h : SessionOn p) :
    SessionOn (run steps p) :=
  run_invariant SessionOn (fun s _ hq => sessionOn_step s hq) steps p h

theorem inactivity_count_le_one {q : Page} (h : TimersOk q) :
    (q.timers.filter (fun t => t.cb == .inactivity)).length ≤ 1 := by
  obtain ⟨_, h2, h3, _, _⟩ := h
  have hsub : ((q.timers.filter (fun t => t.cb == .inactivity)).map Timer.handle).Nodup :=
    h2.sublist ((List.filter_sublist _).map _)
  have hall : ∀ t ∈ q.timers.filter (fun t => t.cb == .inactivity),
      q.inactivityTimer = some t.handle := by
    intro t ht
    obtain ⟨hm, hc⟩ := List.mem_filter.mp ht
    exact h3 t hm (by simpa using hc)
  cases hL : q.timers.filter (fun t => t.cb == .inactivity) with
  | nil => simp
  | cons a rest =>
    cases rest with
    | nil => simp
    | cons b rest2 =>
      exfalso
      rw [hL] at hsub hall
      have ha := hall a (by simp)
      have hb := hall b (by simp)
      rw [ha] at hb
      simp only [Option.some.injEq] at hb
      simp [hb] at hsub

theorem hideAlert_timers_mem (alert : Option Nat) (p : Page) :
    ∀ t ∈ (hideAlert alert p).timers, t ∈ p.timers ∨ t.cb.logsOut = false := by
  intro t ht
  rcases hideAlert_cases alert p with e | ⟨a, _, _, e⟩
  · rw [e] at ht
    exact Or.inl ht
  · rw [e] at ht
    simp only [setTimeout, List.mem_append, List.mem_singleton] at ht
    rcases ht with ht | rfl
    · exact Or.inl ht
    · exact Or.inr rfl

theorem fire_no_logout (cb : Callback) (p : Page) (hcb : cb.logsOut = false) :
    (fire cb p).location = p.location ∧
    ∀ t ∈ (fire cb p).timers, t ∈ p.timers ∨ t.cb.logsOut = false := by
  cases cb with
  | hideDone n => exact ⟨rfl, fun t ht => Or.inl ht⟩
  | fadeIn n => exact ⟨rfl, fun t ht => Or.inl ht⟩
  | autoHide n => exact ⟨(hideAlert_session _ p).2.2, hideAlert_timers_mem _ p⟩
  | initAutoHide n txt =>
    exact ⟨(hideAlert_session (some n) p).2.2, hideAlert_timers_mem (some n) p⟩
  | inactivity => simp [Callback.logsOut] at hcb
  | forcedLogout => simp [Callback.logsOut] at hcb

/-- While no timer that logs out is due, letting time pass does not navigate. -/
theorem elapse_no_logout (dt : Nat) (p : Page)
    (h : ∀ t ∈ p.timers, t.cb.logsOut = true → p.now + dt < t.fireAt) :
    (elapse dt p).location = p.location := by
  have hinv := runTimers_invariant
    (fun q => q.location = p.location ∧
      ∀ t ∈ q.timers, t.cb.logsOut = true → p.now + dt < t.fireAt) (p.now + dt)
    (by
      intro a b ha hb
      obtain ⟨t, ht, rfl⟩ := runNext_eq_some hb
      obtain ⟨htm, htd⟩ := nextDue_mem ht
      have hcb : t.cb.logsOut = false := by
        cases hl : t.cb.logsOut with
        | false => rfl
        | true =>
          have := ha.2 t htm hl
          omega
      obtain ⟨f1, f2⟩ := fire_no_logout t.cb
        { a with timers := a.timers.filter (fun u => u.handle != t.handle)
                 now := max a.now t.fireAt } hcb
      refine ⟨f1.trans ha.1, ?_⟩
      intro u hu hl
      rcases f2 u hu with hm | hf
      · exact ha.2 u (List.mem_filter.mp hm).1 hl
      · rw [hf] at hl
        simp at hl)
    (budget p.timers) p ⟨rfl, h⟩
  exact hinv.1

theorem sessionPage_ok (p0 : Page) (uid : UserId) (steps : List Step)
    (hfresh : FreshTimers p0) (huid : uid.truthy = true) :
    TimersOk (sessionPage p0 uid steps) ∧ SessionOn (sessionPage p0 uid steps) :=
  ⟨timersOk_run steps (initSessionManager_spec uid p0 hfresh huid).1,
   sessionOn_run steps (initSessionManager_spec uid p0 hfresh huid).2⟩

theorem dispatchEvent_tracked {q : Page} {type : String} (hs : SessionOn q)
    (htype : type ∈ activityEvents) : dispatchEvent type q = resetInactivityTimer q := by
  unfold dispatchEvent
  rw [if_pos (hs.1 type htype)]

theorem filter_inactivity_reset (q : Page) :
    ((q.timers.filter (fun t => t.cb != .inactivity)) ++
        [({ handle := q.nextHandle, fireAt := q.now + 1800000, cb := .inactivity } : Timer)]).filter
      (fun t => t.cb == .inactivity) =
      [{ handle := q.nextHandle, fireAt := q.now + 1800000, cb := .inactivity }] := by
  rw [List.filter_append, List.filter_filter]
  have : q.timers.filter (fun t => (t.cb == Callback.inactivity) && (t.cb != Callback.inactivity))
      = [] := by
    rw [List.filter_eq_nil_iff]
    intro t _
    by_cases hc : t.cb = .inactivity <;> simp [hc]
  rw [this]
  simp

/-- C9. After initSessionManager with a session and any sequence of steps
(activity events, time passing, visibility changes, calls of showAlert and
hideAlert), at most one inactivity timeout is pending; and a tracked activity
event then removes the pending inactivity timeout, leaves the other timers, and
arms one new timeout, so exactly one is pending after it. -/
theorem at_most_one_inactivity_timeout (p0 : Page) (uid : UserId) (steps : List Step)
    (hfresh : FreshTimers p0) (huid : uid.truthy = true) :
    ((sessionPage p0 uid steps).timers.filter (fun t => t.cb == .inactivity)).length ≤ 1 ∧
    ∀ type ∈ activityEvents,
      (dispatchEvent type (sessionPage p0 uid steps)).timers =
        ((sessionPage p0 uid steps).timers.filter (fun t => t.cb != .inactivity)) ++
          [{ handle := (sessionPage p0 uid steps).nextHandle,
             fireAt := (sessionPage p0 uid steps).now + 1800000, cb := .inactivity }] ∧
      (dispatchEvent type (sessionPage p0 uid steps)).timers.filter
          (fun t => t.cb == .inactivity) =
        [{ handle := (sessionPage p0 uid steps).nextHandle,
           fireAt := (sessionPage p0 uid steps).now + 1800000, cb := .inactivity }] := by
  obtain ⟨hok, hon⟩ := sessionPage_ok p0 uid steps hfresh huid
  refine ⟨inactivity_count_le_one hok, ?_⟩
  intro type htype
  rw [dispatchEvent_tracked hon htype, (resetInactivityTimer_spec hok).2]
  exact ⟨rfl, filter_inactivity_reset _⟩

theorem at_most_one_inactivity_timeout_witness :
    (FreshTimers sweptPage ∧ (UserId.number 7).truthy = true) ∧
    ((sessionPage sweptPage (.number 7) someActivity).timers.filter
      (fun t => t.cb == .inactivity)).length ≤ 1 ∧
    ∀ type ∈ activityEvents,
      (dispatchEvent type (sessionPage sweptPage (.number 7) someActivity)).timers =
        ((sessionPage sweptPage (.number 7) someActivity).timers.filter
            (fun t => t.cb != .inactivity)) ++
          [{ handle := (sessionPage sweptPage (.number 7) someActivity).nextHandle,
             fireAt := (sessionPage sweptPage (.number 7) someActivity).now + 1800000,
             cb := .inactivity }] ∧
      (dispatchEvent type (sessionPage sweptPage (.number 7) someActivity)).timers.filter
          (fun t => t.cb == .inactivity) =
        [{ handle := (sessionPage sweptPage (.number 7) someActivity).nextHandle,
           fireAt := (sessionPage sweptPage (.number 7) someActivity).now + 1800000,
           cb := .inactivity }] :=
  ⟨⟨⟨by decide, by decide, by decide⟩, by decide⟩,
   at_most_one_inactivity_timeout sweptPage (.number 7) someActivity
     ⟨by decide, by decide, by decide⟩ (by decide)⟩

/-! ## A cancelled timer stays cancelled -/

theorem cancelled_congr {h : Nat} {p q : Page} (ht : q.timers = p.timers)
    (hh : q.nextHandle = p.nextHandle) (hc : Cancelled h p) : Cancelled h q := by
  unfold Cancelled
  rw [ht, hh]
  exact hc

theorem cancelled_setTimeout {h : Nat} {p : Page} (cb : Callback) (d : Nat)
    (hc : Cancelled h p) : Cancelled h (setTimeout cb d p).2 := by
  obtain ⟨h1, h2⟩ := hc
  refine ⟨?_, ?_⟩
  · show h < p.nextHandle + 1
    omega
  · intro t ht
    simp only [setTimeout, List.mem_append, List.mem_singleton] at ht
    rcases ht with ht | rfl
    · exact h2 t ht
    · show p.nextHandle ≠ h
      omega

theorem cancelled_filter {h : Nat} {p : Page} (P : Timer → Bool) (hc : Cancelled h p) :
    Cancelled h { p with timers := p.timers.filter P } :=
  ⟨hc.1, fun t ht => hc.2 t (List.mem_filter.mp ht).1⟩

theorem cancelled_hideAlert {h : Nat} {p : Page} (alert : Option Nat) (hc : Cancelled h p) :
    Cancelled h (hideAlert alert p) := by
  rcases hideAlert_cases alert p with e | ⟨a, _, _, e⟩
  · rw [e]
    exact hc
  · rw [e]
    exact cancelled_setTimeout _ _ (cancelled_congr rfl rfl hc)

theorem cancelled_showAlert {h : Nat} {p : Page} (m type : String) (d : Int)
    (hc : Cancelled h p) : Cancelled h (showAlert m type d p).2 := by
  unfold showAlert
  cases hf : p.alerts.find? (fun a => jsIncludes a.textContent m) with
  | some a => exact hc
  | none =>
    have h1 : Cancelled h (setTimeout (.fadeIn p.nextNode) 100
        { p with fromContainer := newAlert p.nextNode m type :: p.fromContainer
                 nextNode := p.nextNode + 1 }).2 :=
      cancelled_setTimeout _ _ (cancelled_congr rfl rfl hc)
    by_cases hd : d > 0
    · simp only [hd, if_true]
      exact cancelled_setTimeout _ _ h1
    · simp only [hd, if_false]
      exact h1

theorem cancelled_fire {h : Nat} {p : Page} (cb : Callback) (hc : Cancelled h p) :
    Cancelled h (fire cb p) := by
  cases cb with
  | hideDone n => exact cancelled_congr rfl rfl hc
  | fadeIn n => exact cancelled_congr rfl rfl hc
  | autoHide n => exact cancelled_hideAlert _ hc
  | initAutoHide n t => exact cancelled_congr rfl rfl (cancelled_hideAlert (some n) hc)
  | inactivity =>
    simp only [fire]
    split
    · exact cancelled_congr rfl rfl hc
    · exact hc
  | forcedLogout => exact cancelled_congr rfl rfl hc

theorem cancelled_elapse {h : Nat} (dt : Nat) {p : Page} (hc : Cancelled h p) :
    Cancelled h (elapse dt p) :=
  cancelled_congr rfl rfl
    (runTimers_invariant (Cancelled h) (p.now + dt)
      (fun a b ha hb => by
        obtain ⟨t, _, rfl⟩ := runNext_eq_some hb
        exact cancelled_fire _ (cancelled_congr rfl rfl (cancelled_filter _ ha)))
      (budget p.timers) p hc)

theorem cancelled_resetInactivityTimer {h : Nat} {p : Page} (hc : Cancelled h p) :
    Cancelled h (resetInactivityTimer p) := by
  have h1 : Cancelled h (clearTimeout p.inactivityTimer p) := by
    cases hk : p.inactivityTimer with
    | none => exact hc
    | some k => exact cancelled_filter _ hc
  exact cancelled_congr rfl rfl
    (cancelled_setTimeout .inactivity (30 * 60 * 1000) (cancelled_congr rfl rfl h1))

theorem cancelled_onVisibilityChange {h : Nat} {p : Page} (state : Visibility)
    (hc : Cancelled h p) : Cancelled h (onVisibilityChange state p) := by
  have h0 : Cancelled h { p with visibilityState := state } := cancelled_congr rfl rfl hc
  unfold onVisibilityChange
  simp only
  split
  · cases state with
    | hidden => exact cancelled_congr rfl rfl hc
    | visible =>
      simp only
      split
      · exact h0
      · split
        · split
          · exact h0
          · split
            · exact cancelled_setTimeout _ _ (cancelled_showAlert _ _ _ h0)
            · exact h0
        · exact h0
  · exact h0

theorem cancelled_step {h : Nat} {p : Page} (s : Step) (hc : Cancelled h p) :
    Cancelled h (step s p) := by
  cases s with
  | event type =>
    simp only [step, dispatchEvent]
    split
    · exact cancelled_resetInactivityTimer hc
    · exact hc
  | wait dt => exact cancelled_elapse dt hc
  | visibility state => exact cancelled_onVisibilityChange state hc
  | alert m type d => exact cancelled_showAlert m type d hc
  | dismiss n => exact cancelled_hideAlert (some n) hc

theorem cancelled_run {h : Nat} {p : Page} (steps : List Step) (hc : Cancelled h p) :
    Cancelled h (run steps p) :=
  run_invariant (Cancelled h) (fun s _ hq => cancelled_step s hq) steps p hc

theorem logsOut_cases {cb : Callback} (h : cb.logsOut = true) :
    cb = .inactivity ∨ cb = .forcedLogout := by
  cases cb <;> simp [Callback.logsOut] at h ⊢

/-- C8. With a session active, a tracked activity event at time t, before the
deadline D of the pending inactivity timeout, cancels that timeout for good:
whatever happens later, the timer armed for D is never pending again, so its
logout never runs.  The only inactivity timeout pending after the event is due
at t + 1 800 000 ms, and (when no forced logout of the visibility listener is
pending) the page does not navigate before that new deadline; in particular it
does not navigate at D, D being earlier than the new deadline for an event later
than the arming of D. -/
theorem activity_postpones_logout (p0 : Page) (uid : UserId) (steps : List Step)
    (type : String) (h D : Nat)
    (hfresh : FreshTimers p0) (huid : uid.truthy = true) (htype : type ∈ activityEvents)
    (harmed : ({ handle := h, fireAt := D, cb := .inactivity } : Timer) ∈
      (sessionPage p0 uid steps).timers)
    (hbefore : (sessionPage p0 uid steps).now < D) :
    (∀ after : List Step,
      ∀ t ∈ (run after (dispatchEvent type (sessionPage p0 uid steps))).timers,
        t.handle ≠ h) ∧
    (dispatchEvent type (sessionPage p0 uid steps)).timers.filter
        (fun t => t.cb == .inactivity) =
      [{ handle := (sessionPage p0 uid steps).nextHandle,
         fireAt := (sessionPage p0 uid steps).now + 1800000, cb := .inactivity }] ∧
    ((∀ t ∈ (sessionPage p0 uid steps).timers, t.cb ≠ .forcedLogout) →
      (∀ dt, dt < 1800000 →
        (elapse dt (dispatchEvent type (sessionPage p0 uid steps))).location =
          (sessionPage p0 uid steps).location) ∧
      (D < (sessionPage p0 uid steps).now + 1800000 →
        (elapse (D - (sessionPage p0 uid steps).now)
            (dispatchEvent type (sessionPage p0 uid steps))).now = D ∧
        (elapse (D - (sessionPage p0 uid steps).now)
            (dispatchEvent type (sessionPage p0 uid steps))).location =
          (sessionPage p0 uid steps).location)) := by
  obtain ⟨hok, hon⟩ := sessionPage_ok p0 uid steps hfresh huid
  generalize sessionPage p0 uid steps = q at *
  have htimers := (resetInactivityTimer_spec hok).2
  obtain ⟨_, _, hloc, hnow, hnh⟩ := resetInactivityTimer_session q
  rw [dispatchEvent_tracked hon htype]
  refine ⟨?_, ?_, ?_⟩
  · intro after
    have hlt : h < q.nextHandle := hok.1 _ harmed
    have hc : Cancelled h (resetInactivityTimer q) := by
      refine ⟨by rw [hnh]; omega, ?_⟩
      intro t ht e
      rw [htimers] at ht
      simp only [List.mem_append, List.mem_filter, List.mem_singleton] at ht
      rcases ht with ⟨hm, hcb⟩ | rfl
      · have heq : t = { handle := h, fireAt := D, cb := .inactivity } :=
          List.inj_on_of_nodup_map hok.2.1 hm harmed e
        rw [heq] at hcb
        simp at hcb
      · simp only at e
        omega
    exact (cancelled_run after hc).2
  · rw [htimers]
    exact filter_inactivity_reset q
  · intro hforced
    have hquiet : ∀ dt, dt < 1800000 →
        (elapse dt (resetInactivityTimer q)).location = q.location := by
      intro dt hdt
      rw [elapse_no_logout dt (resetInactivityTimer q), hloc]
      intro t ht hl
      rw [htimers] at ht
      rw [hnow]
      simp only [List.mem_append, List.mem_filter, List.mem_singleton] at ht
      rcases ht with ⟨hm, hc⟩ | rfl
      · exfalso
        rcases logsOut_cases hl with e | e
        · simp [e] at hc
        · exact hforced t hm e
      · show q.now + dt < q.now + 1800000
        omega
    refine ⟨hquiet, ?_⟩
    intro hD
    refine ⟨?_, hquiet _ (by omega)⟩
    show (resetInactivityTimer q).now + (D - q.now) = D
    rw [hnow]
    omega

theorem activity_postpones_logout_witness :
    (FreshTimers sweptPage ∧ (UserId.number 7).truthy = true ∧ "keypress" ∈ activityEvents ∧
      ({ handle := 6, fireAt := 1805000, cb := .inactivity } : Timer) ∈
        (sessionPage sweptPage (.number 7) someActivity).timers ∧
      (sessionPage sweptPage (.number 7) someActivity).now < 1805000) ∧
    (∀ after : List Step,
      ∀ t ∈ (run after
          (dispatchEvent "keypress" (sessionPage sweptPage (.number 7) someActivity))).timers,
        t.handle ≠ 6) ∧
    (dispatchEvent "keypress" (sessionPage sweptPage (.number 7) someActivity)).timers.filter
        (fun t => t.cb == .inactivity) =
      [{ handle := (sessionPage sweptPage (.number 7) someActivity).nextHandle,
         fireAt := (sessionPage sweptPage (.number 7) someActivity).now + 1800000,
         cb := .inactivity }] ∧
    ((∀ t ∈ (sessionPage sweptPage (.number 7) someActivity).timers, t.cb ≠ .forcedLogout) →
      (∀ dt, dt < 1800000 →
        (elapse dt
            (dispatchEvent "keypress" (sessionPage sweptPage (.number 7) someActivity))).location =
          (sessionPage sweptPage (.number 7) someActivity).location) ∧
      (1805000 < (sessionPage sweptPage (.number 7) someActivity).now + 1800000 →
        (elapse (1805000 - (sessionPage sweptPage (.number 7) someActivity).now)
            (dispatchEvent "keypress" (sessionPage sweptPage (.number 7) someActivity))).now =
          1805000 ∧
        (elapse (1805000 - (sessionPage sweptPage (.number 7) someActivity).now)
            (dispatchEvent "keypress" (sessionPage sweptPage (.number 7) someActivity))).location =
          (sessionPage sweptPage (.number 7) someActivity).location)) :=
  ⟨⟨⟨by decide, by decide, by decide⟩, by decide, by decide, by decide, by decide⟩,
   activity_postpones_logout sweptPage (.number 7) someActivity "keypress" 6 1805000
     ⟨by decide, by decide, by decide⟩ (by decide) (by decide) (by decide) (by decide)⟩

/-! ## The visibility listener -/

theorem digitChar_facts (d : Nat) (hd : d < 10) :
    digitValue (Nat.digitChar d) = some d ∧ isTrimChar (Nat.digitChar d) = false ∧
    Nat.digitChar d ≠ '-' ∧ Nat.digitChar d ≠ '+' ∧ Nat.digitChar d ≠ 'x' ∧
    Nat.digitChar d ≠ 'X' ∧ (Nat.digitChar d).toNat - 48 = d := by
  interval_cases d <;> decide

theorem parseDigits_digits (l : List Char) (hall : AllDigits l) (acc : Nat) :
    parseDigits 10 l acc true = some (decValue acc l) ∧
    (l ≠ [] → parseDigits 10 l acc false = some (decValue acc l)) := by
  induction l generalizing acc with
  | nil => simp [parseDigits, decValue]
  | cons c cs ih =>
    obtain ⟨d, hd, rfl⟩ := hall _ (List.mem_cons_self _ _)
    obtain ⟨f1, _, _, _, _, _, f7⟩ := digitChar_facts d hd
    have hcs : AllDigits cs := fun x hx => hall x (List.mem_cons_of_mem _ hx)
    have h1 := (ih hcs (acc * 10 + d)).1
    have hv : decValue acc (Nat.digitChar d :: cs) = decValue (acc * 10 + d) cs := by
      simp [decValue, f7]
    simp only [parseDigits, f1, hd, if_true, hv, h1]
    simp

theorem toDigitsCore_allDigits (f n : Nat) (ds : List Char) (hds : AllDigits ds) :
    AllDigits (Nat.toDigitsCore 10 f n ds) := by
  induction f generalizing n ds with
  | zero => simpa [Nat.toDigitsCore] using hds
  | succ k ih =>
    have hcons : AllDigits (Nat.digitChar (n % 10) :: ds) := by
      intro c hc
      rcases List.mem_cons.mp hc with rfl | hc
      · exact ⟨n % 10, Nat.mod_lt _ (by decide), rfl⟩
      · exact hds c hc
    simp only [Nat.toDigitsCore]
    split
    · exact hcons
    · exact ih _ _ hcons

theorem toDigitsCore_ne_nil_of_ne_nil (f n : Nat) (ds : List Char) (hds : ds ≠ []) :
    Nat.toDigitsCore 10 f n ds ≠ [] := by
  induction f generalizing n ds with
  | zero => simpa [Nat.toDigitsCore] using hds
  | succ k ih =>
    simp only [Nat.toDigitsCore]
    split
    · simp
    · exact ih _ _ (by simp)

theorem toDigitsCore_ne_nil (f n : Nat) (ds : List Char) :
    Nat.toDigitsCore 10 (f + 1) n ds ≠ [] := by
  simp only [Nat.toDigitsCore]
  split
  · simp
  · exact toDigitsCore_ne_nil_of_ne_nil _ _ _ (by simp)

theorem decValue_cons (acc : Nat) (c : Char) (cs : List Char) :
    decValue acc (c :: cs) = decValue (acc * 10 + (c.toNat - 48)) cs := rfl

theorem decValue_toDigitsCore (f n : Nat) (ds : List Char) (hf : n < f) :
    decValue 0 (Nat.toDigitsCore 10 f n ds) = decValue n ds := by
  induction f generalizing n ds with
  | zero => omega
  | succ k ih =>
    have f7 := (digitChar_facts (n % 10) (Nat.mod_lt _ (by decide))).2.2.2.2.2.2
    simp only [Nat.toDigitsCore]
    split
    · rename_i h0
      rw [decValue_cons, f7]
      congr 1
      omega
    · rename_i h0
      rw [ih (n / 10) _ (by omega), decValue_cons, f7]
      congr 1
      omega

/-- Reading back the decimal notation of a natural number gives the number. -/
theorem parseInt_toString (n : Nat) : parseInt (toString n) = some (n : Int) := by
  have hdata : (toString n).data = Nat.toDigitsCore 10 (n + 1) n [] := rfl
  have hall : AllDigits (Nat.toDigitsCore 10 (n + 1) n []) :=
    toDigitsCore_allDigits _ _ _ (fun c hc => by simp at hc)
  have hne := toDigitsCore_ne_nil n n []
  have hval : decValue 0 (Nat.toDigitsCore 10 (n + 1) n []) = n := by
    rw [decValue_toDigitsCore _ _ _ (by omega)]
    rfl
  unfold parseInt
  rw [hdata]
  generalize Nat.toDigitsCore 10 (n + 1) n [] = l at hall hne hval
  cases l with
  | nil => exact absurd rfl hne
  | cons c cs =>
    obtain ⟨d, hd, rfl⟩ := hall _ (List.mem_cons_self _ _)
    obtain ⟨_, f2, f3, f4, f5, f6, _⟩ := digitChar_facts d hd
    have hdrop : (Nat.digitChar d :: cs).dropWhile isTrimChar = Nat.digitChar d :: cs := by
      simp [List.dropWhile, f2]
    rw [hdrop]
    have hpu : parseUnsigned (Nat.digitChar d :: cs) =
        some (decValue 0 (Nat.digitChar d :: cs)) := by
      have hp := (parseDigits_digits _ hall 0).2 (by simp)
      unfold parseUnsigned
      split
      · rename_i h0
        exfalso
        have hx : 'x' ∈ Nat.digitChar d :: cs := by rw [h0]; simp
        obtain ⟨e, he, hxe⟩ := hall _ hx
        exact (digitChar_facts e he).2.2.2.2.1 hxe.symm
      · rename_i h0
        exfalso
        have hx : 'X' ∈ Nat.digitChar d :: cs := by rw [h0]; simp
        obtain ⟨e, he, hxe⟩ := hall _ hx
        exact (digitChar_facts e he).2.2.2.2.2.1 hxe.symm
      · exact hp
    split
    · rename_i h0
      exact absurd (List.cons.inj h0).1 f3
    · rename_i h0
      exact absurd (List.cons.inj h0).1 f4
    · rw [hpu, hval]
      rfl

theorem toString_nat_ne_empty (n : Nat) : toString n ≠ "" := by
  intro h
  have hdata : (toString n).data = Nat.toDigitsCore 10 (n + 1) n [] := rfl
  rw [h] at hdata
  exact toDigitsCore_ne_nil n n [] hdata.symm

theorem showAlert_forcedLogouts (m type : String) (d : Int) (p : Page) :
    forcedLogouts (showAlert m type d p).2 = forcedLogouts p := by
  unfold showAlert
  cases p.alerts.find? (fun a => jsIncludes a.textContent m) with
  | some a => rfl
  | none =>
    by_cases hd : d > 0
    · simp [hd, forcedLogouts, setTimeout, List.countP_append]
    · simp [hd, forcedLogouts, setTimeout, List.countP_append]

/-- C10, amended. When the page becomes visible at time `now` with the hide
timestamp h recorded by the listener, a logout is forced if and only if the
hidden duration now - h is strictly greater than 1 800 000 ms.  When now - h is
at most 1 800 000 ms (equality included) the page is left as it is: no logout is
scheduled and no warning is shown.  Otherwise the warning is shown through
showAlert and the logout is scheduled 3 s later. -/
theorem visible_forces_logout_iff (p : Page) (h : Nat)
    (hl : p.visibilityListener = true) (hs : p.lastActiveTime = some (toString h)) :
    (forcedLogouts (onVisibilityChange .visible p) = forcedLogouts p + 1 ↔
      h + 1800000 < p.now) ∧
    (p.now ≤ h + 1800000 →
      onVisibilityChange .visible p = { p with visibilityState := .visible }) ∧
    (h + 1800000 < p.now →
      onVisibilityChange .visible p =
        (setTimeout .forcedLogout 3000
          (showAlert "Sesión cerrada por inactividad prolongada" "warning" 3000
            { p with visibilityState := .visible }).2).2) := by
  have hle : p.now ≤ h + 1800000 →
      onVisibilityChange .visible p = { p with visibilityState := .visible } := by
    intro hc
    have hcond : ¬ ((p.now : Int) - (h : Int) > 30 * 60 * 1000) := by omega
    unfold onVisibilityChange
    simp only [hl, if_true, hs, parseInt_toString, ne_eq, toString_nat_ne_empty,
      not_false_eq_true, hcond, if_false]
  have hgt : h + 1800000 < p.now →
      onVisibilityChange .visible p =
        (setTimeout .forcedLogout 3000
          (showAlert "Sesión cerrada por inactividad prolongada" "warning" 3000
            { p with visibilityState := .visible }).2).2 := by
    intro hc
    have hcond : (p.now : Int) - (h : Int) > 30 * 60 * 1000 := by omega
    unfold onVisibilityChange
    simp only [hl, if_true, hs, parseInt_toString, ne_eq, toString_nat_ne_empty,
      not_false_eq_true, hcond]
  refine ⟨?_, hle, hgt⟩
  constructor
  · intro hcount
    by_contra hc
    rw [hle (by omega)] at hcount
    have : forcedLogouts { p with visibilityState := Visibility.visible } = forcedLogouts p := rfl
    omega
  · intro hc
    rw [hgt hc]
    have h1 := showAlert_forcedLogouts "Sesión cerrada por inactividad prolongada" "warning" 3000
      { p with visibilityState := Visibility.visible }
    have h2 : forcedLogouts { p with visibilityState := Visibility.visible } = forcedLogouts p :=
      rfl
    rw [← h2, ← h1]
    simp [forcedLogouts, setTimeout, List.countP_append]

theorem visible_forces_logout_iff_witness :
    (pastTimeoutPage.visibilityListener = true ∧
      pastTimeoutPage.lastActiveTime = some (toString 1000)) ∧
    (forcedLogouts (onVisibilityChange .visible pastTimeoutPage) =
        forcedLogouts pastTimeoutPage + 1 ↔ 1000 + 1800000 < pastTimeoutPage.now) ∧
    (pastTimeoutPage.now ≤ 1000 + 1800000 →
      onVisibilityChange .visible pastTimeoutPage =
        { pastTimeoutPage with visibilityState := .visible }) ∧
    (1000 + 1800000 < pastTimeoutPage.now →
      onVisibilityChange .visible pastTimeoutPage =
        (setTimeout .forcedLogout 3000
          (showAlert "Sesión cerrada por inactividad prolongada" "warning" 3000
            { pastTimeoutPage with visibilityState := .visible }).2).2) :=
  ⟨⟨by decide, by decide⟩,
   visible_forces_logout_iff pastTimeoutPage 1000 (by decide) (by decide)⟩

/-- C10 as stated fails when the page was hidden for exactly the timeout: the
hidden duration is 1 800 000 ms, yet the listener forces no logout: it schedules
no timer and shows no warning. -/
theorem visible_at_timeout_no_logout :
    atTimeoutPage.lastActiveTime = some (toString 1000) ∧
    atTimeoutPage.now - 1000 ≥ 1800000 ∧
    forcedLogouts (onVisibilityChange .visible atTimeoutPage) = forcedLogouts atTimeoutPage ∧
    (onVisibilityChange .visible atTimeoutPage).timers = atTimeoutPage.timers ∧
    (onVisibilityChange .visible atTimeoutPage).alerts = atTimeoutPage.alerts := by
  decide

/-! ## The session manager: the timeout navigates -/

theorem guardOpen_congr {p q : Page} (ht : q.timers = p.timers)
    (hw : q.warningShown = p.warningShown) (h : GuardOpen p) : GuardOpen q := by
  unfold GuardOpen
  rw [ht, hw]
  exact h

theorem guardOpen_setTimeout {p : Page} (cb : Callback) (d : Nat) (hcb : cb ≠ .inactivity)
    (h : GuardOpen p) : GuardOpen (setTimeout cb d p).2 := by
  intro t ht hc
  simp only [setTimeout, List.mem_append, List.mem_singleton] at ht
  rcases ht with ht | rfl
  · exact h t ht hc
  · exact absurd hc hcb

theorem guardOpen_filter {p : Page} (P : Timer → Bool) (h : GuardOpen p) :
    GuardOpen { p with timers := p.timers.filter P } :=
  fun t ht hc => h t (List.mem_filter.mp ht).1 hc

theorem guardOpen_hideAlert {p : Page} (alert : Option Nat) (h : GuardOpen p) :
    GuardOpen (hideAlert alert p) := by
  rcases hideAlert_cases alert p with e | ⟨a, _, _, e⟩
  · rw [e]
    exact h
  · rw [e]
    exact guardOpen_setTimeout _ _ (by simp) (guardOpen_congr rfl rfl h)

theorem guardOpen_showAlert {p : Page} (m type : String) (d : Int) (h : GuardOpen p) :
    GuardOpen (showAlert m type d p).2 := by
  unfold showAlert
  cases hf : p.alerts.find? (fun a => jsIncludes a.textContent m) with
  | some a => exact h
  | none =>
    have h1 : GuardOpen (setTimeout (.fadeIn p.nextNode) 100
        { p with fromContainer := newAlert p.nextNode m type :: p.fromContainer
                 nextNode := p.nextNode + 1 }).2 :=
      guardOpen_setTimeout _ _ (by simp) (guardOpen_congr rfl rfl h)
    by_cases hd : d > 0
    · simp only [hd, if_true]
      exact guardOpen_setTimeout _ _ (by simp) h1
    · simp only [hd, if_false]
      exact h1

/-- The callback of the inactivity timeout may close the guard, when no other
inactivity timeout is pending; the other callbacks leave it open. -/
theorem guardOpen_fire {p : Page} (cb : Callback) (h : GuardOpen p)
    (hlast : cb = .inactivity → ∀ t ∈ p.timers, t.cb ≠ .inactivity) :
    GuardOpen (fire cb p) := by
  cases cb with
  | hideDone n => exact guardOpen_congr rfl rfl h
  | fadeIn n => exact guardOpen_congr rfl rfl h
  | autoHide n => exact guardOpen_hideAlert _ h
  | initAutoHide n t => exact guardOpen_congr rfl rfl (guardOpen_hideAlert (some n) h)
  | inactivity =>
    intro t ht hc
    have hm : t ∈ p.timers := by
      simp only [fire] at ht
      split at ht <;> exact ht
    exact absurd hc (hlast rfl t hm)
  | forcedLogout => exact guardOpen_congr rfl rfl h

theorem guardOpen_runNext {T : Nat} {p q : Page} (hok : TimersOk p) (h : GuardOpen p)
    (hq : runNext T p = some q) : GuardOpen q := by
  obtain ⟨t, ht, rfl⟩ := runNext_eq_some hq
  obtain ⟨htm, _⟩ := nextDue_mem ht
  refine guardOpen_fire t.cb (guardOpen_congr rfl rfl (guardOpen_filter _ h)) ?_
  intro hc u hu huc
  obtain ⟨hum, hne⟩ := List.mem_filter.mp hu
  have e1 := hok.2.2.1 t htm hc
  have e2 := hok.2.2.1 u hum huc
  rw [e1] at e2
  simp only [Option.some.injEq] at e2
  simp [e2] at hne

theorem guardOpen_runTimers (fuel T : Nat) {p : Page} (hok : TimersOk p) (h : GuardOpen p) :
    TimersOk (runTimers fuel T p) ∧ GuardOpen (runTimers fuel T p) :=
  runTimers_invariant (fun q => TimersOk q ∧ GuardOpen q) T
    (fun _ _ ha hb => ⟨timersOk_runNext ha.1 hb, guardOpen_runNext ha.1 ha.2 hb⟩)
    fuel p ⟨hok, h⟩

theorem guardOpen_elapse (dt : Nat) {p : Page} (hok : TimersOk p) (h : GuardOpen p) :
    GuardOpen (elapse dt p) :=
  guardOpen_congr rfl rfl (guardOpen_runTimers (budget p.timers) (p.now + dt) hok h).2

theorem resetInactivityTimer_warningShown (p : Page) :
    (resetInactivityTimer p).warningShown = false := by
  unfold resetInactivityTimer
  cases p.inactivityTimer <;> rfl

theorem guardOpen_resetInactivityTimer (p : Page) : GuardOpen (resetInactivityTimer p) :=
  fun _ _ _ => resetInactivityTimer_warningShown p

theorem guardOpen_onVisibilityChange {p : Page} (state : Visibility) (h : GuardOpen p) :
    GuardOpen (onVisibilityChange state p) := by
  have h0 : GuardOpen { p with visibilityState := state } := guardOpen_congr rfl rfl h
  unfold onVisibilityChange
  simp only
  split
  · cases state with
    | hidden => exact guardOpen_congr rfl rfl h
    | visible =>
      simp only
      split
      · exact h0
      · split
        · split
          · exact h0
          · split
            · exact guardOpen_setTimeout _ _ (by simp) (guardOpen_showAlert _ _ _ h0)
            · exact h0
        · exact h0
  · exact h0

theorem guardOpen_step {p : Page} (s : Step) (hok : TimersOk p) (h : GuardOpen p) :
    GuardOpen (step s p) := by
  cases s with
  | event type =>
    simp only [step, dispatchEvent]
    split
    · exact guardOpen_resetInactivityTimer p
    · exact h
  | wait dt => exact guardOpen_elapse dt hok h
  | visibility state => exact guardOpen_onVisibilityChange state h
  | alert m type d => exact guardOpen_showAlert m type d h
  | dismiss n => exact guardOpen_hideAlert (some n) h

theorem guardOpen_run {p : Page} (steps : List Step) (hok : TimersOk p) (h : GuardOpen p) :
    GuardOpen (run steps p) :=
  (run_invariant (fun q => TimersOk q ∧ GuardOpen q)
    (fun s _ hq => ⟨timersOk_step s hq.1, guardOpen_step s hq.1 hq.2⟩) steps p ⟨hok, h⟩).2

theorem initSessionManager_warningShown (uid : UserId) (p : Page) (huid : uid.truthy = true) :
    (initSessionManager (some uid) p).warningShown = false := by
  have e : initSessionManager (some uid) p =
      { resetInactivityTimer
          (registerActivity { p with inactivityTimer := none, warningShown := false }) with
        beforeUnloadListener := true, visibilityListener := true } := by
    unfold initSessionManager
    exact if_pos huid
  rw [e]
  generalize registerActivity { p with inactivityTimer := none, warningShown := false } = X
  exact resetInactivityTimer_warningShown X

theorem sessionPage_guardOpen (p0 : Page) (uid : UserId) (steps : List Step)
    (hfresh : FreshTimers p0) (huid : uid.truthy = true) :
    GuardOpen (sessionPage p0 uid steps) :=
  guardOpen_run steps (initSessionManager_spec uid p0 hfresh huid).1
    (fun _ _ _ => initSessionManager_warningShown uid p0 huid)

theorem hideAlert_keeps (alert : Option Nat) (p : Page) :
    (∀ t ∈ p.timers, t ∈ (hideAlert alert p).timers) ∧
    (hideAlert alert p).visibilityState = p.visibilityState := by
  rcases hideAlert_cases alert p with e | ⟨a, _, _, e⟩
  · rw [e]
    exact ⟨fun t ht => ht, rfl⟩
  · rw [e]
    refine ⟨fun t ht => ?_, rfl⟩
    simp only [setTimeout, List.mem_append, List.mem_singleton]
    exact Or.inl ht

/-- A callback cancels no timer, leaves the visibility of the page alone, and
changes the location only to the logout route. -/
theorem fire_keeps (cb : Callback) (p : Page) :
    (∀ t ∈ p.timers, t ∈ (fire cb p).timers) ∧
    (fire cb p).visibilityState = p.visibilityState ∧
    ((fire cb p).location = p.location ∨ (fire cb p).location = "/logout") := by
  cases cb with
  | hideDone n => exact ⟨fun t ht => ht, rfl, Or.inl rfl⟩
  | fadeIn n => exact ⟨fun t ht => ht, rfl, Or.inl rfl⟩
  | autoHide n =>
    exact ⟨(hideAlert_keeps _ p).1, (hideAlert_keeps _ p).2, Or.inl (hideAlert_session _ p).2.2⟩
  | initAutoHide n txt =>
    exact ⟨(hideAlert_keeps (some n) p).1, (hideAlert_keeps (some n) p).2,
      Or.inl (hideAlert_session (some n) p).2.2⟩
  | inactivity =>
    simp only [fire]
    split
    · exact ⟨fun t ht => ht, rfl, Or.inr rfl⟩
    · exact ⟨fun t ht => ht, rfl, Or.inl rfl⟩
  | forcedLogout => exact ⟨fun t ht => ht, rfl, Or.inr rfl⟩

theorem fire_inactivity_open (p : Page) (h : p.warningShown = false) :
    (fire .inactivity p).location = "/logout" ∧ (fire .inactivity p).warningShown = true := by
  simp only [fire, h]
  exact ⟨rfl, rfl⟩

theorem elapse_visibilityState (dt : Nat) (p : Page) :
    (elapse dt p).visibilityState = p.visibilityState :=
  runTimers_invariant (fun q => q.visibilityState = p.visibilityState) (p.now + dt)
    (fun a b ha hb => by
      obtain ⟨t, _, rfl⟩ := runNext_eq_some hb
      exact (fire_keeps t.cb _).2.1.trans ha)
    (budget p.timers) p rfl

/-- The pending inactivity timeout runs when it is due, and its callback
navigates to the logout route. -/
theorem elapse_inactivity_logout (dt : Nat) {p : Page} {t : Timer} (hok : TimersOk p)
    (h : GuardOpen p) (ht : t ∈ p.timers) (hcb : t.cb = .inactivity)
    (hdue : t.fireAt ≤ p.now + dt) : (elapse dt p).location = "/logout" := by
  have hinv := runTimers_invariant
    (fun q => (TimersOk q ∧ GuardOpen q) ∧ (t ∈ q.timers ∨ q.location = "/logout")) (p.now + dt)
    (by
      intro a b ha hb
      refine ⟨⟨timersOk_runNext ha.1.1 hb, guardOpen_runNext ha.1.1 ha.1.2 hb⟩, ?_⟩
      obtain ⟨u, hu, rfl⟩ := runNext_eq_some hb
      obtain ⟨hum, _⟩ := nextDue_mem hu
      obtain ⟨k1, _, k3⟩ := fire_keeps u.cb
        { a with timers := a.timers.filter (fun v => v.handle != u.handle)
                 now := max a.now u.fireAt }
      rcases ha.2 with hm | hl
      · by_cases hh : t.handle = u.handle
        · have heq : t = u := List.inj_on_of_nodup_map ha.1.1.2.1 hm hum hh
          subst heq
          right
          rw [hcb]
          refine (fire_inactivity_open _ ?_).1
          exact ha.1.2 t hm hcb
        · left
          refine k1 t (List.mem_filter.mpr ⟨hm, ?_⟩)
          simpa using hh
      · right
        rcases k3 with e | e
        · exact e.trans hl
        · exact e)
    (budget p.timers) p ⟨⟨hok, h⟩, Or.inl ht⟩
  rcases hinv.2 with hm | hl
  · have := elapse_complete dt p t hm
    omega
  · exact hl

/-- C12. On a page with a session, whenever the inactivity timeout is the timer
that runs next (at any point while the due timers run, after any sequence of
activity events, waits, visibility changes and alert calls), the flag
`warningShown` is false; so its callback is not skipped: it sets the flag and
navigates to '/logout', with no confirmation.  Hence a pending inactivity timeout
always ends in the logout route once its due time has passed with no step in
between. -/
theorem inactivity_timeout_navigates (p0 : Page) (uid : UserId) (steps : List Step)
    (k T : Nat) (t : Timer)
    (hfresh : FreshTimers p0) (huid : uid.truthy = true)
    (hdue : nextDue T (runTimers k T (sessionPage p0 uid steps)).timers = some t)
    (hcb : t.cb = .inactivity) :
    (runTimers k T (sessionPage p0 uid steps)).warningShown = false ∧
    (∃ q, runNext T (runTimers k T (sessionPage p0 uid steps)) = some q ∧
      q.location = "/logout" ∧ q.warningShown = true) ∧
    (∀ u ∈ (sessionPage p0 uid steps).timers, u.cb = .inactivity →
      ∀ dt, u.fireAt ≤ (sessionPage p0 uid steps).now + dt →
        (elapse dt (sessionPage p0 uid steps)).location = "/logout") := by
  obtain ⟨hok, _⟩ := sessionPage_ok p0 uid steps hfresh huid
  have hg := sessionPage_guardOpen p0 uid steps hfresh huid
  generalize sessionPage p0 uid steps = q at *
  obtain ⟨_, hga⟩ := guardOpen_runTimers k T hok hg
  generalize runTimers k T q = a at *
  have hw : a.warningShown = false := hga t (nextDue_mem hdue).1 hcb
  refine ⟨hw, ⟨_, by rw [runNext, hdue], ?_⟩, ?_⟩
  · rw [hcb]
    exact fire_inactivity_open _ hw
  · intro u hu hc dt hd
    exact elapse_inactivity_logout dt hok hg hu hc hd

theorem inactivity_timeout_navigates_witness :
    (FreshTimers sweptPage ∧ (UserId.number 7).truthy = true ∧
      nextDue 1805000 (runTimers 0 1805000 (sessionPage sweptPage (.number 7) someActivity)).timers
        = some { handle := 6, fireAt := 1805000, cb := .inactivity } ∧
      ({ handle := 6, fireAt := 1805000, cb := .inactivity } : Timer).cb = .inactivity) ∧
    (runTimers 0 1805000 (sessionPage sweptPage (.number 7) someActivity)).warningShown = false ∧
    (∃ q, runNext 1805000 (runTimers 0 1805000 (sessionPage sweptPage (.number 7) someActivity))
        = some q ∧ q.location = "/logout" ∧ q.warningShown = true) ∧
    (∀ u ∈ (sessionPage sweptPage (.number 7) someActivity).timers, u.cb = .inactivity →
      ∀ dt, u.fireAt ≤ (sessionPage sweptPage (.number 7) someActivity).now + dt →
        (elapse dt (sessionPage sweptPage (.number 7) someActivity)).location = "/logout") :=
  ⟨⟨⟨by decide, by decide, by decide⟩, by decide, by decide, rfl⟩,
   inactivity_timeout_navigates sweptPage (.number 7) someActivity 0 1805000
     { handle := 6, fireAt := 1805000, cb := .inactivity }
     ⟨by decide, by decide, by decide⟩ (by decide) (by decide) rfl⟩

/-- C11 as stated fails: a page with a session is hidden right after loading,
with the inactivity timeout armed for 1 800 000 ms; the page stays hidden, and
at 1 800 000 ms the timeout has run and the page has navigated to '/logout'. -/
theorem hidden_page_logs_out_at_deadline :
    ({ handle := 0, fireAt := 1800000, cb := .inactivity } : Timer) ∈
      (sessionPage emptyPage (.number 7) [.visibility .hidden]).timers ∧
    (sessionPage emptyPage (.number 7) [.visibility .hidden]).location = "/" ∧
    hiddenHalfHourPage.visibilityState = .hidden ∧
    hiddenHalfHourPage.now = 1800000 ∧
    hiddenHalfHourPage.location = "/logout" := by
  decide

/-- C11, amended. On a page with a session the listener of a page-hide event
only records the time of hiding: the pending timers, the inactivity timeout
among them, stay armed.  The timeout armed before hiding runs at its due time on
the hidden page, when nothing else happens: the page, still hidden, has then
navigated to '/logout'. -/
theorem hidden_page_timeout_still_fires (p0 : Page) (uid : UserId) (steps : List Step)
    (t : Timer) (hfresh : FreshTimers p0) (huid : uid.truthy = true)
    (ht : t ∈ (sessionPage p0 uid steps).timers) (hcb : t.cb = .inactivity) :
    (onVisibilityChange .hidden (sessionPage p0 uid steps)).timers =
      (sessionPage p0 uid steps).timers ∧
    (onVisibilityChange .hidden (sessionPage p0 uid steps)).inactivityTimer =
      (sessionPage p0 uid steps).inactivityTimer ∧
    (onVisibilityChange .hidden (sessionPage p0 uid steps)).lastActiveTime =
      some (toString (sessionPage p0 uid steps).now) ∧
    ∀ dt, t.fireAt ≤ (sessionPage p0 uid steps).now + dt →
      (elapse dt (onVisibilityChange .hidden (sessionPage p0 uid steps))).visibilityState =
        .hidden ∧
      (elapse dt (onVisibilityChange .hidden (sessionPage p0 uid steps))).location =
        "/logout" := by
  obtain ⟨hok, hon⟩ := sessionPage_ok p0 uid steps hfresh huid
  have hg := sessionPage_guardOpen p0 uid steps hfresh huid
  generalize sessionPage p0 uid steps = q at *
  have hok2 := timersOk_onVisibilityChange .hidden hok
  have hg2 := guardOpen_onVisibilityChange .hidden hg
  have e : onVisibilityChange .hidden q =
      { q with visibilityState := .hidden, lastActiveTime := some (toString q.now) } := by
    unfold onVisibilityChange
    simp only [hon.2, if_true]
  generalize onVisibilityChange .hidden q = r at *
  subst e
  refine ⟨rfl, rfl, rfl, ?_⟩
  intro dt hd
  exact ⟨elapse_visibilityState dt _, elapse_inactivity_logout dt hok2 hg2 ht hcb hd⟩

theorem hidden_page_timeout_still_fires_witness :
    (FreshTimers sweptPage ∧ (UserId.number 7).truthy = true ∧
      ({ handle := 6, fireAt := 1805000, cb := .inactivity } : Timer) ∈
        (sessionPage sweptPage (.number 7) someActivity).timers ∧
      ({ handle := 6, fireAt := 1805000, cb := .inactivity } : Timer).cb = .inactivity) ∧
    (onVisibilityChange .hidden (sessionPage sweptPage (.number 7) someActivity)).timers =
      (sessionPage sweptPage (.number 7) someActivity).timers ∧
    (onVisibilityChange .hidden (sessionPage sweptPage (.number 7) someActivity)).inactivityTimer =
      (sessionPage sweptPage (.number 7) someActivity).inactivityTimer ∧
    (onVisibilityChange .hidden (sessionPage sweptPage (.number 7) someActivity)).lastActiveTime =
      some (toString (sessionPage sweptPage (.number 7) someActivity).now) ∧
    ∀ dt, 1805000 ≤ (sessionPage sweptPage (.number 7) someActivity).now + dt →
      (elapse dt (onVisibilityChange .hidden
        (sessionPage sweptPage (.number 7) someActivity))).visibilityState = .hidden ∧
      (elapse dt (onVisibilityChange .hidden
        (sessionPage sweptPage (.number 7) someActivity))).location = "/logout" :=
  ⟨⟨⟨by decide, by decide, by decide⟩, by decide, by decide, rfl⟩,
   hidden_page_timeout_still_fires sweptPage (.number 7) someActivity
     { handle := 6, fireAt := 1805000, cb := .inactivity }
     ⟨by decide, by decide, by decide⟩ (by decide) (by decide) rfl⟩

/-- C13. When the global `sessionData` is not defined, or its `userId` is absent
or falsy, initSessionManager does nothing: the page is unchanged, so no activity,
beforeunload or visibilitychange listener is registered, no timer is armed and
nothing is written to the session storage. -/
theorem initSessionManager_inert (sessionData : Option UserId) (p : Page)
    (h : sessionData = none ∨ ∃ uid, sessionData = some uid ∧ uid.truthy = false) :
    initSessionManager sessionData p = p ∧
    (initSessionManager sessionData p).activityListeners = p.activityListeners ∧
    (initSessionManager sessionData p).beforeUnloadListener = p.beforeUnloadListener ∧
    (initSessionManager sessionData p).visibilityListener = p.visibilityListener ∧
    (initSessionManager sessionData p).timers = p.timers ∧
    (initSessionManager sessionData p).inactivityTimer = p.inactivityTimer ∧
    (initSessionManager sessionData p).lastActiveTime = p.lastActiveTime := by
  have e : initSessionManager sessionData p = p := by
    rcases h with rfl | ⟨uid, rfl, hu⟩
    · rfl
    · unfold initSessionManager
      exact if_neg (by simp [hu])
  rw [e]
  exact ⟨rfl, rfl, rfl, rfl, rfl, rfl, rfl⟩

theorem initSessionManager_inert_witness :
    (some (UserId.text "") = none ∨
      ∃ uid, some (UserId.text "") = some uid ∧ uid.truthy = false) ∧
    initSessionManager (some (.text "")) sweptPage = sweptPage ∧
    (initSessionManager (some (.text "")) sweptPage).activityListeners =
      sweptPage.activityListeners ∧
    (initSessionManager (some (.text "")) sweptPage).beforeUnloadListener =
      sweptPage.beforeUnloadListener ∧
    (initSessionManager (some (.text "")) sweptPage).visibilityListener =
      sweptPage.visibilityListener ∧
    (initSessionManager (some (.text "")) sweptPage).timers = sweptPage.timers ∧
    (initSessionManager (some (.text "")) sweptPage).inactivityTimer =
      sweptPage.inactivityTimer ∧
    (initSessionManager (some (.text "")) sweptPage).lastActiveTime =
      sweptPage.lastActiveTime :=
  ⟨Or.inr ⟨.text "", rfl, by decide⟩,
   initSessionManager_inert (some (.text "")) sweptPage (Or.inr ⟨.text "", rfl, by decide⟩)⟩

/-! ## The stock adjustment form: the bound on the quantity -/

/-- C14, amended. With the type 'subtract' and a current stock S, let q be the
integer that the listener of `input` reads at the start of the field with
parseInt, S and q being at most 2^53 in magnitude, where the numbers of
JavaScript are exact.  When q > S the listener writes S in the field and shows
the warning 'No puede reducir más stock del disponible' (the new warning
replaces the first one of the document, and its exit is scheduled); when q ≤ S
the page is left as it is: the field keeps its value and no warning is shown. -/
theorem subtract_clamps_to_stock (p : StockPage) (S q : Int)
    (hS : p.currentStock = some S) (ht : p.adjustmentType = "subtract")
    (hq : parseInt p.quantityValue = some q)
    (_hSsafe : S.natAbs ≤ 9007199254740992) (_hqsafe : q.natAbs ≤ 9007199254740992) :
    (S < q →
      (onQuantityInput p).quantityValue = toString S ∧
      (onQuantityInput p).warnings = p.warnings.drop 1 ++
        [{ node := p.nextNode, text := "No puede reducir más stock del disponible",
           animation := "slideIn 0.3s ease" }] ∧
      (onQuantityInput p).timers = p.timers ++
        [{ handle := p.nextHandle, fireAt := p.now + 3000, cb := .slideOut p.nextNode }]) ∧
    (q ≤ S → onQuantityInput p = p) := by
  constructor
  · intro h
    have hc : p.adjustmentType = "subtract" ∧
        jsGt (parseInt p.quantityValue) p.currentStock = true := by
      refine ⟨ht, ?_⟩
      rw [hq, hS]
      simpa [jsGt] using h
    have e : onQuantityInput p =
        showTemporaryWarning "No puede reducir más stock del disponible"
          { p with quantityValue := numberToString p.currentStock } := if_pos hc
    rw [e, hS]
    exact ⟨rfl, rfl, rfl⟩
  · intro h
    have hc : ¬ (p.adjustmentType = "subtract" ∧
        jsGt (parseInt p.quantityValue) p.currentStock = true) := by
      rw [hq, hS]
      intro hh
      have := hh.2
      simp [jsGt] at this
      omega
    exact if_neg hc

theorem subtract_clamps_to_stock_witness :
    ((selectType "subtract" stockPage).currentStock = some 12 ∧
      (selectType "subtract" stockPage).adjustmentType = "subtract" ∧
      (12 : Int).natAbs ≤ 9007199254740992 ∧ (15 : Int).natAbs ≤ 9007199254740992) ∧
    (parseInt "15" = some 15 ∧
      ((12 : Int) < 15 →
        (onQuantityInput { selectType "subtract" stockPage with quantityValue := "15" }).quantityValue
          = toString (12 : Int) ∧
        (onQuantityInput { selectType "subtract" stockPage with quantityValue := "15" }).warnings =
          (selectType "subtract" stockPage).warnings.drop 1 ++
            [{ node := 0, text := "No puede reducir más stock del disponible",
               animation := "slideIn 0.3s ease" }] ∧
        (onQuantityInput { selectType "subtract" stockPage with quantityValue := "15" }).timers =
          (selectType "subtract" stockPage).timers ++
            [{ handle := 0, fireAt := 0 + 3000, cb := .slideOut 0 }]) ∧
      ((15 : Int) ≤ 12 →
        onQuantityInput { selectType "subtract" stockPage with quantityValue := "15" } =
          { selectType "subtract" stockPage with quantityValue := "15" })) :=
  ⟨⟨by decide, by decide, by decide, by decide⟩, by decide,
   subtract_clamps_to_stock { selectType "subtract" stockPage with quantityValue := "15" } 12 15
     (by decide) (by decide) (by decide) (by decide) (by decide)⟩

/-- C14 as stated fails for an entry with a fraction or an exponent.  With a
stock of 12 and the type 'subtract', the entries '12.9' and '1e3' are numbers
above the stock: 12.9 and 1000, as parseFloat reads them.  The listener
compares what parseInt reads, 12 and 1, so that it leaves the field as it is and
shows no warning. -/
theorem subtract_fraction_not_clamped :
    (selectType "subtract" stockPage).currentStock = some 12 ∧
    parseFloat "12.9" = .decimal false 129 (-1) ∧ parseInt "12.9" = some 12 ∧
    enterQuantity "12.9" (selectType "subtract" stockPage) =
      { selectType "subtract" stockPage with quantityValue := "12.9" } ∧
    (enterQuantity "12.9" (selectType "subtract" stockPage)).warnings = [] ∧
    parseFloat "1e3" = .decimal false 1 3 ∧ parseInt "1e3" = some 1 ∧
    enterQuantity "1e3" (selectType "subtract" stockPage) =
      { selectType "subtract" stockPage with quantityValue := "1e3" } ∧
    (enterQuantity "1e3" (selectType "subtract" stockPage)).warnings = [] := by
  decide

/-- C15. With the type 'add' the listener of `input` leaves the page as it is,
whatever the current stock and the value of the field: the field keeps its value
and no warning is shown.  And when 'add' is selected the listener of `change`
removes the `max` attribute of the field and leaves its value alone. -/
theorem add_has_no_upper_bound (p : StockPage) (ht : p.adjustmentType = "add") :
    onQuantityInput p = p ∧
    (∀ text, enterQuantity text p = { p with quantityValue := text }) ∧
    (onTypeChange p).quantityMax = none ∧
    (onTypeChange p).quantityValue = p.quantityValue ∧
    (onTypeChange p).warnings = p.warnings := by
  have hne : ¬ (("add" : String) = "subtract") := by decide
  refine ⟨?_, ?_, ?_⟩
  · exact if_neg (fun hh => hne (ht ▸ hh.1))
  · intro text
    exact if_neg (fun hh => hne (ht ▸ hh.1))
  · have e : onTypeChange p =
        { p with
          quantityMax := none
          quantityPlaceholder := "Cantidad a agregar"
          quantityClasses := addClass "quantity-input-add"
            (removeClass "quantity-input-subtract"
              (removeClass "quantity-input-add" p.quantityClasses)) } := by
      unfold onTypeChange
      simp only [ht, hne, if_false, if_true]
    rw [e]
    exact ⟨rfl, rfl, rfl⟩

theorem add_has_no_upper_bound_witness :
    (selectType "add" { selectType "subtract" stockPage with quantityValue := "40" }).adjustmentType
      = "add" ∧
    onQuantityInput
        (selectType "add" { selectType "subtract" stockPage with quantityValue := "40" }) =
      selectType "add" { selectType "subtract" stockPage with quantityValue := "40" } ∧
    (∀ text,
      enterQuantity text
          (selectType "add" { selectType "subtract" stockPage with quantityValue := "40" }) =
        { selectType "add" { selectType "subtract" stockPage with quantityValue := "40" } with
          quantityValue := text }) ∧
    (onTypeChange
      (selectType "add" { selectType "subtract" stockPage with quantityValue := "40" })).quantityMax
      = none ∧
    (onTypeChange
      (selectType "add" { selectType "subtract" stockPage with quantityValue := "40" })).quantityValue
      = (selectType "add" { selectType "subtract" stockPage with quantityValue := "40" }).quantityValue ∧
    (onTypeChange
      (selectType "add" { selectType "subtract" stockPage with quantityValue := "40" })).warnings
      = (selectType "add" { selectType "subtract" stockPage with quantityValue := "40" }).warnings :=
  ⟨by decide,
   add_has_no_upper_bound
     (selectType "add" { selectType "subtract" stockPage with quantityValue := "40" }) (by decide)⟩

/-! ## The add-product form: the generated SKU -/

theorem roundHalfEven_le (y : ℚ) : (roundHalfEven y : ℚ) ≤ y + 1 / 2 := by
  have h1 := Int.floor_le y
  unfold roundHalfEven
  split_ifs with a b c
  · linarith
  · push_cast
    linarith
  · linarith
  · push_cast
    have : y - ⌊y⌋ = 1 / 2 := le_antisymm (not_lt.mp b) (not_lt.mp a)
    linarith

theorem floor_le_roundHalfEven (y : ℚ) : ⌊y⌋ ≤ roundHalfEven y := by
  unfold roundHalfEven
  split_ifs <;> omega

theorem roundHalfEven_intCast (m : Int) : roundHalfEven (m : ℚ) = m := by
  unfold roundHalfEven
  rw [Int.floor_intCast]
  simp

theorem roundHalfEven_eq (y : ℚ) (m : Int) (h1 : (m : ℚ) - 1 / 2 < y) (h2 : y < m + 1 / 2) :
    roundHalfEven y = m := by
  unfold roundHalfEven
  by_cases hm : (m : ℚ) ≤ y
  · have hf : ⌊y⌋ = m := Int.floor_eq_iff.mpr ⟨hm, by linarith⟩
    rw [hf, if_pos (by linarith)]
  · have hf : ⌊y⌋ = m - 1 := Int.floor_eq_iff.mpr ⟨by push_cast; linarith, by push_cast; linarith⟩
    rw [hf]
    have hm2 : y < m := not_le.mp hm
    rw [if_neg (by push_cast; linarith), if_pos (by push_cast; linarith)]
    omega

theorem log2_eq (x : ℚ) (e : Int) (h1 : (2 : ℚ) ^ e ≤ x) (h2 : x < (2 : ℚ) ^ (e + 1)) :
    Int.log 2 x = e := by
  have hx : 0 < x := lt_of_lt_of_le (by positivity) h1
  have a : e ≤ Int.log 2 x := (Int.zpow_le_iff_le_log (R := ℚ) (b := 2) (by norm_num) hx).mp
    (by simpa using h1)
  have b : Int.log 2 x < e + 1 := (Int.lt_zpow_iff_log_lt (R := ℚ) (b := 2) (by norm_num) hx).mp
    (by simpa using h2)
  omega

theorem log2_lt (x : ℚ) (e : Int) (he : 0 < e) (h2 : x < (2 : ℚ) ^ e) : Int.log 2 x < e := by
  by_cases hx : 0 < x
  · exact (Int.lt_zpow_iff_log_lt (R := ℚ) (b := 2) (by norm_num) hx).mp (by simpa using h2)
  · rw [Int.log_of_right_le_zero 2 (not_lt.mp hx)]
    exact he

theorem ulpExponent_le (x : ℚ) (hx : x < 1024) : ulpExponent x ≤ -43 := by
  have h := log2_lt x 10 (by norm_num) (by norm_num; exact hx)
  unfold ulpExponent
  omega

theorem ulpExponent_ge (x : ℚ) : -1074 ≤ ulpExponent x := by
  unfold ulpExponent
  omega

theorem roundDouble_nonneg (x : ℚ) (h0 : 0 ≤ x) :
    roundDouble x = (roundHalfEven (x / 2 ^ ulpExponent x) : ℚ) * 2 ^ ulpExponent x := by
  unfold roundDouble
  rw [if_pos h0]

theorem roundDouble_le (x : ℚ) (h0 : 0 ≤ x) :
    roundDouble x ≤ x + 2 ^ ulpExponent x / 2 := by
  rw [roundDouble_nonneg x h0]
  have hpos : (0 : ℚ) < 2 ^ ulpExponent x := by positivity
  have h := roundHalfEven_le (x / 2 ^ ulpExponent x)
  have h2 := mul_le_mul_of_nonneg_right h (le_of_lt hpos)
  have e : (x / 2 ^ ulpExponent x + 1 / 2) * 2 ^ ulpExponent x = x + 2 ^ ulpExponent x / 2 := by
    field_simp
    ring
  rw [e] at h2
  exact h2

theorem roundDouble_ge_nat (x : ℚ) (n : Nat) (hn : (n : ℚ) ≤ x) (hk : ulpExponent x ≤ 0) :
    (n : ℚ) ≤ roundDouble x := by
  have h0 : 0 ≤ x := le_trans (Nat.cast_nonneg n) hn
  rw [roundDouble_nonneg x h0]
  obtain ⟨j, hj⟩ : ∃ j : Nat, ulpExponent x = -(j : Int) :=
    ⟨(-ulpExponent x).toNat, by omega⟩
  rw [hj, zpow_neg, zpow_natCast]
  have hpos : (0 : ℚ) < 2 ^ j := by positivity
  have e : x / (2 ^ j)⁻¹ = x * 2 ^ j := by field_simp
  rw [e]
  have hM : (((n * 2 ^ j : Nat) : Int) : ℚ) ≤ x * 2 ^ j := by
    push_cast
    exact mul_le_mul_of_nonneg_right hn (le_of_lt hpos)
  have h1 : ((n * 2 ^ j : Nat) : Int) ≤ ⌊x * 2 ^ j⌋ := Int.le_floor.mpr hM
  have h2 := floor_le_roundHalfEven (x * 2 ^ j)
  have h3 : ((n * 2 ^ j : Nat) : Int) ≤ roundHalfEven (x * 2 ^ j) := le_trans h1 h2
  have h4 : (((n * 2 ^ j : Nat) : Int) : ℚ) ≤ (roundHalfEven (x * 2 ^ j) : ℚ) := by
    exact_mod_cast h3
  have h5 := mul_le_mul_of_nonneg_right h4 (le_of_lt (inv_pos.mpr hpos))
  have e2 : (((n * 2 ^ j : Nat) : Int) : ℚ) * (2 ^ j)⁻¹ = n := by
    push_cast
    field_simp
  rw [e2] at h5
  exact h5

/-- The floor of the double nearest to a number below 1000 - 1000 / 2^53: the
floor of the number or one more, and below 1000. -/
theorem floor_roundDouble (x : ℚ) (h0 : 0 ≤ x) (hx : x ≤ 1000 - 1000 / 2 ^ 53) :
    ⌊x⌋ ≤ ⌊roundDouble x⌋ ∧ ⌊roundDouble x⌋ ≤ ⌊x⌋ + 1 ∧ ⌊roundDouble x⌋ < 1000 := by
  have hx2 : x < 1024 := by
    have : (0 : ℚ) < 1000 / 2 ^ 53 := by positivity
    linarith
  have hk := ulpExponent_le x hx2
  have hpow : (2 : ℚ) ^ ulpExponent x ≤ 2 ^ (-43 : Int) :=
    zpow_le_zpow_right₀ (by norm_num) hk
  have hup := roundDouble_le x h0
  have h43 : (2 : ℚ) ^ (-43 : Int) / 2 < 1000 / 2 ^ 53 := by norm_num
  have hup2 : roundDouble x < x + 1000 / 2 ^ 53 := by
    have hhalf : (2 : ℚ) ^ ulpExponent x / 2 ≤ 2 ^ (-43 : Int) / 2 :=
      div_le_div_of_nonneg_right hpow (by norm_num)
    exact lt_of_le_of_lt hup (by
      have := lt_of_le_of_lt hhalf h43
      exact add_lt_add_left this x)
  have hfl : 0 ≤ ⌊x⌋ := Int.floor_nonneg.mpr h0
  obtain ⟨n, hn⟩ := Int.eq_ofNat_of_zero_le hfl
  have hnx : (n : ℚ) ≤ x := by
    have := Int.floor_le x
    rw [hn] at this
    exact_mod_cast this
  have hlow := roundDouble_ge_nat x n hnx (by omega)
  refine ⟨?_, ?_, ?_⟩
  · rw [hn]
    exact Int.le_floor.mpr (by exact_mod_cast hlow)
  · have h1 := Int.lt_floor_add_one x
    have h2 : (1000 : ℚ) / 2 ^ 53 < 1 := by norm_num
    have : roundDouble x < ((⌊x⌋ + 1 + 1 : Int) : ℚ) := by
      push_cast
      linarith
    have := Int.floor_lt.mpr this
    omega
  · exact Int.floor_lt.mpr (by push_cast; linarith)

/-- A double below 1 is at most 1 - 2^-53. -/
theorem double_lt_one (r : ℚ) (h0 : 0 ≤ r) (hr : roundDouble r = r) (h1 : r < 1) :
    r ≤ 1 - 1 / 2 ^ 53 := by
  by_cases hhalf : r < 1 / 2
  · have : (1 : ℚ) / 2 ≤ 1 - 1 / 2 ^ 53 := by norm_num
    linarith
  · have hlog : Int.log 2 r = -1 :=
      log2_eq r (-1) (by norm_num; linarith [not_lt.mp hhalf]) (by norm_num; exact h1)
    have hk : ulpExponent r = -53 := by
      unfold ulpExponent
      rw [hlog]
      rfl
    rw [roundDouble_nonneg r h0, hk] at hr
    have e : r / 2 ^ (-53 : Int) = r * 2 ^ 53 := by
      rw [zpow_neg]
      field_simp
      norm_num
    rw [e] at hr
    have hm : (roundHalfEven (r * 2 ^ 53) : ℚ) = r * 2 ^ 53 := by
      have h2 : (2 : ℚ) ^ (-53 : Int) = 1 / 2 ^ 53 := by norm_num
      rw [h2] at hr
      field_simp at hr
      linarith
    have hlt : (roundHalfEven (r * 2 ^ 53) : ℚ) < ((2 ^ 53 : Int) : ℚ) := by
      rw [hm]
      push_cast
      nlinarith
    have hlt2 : roundHalfEven (r * 2 ^ 53) < 2 ^ 53 := by exact_mod_cast hlt
    have hle : roundHalfEven (r * 2 ^ 53) ≤ 2 ^ 53 - 1 := by omega
    have hle2 : (roundHalfEven (r * 2 ^ 53) : ℚ) ≤ 2 ^ 53 - 1 := by exact_mod_cast hle
    rw [hm] at hle2
    have h3 : r ≤ (2 ^ 53 - 1) / 2 ^ 53 := by
      rw [le_div_iff₀ (by positivity)]
      exact hle2
    have h4 : ((2 : ℚ) ^ 53 - 1) / 2 ^ 53 = 1 - 1 / 2 ^ 53 := by norm_num
    linarith

/-- The double nearest to a natural number below 2^53 is the number itself. -/
theorem roundDouble_natCast (n : Nat) (h : n < 2 ^ 53) : roundDouble (n : ℚ) = n := by
  have h0 : (0 : ℚ) ≤ n := Nat.cast_nonneg n
  have hlog : Int.log 2 (n : ℚ) < 53 := log2_lt _ 53 (by norm_num) (by
    have h' : n < 9007199254740992 := by
      norm_num at h
      exact h
    norm_num
    exact_mod_cast h')
  have hk : ulpExponent (n : ℚ) ≤ 0 := by
    unfold ulpExponent
    omega
  rw [roundDouble_nonneg _ h0]
  obtain ⟨j, hj⟩ : ∃ j : Nat, ulpExponent (n : ℚ) = -(j : Int) :=
    ⟨(-ulpExponent (n : ℚ)).toNat, by omega⟩
  rw [hj, zpow_neg, zpow_natCast]
  have hpos : (0 : ℚ) < 2 ^ j := by positivity
  have e : (n : ℚ) / (2 ^ j)⁻¹ = (((n * 2 ^ j : Nat) : Int) : ℚ) := by
    push_cast
    field_simp
  rw [e, roundHalfEven_intCast]
  push_cast
  field_simp

/-- The double nearest to a positive number, from its leading bit `e` and the
integer `m` nearest to its quotient by the unit in the last place. -/
theorem roundDouble_eq (x : ℚ) (e m : Int) (h1 : (2 : ℚ) ^ e ≤ x) (h2 : x < (2 : ℚ) ^ (e + 1))
    (he : -1022 ≤ e) (hm1 : (m : ℚ) - 1 / 2 < x / 2 ^ (e - 52))
    (hm2 : x / 2 ^ (e - 52) < m + 1 / 2) :
    roundDouble x = m * 2 ^ (e - 52) := by
  have hx : 0 < x := lt_of_lt_of_le (by positivity) h1
  have hk : ulpExponent x = e - 52 := by
    unfold ulpExponent
    rw [log2_eq x e h1 h2]
    omega
  rw [roundDouble_nonneg x (le_of_lt hx), hk, roundHalfEven_eq _ m hm1 hm2]

theorem roundedDraw_double : roundDouble roundedDraw = roundedDraw := by
  have h := roundDouble_eq roundedDraw (-4) 8574853690513424
    (by norm_num [roundedDraw]) (by norm_num [roundedDraw]) (by norm_num)
    (by norm_num [roundedDraw]) (by norm_num [roundedDraw])
  rw [h]
  norm_num [roundedDraw]

theorem roundedDraw_product : roundDouble (roundedDraw * 1000) = 119 := by
  have h := roundDouble_eq (roundedDraw * 1000) 6 8373880557142016
    (by norm_num [roundedDraw]) (by norm_num [roundedDraw]) (by norm_num)
    (by norm_num [roundedDraw]) (by norm_num [roundedDraw])
  rw [h]
  norm_num

theorem roundedDraw_floor : ⌊1000 * roundedDraw⌋ = 118 := by
  rw [Int.floor_eq_iff]
  constructor <;> norm_num [roundedDraw]

set_option maxRecDepth 1000000 in
theorem padStart_toString_lt (n : Nat) (h : n < 1000) :
    padStart (toString n) 3 '0' = threeDigits n := by
  revert n
  decide

theorem utf16Units_pos (c : Char) : 1 ≤ utf16Units c := by
  unfold utf16Units
  split <;> omega

theorem unitsBetween_of_le (start stop pos : Nat) (cs : List Char) (h : stop ≤ pos) :
    unitsBetween start stop pos cs = [] := by
  induction cs generalizing pos with
  | nil => rfl
  | cons c cs ih =>
    have hu := utf16Units_pos c
    rw [unitsBetween, if_neg (by omega)]
    exact ih _ (by omega)

theorem unitsBetween_firstUnits (k pos : Nat) (cs : List Char) (h : cutsNoPair k cs = true) :
    unitsBetween 0 (pos + k) pos cs = firstUnits k cs := by
  induction cs generalizing k pos with
  | nil => rfl
  | cons c cs ih =>
    have hu := utf16Units_pos c
    cases k with
    | zero =>
      rw [firstUnits, if_neg (by omega)]
      exact unitsBetween_of_le _ _ _ _ (le_refl _)
    | succ k =>
      simp only [cutsNoPair, Bool.and_eq_true, decide_eq_true_eq] at h
      rw [firstUnits, if_pos h.1, unitsBetween, if_pos ⟨Nat.zero_le _, by omega⟩]
      have e : pos + (k + 1) = (pos + utf16Units c) + (k + 1 - utf16Units c) := by omega
      rw [e, ih _ _ h.2]

theorem substring_zero (s : String) (k : Nat) (h : cutsNoPair k s.data = true) :
    substring s 0 k = String.mk (firstUnits k s.data) := by
  unfold substring
  have := unitsBetween_firstUnits k 0 s.data h
  simp only [Nat.zero_add] at this
  simp [this]

/-- In a text of characters of one code unit each, the first `k` code units are
the first `k` characters, and no position cuts a character. -/
theorem firstUnits_take (k : Nat) (cs : List Char) (h : ∀ c ∈ cs, utf16Units c = 1) :
    firstUnits k cs = cs.take k ∧ cutsNoPair k cs = true := by
  induction cs generalizing k with
  | nil => cases k <;> exact ⟨by simp [firstUnits], rfl⟩
  | cons c cs ih =>
    have hc : utf16Units c = 1 := h c (List.mem_cons_self _ _)
    have hcs : ∀ d ∈ cs, utf16Units d = 1 := fun d hd => h d (List.mem_cons_of_mem _ hd)
    cases k with
    | zero => exact ⟨by rw [firstUnits, if_neg (by omega)]; rfl, rfl⟩
    | succ k =>
      obtain ⟨i1, i2⟩ := ih k hcs
      refine ⟨?_, ?_⟩
      · rw [firstUnits, if_pos (by omega), hc, Nat.add_sub_cancel, i1]
        rfl
      · simp only [cutsNoPair, hc, Nat.add_sub_cancel, i2, Bool.and_true, decide_eq_true_eq]
        omega

theorem padStart_floor (x : ℚ) (n : Nat) (h : ⌊x⌋ = (n : Int)) (hn : n < 1000) :
    padStart (toString (Rat.floor x)) 3 '0' = threeDigits (Int.toNat ⌊x⌋) := by
  have e : Rat.floor x = ⌊x⌋ := rfl
  rw [e, h, Int.toNat_ofNat]
  exact padStart_toString_lt n hn

theorem skuText_eq_skuSpec (category name : String) (r : ℚ) (n : Nat)
    (h : ⌊roundDouble (r * 1000)⌋ = (n : Int)) (hn : n < 1000)
    (hc : cutsNoPair 3 (jsTrim category).data = true)
    (hm : cutsNoPair 2 (jsTrim name).data = true) :
    skuText category name r = skuSpec category name (Int.toNat ⌊roundDouble (r * 1000)⌋) := by
  unfold skuText skuSpec
  simp only [substring_zero _ _ hc, substring_zero _ _ hm, padStart_floor _ n h hn]
  apply String.ext
  by_cases hn : jsTrim name = ""
  · by_cases hc : jsTrim category = "" <;>
      simp [hn, hc, toUpperCase, firstUnits, String.data_append]
  · by_cases hc : jsTrim category = "" <;> simp [hn, hc, String.data_append]

theorem threeDigits_digits (n : Nat) (h : n < 1000) :
    (threeDigits n).data.length = 3 ∧ ∀ c ∈ (threeDigits n).data, isDigit c = true := by
  have hd : ∀ d, d < 10 → isDigit (Nat.digitChar d) = true := by decide
  refine ⟨rfl, ?_⟩
  intro c hc
  simp only [threeDigits, List.mem_cons, List.mem_singleton, List.not_mem_nil, or_false] at hc
  rcases hc with rfl | rfl | rfl
  · exact hd _ (by omega)
  · exact hd _ (by omega)
  · exact hd _ (by omega)

/-- C16, amended. For every value r of `Math.random()`, a double with
0 ≤ r < 1, generateSKU writes in the field `sku` the upper-cased first 3
characters of the trimmed category ('PROD' for a blank category), then the
upper-cased first 2 characters of the trimmed name, then a hyphen and the
number N in exactly three decimal digits, padded with zeros, where N is the
integer part of the double product r * 1000: N is the integer part of the exact
product 1000 r or one more, and N is at most 999.  Characters are UTF-16 code
units, and the texts are such that `substring` cuts no character of two code
units.  For the category 'Electrónicos' and the name 'Mouse' the SKU is 'ELEMO-'
and three digits. -/
theorem generateSKU_value (p : ProductPage) (r : ℚ) (h0 : 0 ≤ r) (h1 : r < 1)
    (hr : roundDouble r = r)
    (hc : cutsNoPair 3 (jsTrim p.categoryValue).data = true)
    (hn : cutsNoPair 2 (jsTrim p.nameValue).data = true) :
    (generateSKU r p).skuValue =
      skuSpec p.categoryValue p.nameValue (Int.toNat ⌊roundDouble (r * 1000)⌋) ∧
    (0 ≤ ⌊roundDouble (r * 1000)⌋ ∧ ⌊roundDouble (r * 1000)⌋ ≤ 999) ∧
    (⌊1000 * r⌋ ≤ ⌊roundDouble (r * 1000)⌋ ∧ ⌊roundDouble (r * 1000)⌋ ≤ ⌊1000 * r⌋ + 1) ∧
    ((threeDigits (Int.toNat ⌊roundDouble (r * 1000)⌋)).data.length = 3 ∧
      ∀ c ∈ (threeDigits (Int.toNat ⌊roundDouble (r * 1000)⌋)).data, isDigit c = true) ∧
    (jsTrim p.categoryValue = "" →
      (generateSKU r p).skuValue =
        "PROD" ++ toUpperCase (String.mk (firstUnits 2 (jsTrim p.nameValue).data)) ++ "-" ++
          threeDigits (Int.toNat ⌊roundDouble (r * 1000)⌋)) ∧
    (p.categoryValue = "Electrónicos" → p.nameValue = "Mouse" →
      (generateSKU r p).skuValue =
        "ELEMO-" ++ threeDigits (Int.toNat ⌊roundDouble (r * 1000)⌋)) := by
  have hle := double_lt_one r h0 hr h1
  have hx0 : (0 : ℚ) ≤ r * 1000 := by positivity
  have hx1 : r * 1000 ≤ 1000 - 1000 / 2 ^ 53 := by
    have : r * 1000 ≤ (1 - 1 / 2 ^ 53) * 1000 := mul_le_mul_of_nonneg_right hle (by norm_num)
    have e : ((1 : ℚ) - 1 / 2 ^ 53) * 1000 = 1000 - 1000 / 2 ^ 53 := by ring
    rw [e] at this
    exact this
  obtain ⟨f1, f2, f3⟩ := floor_roundDouble (r * 1000) hx0 hx1
  have hcomm : ⌊1000 * r⌋ = ⌊r * 1000⌋ := by rw [mul_comm]
  have hfl0 : 0 ≤ ⌊r * 1000⌋ := Int.floor_nonneg.mpr hx0
  have hN0 : 0 ≤ ⌊roundDouble (r * 1000)⌋ := le_trans hfl0 f1
  obtain ⟨n, hn'⟩ := Int.eq_ofNat_of_zero_le hN0
  have hn1000 : n < 1000 := by omega
  have hlt : Int.toNat ⌊roundDouble (r * 1000)⌋ < 1000 := by omega
  have e : (generateSKU r p).skuValue =
      skuSpec p.categoryValue p.nameValue (Int.toNat ⌊roundDouble (r * 1000)⌋) :=
    skuText_eq_skuSpec p.categoryValue p.nameValue r n hn' hn1000 hc hn
  refine ⟨e, ⟨hN0, by omega⟩, ⟨by rw [hcomm]; exact f1, by rw [hcomm]; exact f2⟩,
    threeDigits_digits _ hlt, ?_, ?_⟩
  · intro hblank
    rw [e, skuSpec, if_pos hblank]
  · intro hcat hname
    rw [e, hcat, hname, skuSpec]
    have h1 : jsTrim "Electrónicos" ≠ "" := by decide
    have h2 : toUpperCase (String.mk (firstUnits 3 (jsTrim "Electrónicos").data)) = "ELE" := by
      decide
    have h3 : toUpperCase (String.mk (firstUnits 2 (jsTrim "Mouse").data)) = "MO" := by decide
    rw [if_neg h1, h2, h3]
    rfl

theorem quarter_double : roundDouble (1 / 4 : ℚ) = 1 / 4 := by
  have h := roundDouble_eq (1 / 4) (-2) 4503599627370496
    (by norm_num) (by norm_num) (by norm_num) (by norm_num) (by norm_num)
  rw [h]
  norm_num

theorem generateSKU_value_witness :
    ((0 : ℚ) ≤ 1 / 4 ∧ (1 / 4 : ℚ) < 1 ∧ roundDouble (1 / 4 : ℚ) = 1 / 4 ∧
      cutsNoPair 3 (jsTrim mousePage.categoryValue).data = true ∧
      cutsNoPair 2 (jsTrim mousePage.nameValue).data = true) ∧
    (generateSKU (1 / 4) mousePage).skuValue =
      skuSpec mousePage.categoryValue mousePage.nameValue
        (Int.toNat ⌊roundDouble ((1 / 4 : ℚ) * 1000)⌋) ∧
    (0 ≤ ⌊roundDouble ((1 / 4 : ℚ) * 1000)⌋ ∧ ⌊roundDouble ((1 / 4 : ℚ) * 1000)⌋ ≤ 999) ∧
    (mousePage.categoryValue = "Electrónicos" → mousePage.nameValue = "Mouse" →
      (generateSKU (1 / 4) mousePage).skuValue =
        "ELEMO-" ++ threeDigits (Int.toNat ⌊roundDouble ((1 / 4 : ℚ) * 1000)⌋)) :=
  ⟨⟨by norm_num, by norm_num, quarter_double, by decide, by decide⟩,
   (generateSKU_value mousePage (1 / 4) (by norm_num) (by norm_num) quarter_double
      (by decide) (by decide)).1,
   (generateSKU_value mousePage (1 / 4) (by norm_num) (by norm_num) quarter_double
      (by decide) (by decide)).2.1,
   (generateSKU_value mousePage (1 / 4) (by norm_num) (by norm_num) quarter_double
      (by decide) (by decide)).2.2.2.2.2⟩

theorem floor_sample (n : Nat) (h : n < 2 ^ 53) (x : ℚ) (hx : x = n) :
    Rat.floor (roundDouble x) = n := by
  rw [hx, roundDouble_natCast n h]
  show ⌊(n : ℚ)⌋ = (n : Int)
  exact Int.floor_natCast n

theorem floor_sample_456 : Rat.floor (roundDouble ((456 / 1000 : ℚ) * 1000)) = 456 :=
  floor_sample 456 (by norm_num) _ (by norm_num)

theorem floor_sample_789 : Rat.floor (roundDouble ((789 / 1000 : ℚ) * 1000)) = 789 :=
  floor_sample 789 (by norm_num) _ (by norm_num)

theorem floor_sample_119 : Rat.floor (roundDouble (roundedDraw * 1000)) = 119 := by
  rw [roundedDraw_product]
  show ⌊((119 : Nat) : ℚ)⌋ = ((119 : Nat) : Int)
  exact Int.floor_natCast 119

/-- C16 as stated fails for a draw whose product by 1000 rounds up to an integer.
The double nearest to 0.119 is a value of `Math.random()` below 0.119: the
integer part of 1000 r is 118, while the double product r * 1000 is 119, so that
generateSKU writes 'ELEMO-119' for the category 'Electrónicos' and the name
'Mouse', not 'ELEMO-118'. -/
theorem generateSKU_rounded_draw :
    (0 : ℚ) ≤ roundedDraw ∧ roundedDraw < 1 ∧ roundDouble roundedDraw = roundedDraw ∧
    ⌊1000 * roundedDraw⌋ = 118 ∧
    threeDigits (Int.toNat ⌊1000 * roundedDraw⌋) = "118" ∧
    (generateSKU roundedDraw mousePage).skuValue = "ELEMO-119" := by
  refine ⟨by norm_num [roundedDraw], by norm_num [roundedDraw], roundedDraw_double,
    roundedDraw_floor, ?_, ?_⟩
  · rw [roundedDraw_floor]
    decide
  · show skuText "Electrónicos" "Mouse" roundedDraw = "ELEMO-119"
    unfold skuText
    rw [floor_sample_119]
    decide

/-- C17 does not hold of the code: generateSKU puts no hyphen between the part
of the category and the part of the name.  With the draw 0.456 the SKU for the
category 'Electrónicos' and the name 'Mouse' is 'ELEMO-456', not 'ELE-MO-456';
with the draw 0.789 the SKU for no category and the name 'Teclado' is
'PRODTE-789', not 'PROD-TE-789'. -/
theorem generateSKU_no_hyphen_between_parts :
    (generateSKU (456 / 1000) mousePage).skuValue = "ELEMO-456" ∧
    (generateSKU (456 / 1000) mousePage).skuValue ≠ "ELE-MO-456" ∧
    (generateSKU (789 / 1000) tecladoPage).skuValue = "PRODTE-789" ∧
    (generateSKU (789 / 1000) tecladoPage).skuValue ≠ "PROD-TE-789" := by
  have e1 : (generateSKU (456 / 1000) mousePage).skuValue = "ELEMO-456" := by
    show skuText "Electrónicos" "Mouse" (456 / 1000) = "ELEMO-456"
    unfold skuText
    rw [floor_sample_456]
    decide
  have e2 : (generateSKU (789 / 1000) tecladoPage).skuValue = "PRODTE-789" := by
    show skuText "" "Teclado" (789 / 1000) = "PRODTE-789"
    unfold skuText
    rw [floor_sample_789]
    decide
  rw [e1, e2]
  decide

/-! ## The add-product form: validation on submit -/

/-- C19. The listener of `submit` of the add-product form calls preventDefault
if and only if the trimmed name is empty, or has fewer than 2 characters (code
units), or the price, the quantity or the minimum stock is not a number or is
negative, or the user declines the confirmation.  When a check fails, the page
after the listener is the page after one call of showValidationError with the
message of the first failing check, in the order name required, name length,
price, quantity, minimum stock, with the focus on the field of that check; such
a call leaves exactly its message as the first validation alert, in place of the
previous first one.  When no check fails no message is shown. -/
theorem submit_prevented_iff (confirm : String → Bool) (p : ProductPage) :
    ((AddProduct.onSubmit confirm p).1 = true ↔
      (jsTrim p.nameValue = "" ∨ jsLength (jsTrim p.nameValue) < 2 ∨
        priceInvalid p = true ∨ quantityInvalid p = true ∨ stockMinInvalid p = true ∨
        confirm (confirmMessage p) = false)) ∧
    (jsTrim p.nameValue = "" →
      (AddProduct.onSubmit confirm p).2 =
        (AddProduct.showValidationError "El nombre del producto es obligatorio" p).focus
          "name") ∧
    (jsTrim p.nameValue ≠ "" → jsLength (jsTrim p.nameValue) < 2 →
      (AddProduct.onSubmit confirm p).2 =
        (AddProduct.showValidationError "El nombre debe tener al menos 2 caracteres" p).focus
          "name") ∧
    (jsTrim p.nameValue ≠ "" → 2 ≤ jsLength (jsTrim p.nameValue) → priceInvalid p = true →
      (AddProduct.onSubmit confirm p).2 =
        (AddProduct.showValidationError
          "El precio debe ser un número válido mayor o igual a 0" p).focus "price") ∧
    (jsTrim p.nameValue ≠ "" → 2 ≤ jsLength (jsTrim p.nameValue) → priceInvalid p = false →
      quantityInvalid p = true →
      (AddProduct.onSubmit confirm p).2 =
        (AddProduct.showValidationError
          "La cantidad debe ser un número válido mayor o igual a 0" p).focus "quantity") ∧
    (jsTrim p.nameValue ≠ "" → 2 ≤ jsLength (jsTrim p.nameValue) → priceInvalid p = false →
      quantityInvalid p = false → stockMinInvalid p = true →
      (AddProduct.onSubmit confirm p).2 =
        (AddProduct.showValidationError
          "El stock mínimo debe ser un número válido mayor o igual a 0" p).focus "stock_min") ∧
    (jsTrim p.nameValue ≠ "" → 2 ≤ jsLength (jsTrim p.nameValue) → priceInvalid p = false →
      quantityInvalid p = false → stockMinInvalid p = false →
      (AddProduct.onSubmit confirm p).2 = p) ∧
    (∀ message id,
      ((AddProduct.showValidationError message p).focus id).alerts =
        { node := p.nextNode, text := message, animation := "" } :: p.alerts.drop 1 ∧
      ((AddProduct.showValidationError message p).focus id).focused = some id) := by
  unfold AddProduct.onSubmit priceInvalid quantityInvalid stockMinInvalid confirmMessage
  refine ⟨?_, ?_, ?_, ?_, ?_, ?_, ?_, fun _ _ => ⟨rfl, rfl⟩⟩
  · by_cases h1 : jsTrim p.nameValue = ""
    · simp [h1]
    · by_cases h2 : jsLength (jsTrim p.nameValue) < 2
      · simp [h1, h2]
      · by_cases h3 : ((parseFloat p.priceValue).isNaN || (parseFloat p.priceValue).ltZero) = true
        · simp only [h1, h2, h3, if_true, if_false]
          simp
        · by_cases h4 : (isNaNInt (parseInt p.quantityValue) ||
              ltZeroInt (parseInt p.quantityValue)) = true
          · simp only [h1, h2, h3, h4, if_true, if_false]
            simp
          · by_cases h5 : (isNaNInt (parseInt p.stockMinValue) ||
                ltZeroInt (parseInt p.stockMinValue)) = true
            · simp only [h1, h2, h3, h4, h5, if_true, if_false]
              simp
            · by_cases h6 : confirm ("¿Está seguro de agregar el producto \"" ++
                  jsTrim p.nameValue ++ "\"?") = false
              · simp only [h1, h2, h3, h4, h5, h6, if_true, if_false]
                simp
              · simp only [h1, h2, h3, h4, h5, h6, if_true, if_false]
                simp
  · intro h1
    simp only [h1, if_true]
  · intro h1 h2
    simp only [h1, h2, if_true, if_false]
  · intro h1 h2 h3
    have h2' : ¬ jsLength (jsTrim p.nameValue) < 2 := by omega
    simp only [h1, h2', h3, if_true, if_false]
  · intro h1 h2 h3 h4
    have h2' : ¬ jsLength (jsTrim p.nameValue) < 2 := by omega
    simp only [h1, h2', h3, h4, if_true, if_false, Bool.false_eq_true]
  · intro h1 h2 h3 h4 h5
    have h2' : ¬ jsLength (jsTrim p.nameValue) < 2 := by omega
    simp only [h1, h2', h3, h4, h5, if_true, if_false, Bool.false_eq_true]
  · intro h1 h2 h3 h4 h5
    have h2' : ¬ jsLength (jsTrim p.nameValue) < 2 := by omega
    simp only [h1, h2', h3, h4, h5, if_true, if_false, Bool.false_eq_true]
    split <;> rfl

theorem submit_prevented_iff_witness :
    (jsTrim badPricePage.nameValue ≠ "" ∧ 2 ≤ jsLength (jsTrim badPricePage.nameValue) ∧
      priceInvalid badPricePage = true ∧ quantityInvalid badPricePage = true) ∧
    (AddProduct.onSubmit (fun _ => true) badPricePage).1 = true ∧
    (AddProduct.onSubmit (fun _ => true) badPricePage).2 =
      (AddProduct.showValidationError
        "El precio debe ser un número válido mayor o igual a 0" badPricePage).focus "price" :=
  ⟨⟨by decide, by decide, by decide, by decide⟩,
   (submit_prevented_iff (fun _ => true) badPricePage).1.mpr
     (Or.inr (Or.inr (Or.inl (by decide)))),
   (submit_prevented_iff (fun _ => true) badPricePage).2.2.2.1
     (by decide) (by decide) (by decide)⟩

/-! ## The add-product form: the text fields on blur -/

/-- C20 does not hold of the code: the listener that capitalizes runs before
the listener that trims.  For the value '  mouse' of the field `name`, `category`
or `provider` the first listener upper-cases the leading space, which changes
nothing, and the second trims: the value after blur is 'mouse', whose first
character is not upper-case.  A value with no white space in front, as
'mouse  ', comes out trimmed and capitalized. -/
theorem blur_leading_space_not_capitalized :
    (blur .name { productPage with nameValue := "  mouse" }).nameValue = "mouse" ∧
    (blur .category { productPage with categoryValue := "  mouse" }).categoryValue = "mouse" ∧
    (blur .provider { productPage with providerValue := "  mouse" }).providerValue = "mouse" ∧
    capitalizeFirstLetter "mouse" = "Mouse" ∧
    capitalizeFirstLetter "mouse" ≠ "mouse" ∧
    (blur .name { productPage with nameValue := "mouse  " }).nameValue = "Mouse" := by
  decide

/-! ## The report form: the order of the dates -/

theorem dateTime_ne_empty {s : String} {a : Int} (h : dateTime s = some a) : s ≠ "" := by
  intro e
  have hnone : dateTime "" = none := by decide
  rw [e, hnone] at h
  cases h

/-- C18 as stated fails for the report types other than the movements by
period: with the general inventory selected and the dates 2024-03-10 and
2024-03-01 left in the hidden date fields, the listener of `submit` does not
call preventDefault, shows no error and moves no focus; the form is sent. -/
theorem inverted_dates_not_checked_for_inventory :
    inventoryReportPage.dateFrom ≠ "" ∧ inventoryReportPage.dateTo ≠ "" ∧
    jsGt (dateTime inventoryReportPage.dateFrom) (dateTime inventoryReportPage.dateTo) = true ∧
    (CustomReports.onSubmit (fun _ => true) inventoryReportPage).1 = false ∧
    (CustomReports.onSubmit (fun _ => true) inventoryReportPage).2.alerts = [] ∧
    (CustomReports.onSubmit (fun _ => true) inventoryReportPage).2.focused = none := by
  decide

/-- C18, amended. When the selected report type is the movements by period,
submitting the form with dates in `date_from` and `date_to`, the first later than
the second, is rejected: the listener of `submit` calls preventDefault, shows
the error 'La fecha "Desde" no puede ser posterior a la fecha "Hasta"' as the
first validation alert, focuses `date_from`, and leaves the submit button alone.
For any other selected report type the dates are not compared and the form is
sent. -/
theorem movements_report_rejects_inverted_dates (confirm : String → Bool) (p : ReportPage)
    (a b : Int) (hf : dateTime p.dateFrom = some a) (hto : dateTime p.dateTo = some b)
    (hlt : b < a) :
    (p.reportType = "movements_by_period" →
      (CustomReports.onSubmit confirm p).1 = true ∧
      (CustomReports.onSubmit confirm p).2 =
        (CustomReports.showValidationError
          "La fecha \"Desde\" no puede ser posterior a la fecha \"Hasta\"" p).focus
          "date_from" ∧
      (CustomReports.onSubmit confirm p).2.alerts =
        { node := p.nextNode,
          text := "La fecha \"Desde\" no puede ser posterior a la fecha \"Hasta\"",
          animation := "" } :: p.alerts.drop 1 ∧
      (CustomReports.onSubmit confirm p).2.focused = some "date_from" ∧
      (CustomReports.onSubmit confirm p).2.buttonDisabled = p.buttonDisabled) ∧
    (p.reportType ≠ "" → p.reportType ≠ "movements_by_period" →
      CustomReports.onSubmit confirm p = (false, showLoadingIndicator p)) := by
  constructor
  · intro ht
    have hne : ¬ (("movements_by_period" : String) = "") := by decide
    have hc : p.dateFrom ≠ "" ∧ p.dateTo ≠ "" ∧
        jsGt (dateTime p.dateFrom) (dateTime p.dateTo) = true := by
      refine ⟨dateTime_ne_empty hf, dateTime_ne_empty hto, ?_⟩
      rw [hf, hto]
      simpa [jsGt] using hlt
    have e : CustomReports.onSubmit confirm p =
        (true, (CustomReports.showValidationError
          "La fecha \"Desde\" no puede ser posterior a la fecha \"Hasta\"" p).focus
          "date_from") := by
      unfold CustomReports.onSubmit
      simp only [hne, ht, hc, if_true, if_false, ne_eq, not_false_eq_true, and_self]
    rw [e]
    exact ⟨rfl, rfl, rfl, rfl, rfl⟩
  · intro h1 h2
    unfold CustomReports.onSubmit
    simp only [h1, h2, if_false]

theorem movements_report_rejects_inverted_dates_witness :
    (dateTime invertedDatesPage.dateFrom = some 1710028800000 ∧
      dateTime invertedDatesPage.dateTo = some 1709251200000 ∧
      (1709251200000 : Int) < 1710028800000 ∧
      invertedDatesPage.reportType = "movements_by_period") ∧
    (CustomReports.onSubmit (fun _ => true) invertedDatesPage).1 = true ∧
    (CustomReports.onSubmit (fun _ => true) invertedDatesPage).2 =
      (CustomReports.showValidationError
        "La fecha \"Desde\" no puede ser posterior a la fecha \"Hasta\"" invertedDatesPage).focus
        "date_from" ∧
    (CustomReports.onSubmit (fun _ => true) invertedDatesPage).2.alerts =
      { node := invertedDatesPage.nextNode,
        text := "La fecha \"Desde\" no puede ser posterior a la fecha \"Hasta\"",
        animation := "" } :: invertedDatesPage.alerts.drop 1 ∧
    (CustomReports.onSubmit (fun _ => true) invertedDatesPage).2.focused = some "date_from" ∧
    (CustomReports.onSubmit (fun _ => true) invertedDatesPage).2.buttonDisabled =
      invertedDatesPage.buttonDisabled :=
  ⟨⟨by decide, by decide, by decide, by decide⟩,
   (movements_report_rejects_inverted_dates (fun _ => true) invertedDatesPage
     1710028800000 1709251200000 (by decide) (by decide) (by decide)).1 (by decide)⟩

/-! ## The add-product form: automatic generation of the SKU -/

theorem generateSKU_ne (r : ℚ) (p : ProductPage) : generateSKU r p ≠ p := by
  intro h
  have := congrArg ProductPage.nextHandle h
  simp [generateSKU] at this

/-- C23. checkAutoGenerate calls generateSKU if and only if the value of the
field `name` has at least 2 characters (code units), the value of the field
`category` has at least 2, and the field `sku` is empty after trimming; otherwise
it leaves the page as it is.  In particular, when the field `sku` holds a text
that is not blank, an `input` event on the field `name` or on the field
`category` changes nothing but the edited field: the SKU is unchanged. -/
theorem checkAutoGenerate_iff (r : ℚ) (p : ProductPage) :
    (checkAutoGenerate r p = generateSKU r p ↔
      (2 ≤ jsLength p.nameValue ∧ 2 ≤ jsLength p.categoryValue ∧ jsTrim p.skuValue = "")) ∧
    (¬ (2 ≤ jsLength p.nameValue ∧ 2 ≤ jsLength p.categoryValue ∧ jsTrim p.skuValue = "") →
      checkAutoGenerate r p = p) ∧
    (jsTrim p.skuValue ≠ "" → ∀ text,
      inputName text r p = { p with nameValue := text } ∧
      inputCategory text r p = { p with categoryValue := text } ∧
      (inputName text r p).skuValue = p.skuValue ∧
      (inputCategory text r p).skuValue = p.skuValue) := by
  have hno : ¬ (2 ≤ jsLength p.nameValue ∧ 2 ≤ jsLength p.categoryValue ∧
      jsTrim p.skuValue = "") → checkAutoGenerate r p = p := by
    intro hc
    unfold checkAutoGenerate
    by_cases h1 : jsLength p.nameValue ≥ 2 ∧ jsLength p.categoryValue ≥ 2
    · rw [if_pos h1]
      by_cases h2 : jsTrim p.skuValue = ""
      · exact absurd ⟨h1.1, h1.2, h2⟩ hc
      · rw [if_neg h2]
    · rw [if_neg h1]
  have hsku : ∀ q : ProductPage, jsTrim q.skuValue ≠ "" → checkAutoGenerate r q = q := by
    intro q hq
    unfold checkAutoGenerate
    by_cases h1 : jsLength q.nameValue ≥ 2 ∧ jsLength q.categoryValue ≥ 2
    · rw [if_pos h1, if_neg hq]
    · rw [if_neg h1]
  refine ⟨⟨?_, ?_⟩, hno, ?_⟩
  · intro h
    by_contra hc
    exact generateSKU_ne r p ((h.symm).trans (hno hc))
  · intro hc
    unfold checkAutoGenerate
    rw [if_pos ⟨hc.1, hc.2.1⟩, if_pos hc.2.2]
  · intro hs text
    have e1 : inputName text r p = { p with nameValue := text } := hsku _ hs
    have e2 : inputCategory text r p = { p with categoryValue := text } := hsku _ hs
    rw [e1, e2]
    exact ⟨rfl, rfl, rfl, rfl⟩

theorem checkAutoGenerate_iff_witness :
    jsTrim manualSkuPage.skuValue ≠ "" ∧
    inputName "Mouse óptico" (1 / 4) manualSkuPage =
      { manualSkuPage with nameValue := "Mouse óptico" } ∧
    (inputName "Mouse óptico" (1 / 4) manualSkuPage).skuValue = "MO-001" :=
  ⟨by decide,
   ((checkAutoGenerate_iff (1 / 4) manualSkuPage).2.2 (by decide) "Mouse óptico").1,
   ((checkAutoGenerate_iff (1 / 4) manualSkuPage).2.2 (by decide) "Mouse óptico").2.2.1⟩

/-! ## The stock adjustment form: validation on submit -/

theorem falsy_or_leZero (q : Option Int) :
    (falsyInt q || leZeroInt q) = (isNaNInt q || leZeroInt q) := by
  cases q with
  | none => rfl
  | some n =>
    by_cases h : n = 0
    · subst h
      rfl
    · simp [falsyInt, leZeroInt, isNaNInt, h]

/-- C25. The listener of `submit` of the stock adjustment form calls
preventDefault if and only if no type is selected, or the quantity read by
parseInt is not a number or is at most 0, or the trimmed reason is empty, or the
user declines the confirmation.  When a check fails, the page after the
listener is the page after one call of showTemporaryWarning with the message of
the first failing check, in the order type, quantity, reason, with the focus on
the field of that check.  When no check fails no message is shown. -/
theorem stock_submit_prevented_iff (confirm : String → Bool) (p : StockPage) :
    ((StockAdjustment.onSubmit confirm p).1 = true ↔
      (p.adjustmentType = "" ∨ isNaNInt (parseInt p.quantityValue) = true ∨
        leZeroInt (parseInt p.quantityValue) = true ∨ jsTrim p.reasonValue = "" ∨
        confirm (stockConfirmMessage p) = false)) ∧
    (p.adjustmentType = "" →
      (StockAdjustment.onSubmit confirm p).2 =
        (showTemporaryWarning "Debe seleccionar un tipo de ajuste" p).focus "adjustment_type") ∧
    (p.adjustmentType ≠ "" →
      (isNaNInt (parseInt p.quantityValue) = true ∨ leZeroInt (parseInt p.quantityValue) = true) →
      (StockAdjustment.onSubmit confirm p).2 =
        (showTemporaryWarning "Debe ingresar una cantidad válida" p).focus "quantity") ∧
    (p.adjustmentType ≠ "" → isNaNInt (parseInt p.quantityValue) = false →
      leZeroInt (parseInt p.quantityValue) = false → jsTrim p.reasonValue = "" →
      (StockAdjustment.onSubmit confirm p).2 =
        (showTemporaryWarning "Debe especificar el motivo del ajuste" p).focus "reason") ∧
    (p.adjustmentType ≠ "" → isNaNInt (parseInt p.quantityValue) = false →
      leZeroInt (parseInt p.quantityValue) = false → jsTrim p.reasonValue ≠ "" →
      (StockAdjustment.onSubmit confirm p).2 = p) ∧
    (∀ message id,
      ((showTemporaryWarning message p).focus id).warnings =
        p.warnings.drop 1 ++
          [{ node := p.nextNode, text := message, animation := "slideIn 0.3s ease" }] ∧
      ((showTemporaryWarning message p).focus id).focused = some id) := by
  unfold StockAdjustment.onSubmit
  simp only [falsy_or_leZero]
  refine ⟨?_, ?_, ?_, ?_, ?_, fun _ _ => ⟨rfl, rfl⟩⟩
  · by_cases h1 : p.adjustmentType = ""
    · simp [h1]
    · by_cases h2 : (isNaNInt (parseInt p.quantityValue) ||
          leZeroInt (parseInt p.quantityValue)) = true
      · simp only [h1, h2, if_true, if_false]
        simp only [Bool.or_eq_true] at h2
        simp only [true_iff]
        rcases h2 with h2 | h2
        · exact Or.inr (Or.inl h2)
        · exact Or.inr (Or.inr (Or.inl h2))
      · have h2a : isNaNInt (parseInt p.quantityValue) = false := by
          cases hx : isNaNInt (parseInt p.quantityValue) <;> simp [hx] at h2 ⊢
        have h2b : leZeroInt (parseInt p.quantityValue) = false := by
          cases hx : leZeroInt (parseInt p.quantityValue) <;> simp [hx] at h2 ⊢
        by_cases h3 : jsTrim p.reasonValue = ""
        · simp only [h1, h2, h3, if_true, if_false]
          simp
        · by_cases h4 : confirm (stockConfirmMessage p) = false
          · simp only [h1, h2, h3, h4, if_true, if_false]
            simp
          · simp only [h1, h2, h3, h4, if_true, if_false]
            simp [h1, h2a, h2b, h3, h4]
  · intro h1
    simp only [h1, if_true]
  · intro h1 h2
    have h2' : (isNaNInt (parseInt p.quantityValue) ||
        leZeroInt (parseInt p.quantityValue)) = true := by
      simpa [Bool.or_eq_true] using h2
    simp only [h1, h2', if_true, if_false]
  · intro h1 h2 h3 h4
    simp only [h1, h2, h3, h4, if_true, if_false, Bool.or_self, Bool.false_eq_true]
  · intro h1 h2 h3 h4
    simp only [h1, h2, h3, h4, if_true, if_false, Bool.or_self, Bool.false_eq_true]
    split <;> rfl

theorem stock_submit_prevented_iff_witness :
    (noReasonPage.adjustmentType ≠ "" ∧ isNaNInt (parseInt noReasonPage.quantityValue) = false ∧
      leZeroInt (parseInt noReasonPage.quantityValue) = false ∧
      jsTrim noReasonPage.reasonValue = "") ∧
    (StockAdjustment.onSubmit (fun _ => true) noReasonPage).1 = true ∧
    (StockAdjustment.onSubmit (fun _ => true) noReasonPage).2 =
      (showTemporaryWarning "Debe especificar el motivo del ajuste" noReasonPage).focus "reason" :=
  ⟨⟨by decide, by decide, by decide, by decide⟩,
   (stock_submit_prevented_iff (fun _ => true) noReasonPage).1.mpr
     (Or.inr (Or.inr (Or.inr (Or.inl (by decide))))),
   (stock_submit_prevented_iff (fun _ => true) noReasonPage).2.2.2.1
     (by decide) (by decide) (by decide) (by decide)⟩

/-! ## The stock adjustment form: the quantity stays within the stock -/

theorem foldl_invariant {α β : Type} (I : β → Prop) (f : β → α → β)
    (h : ∀ b a, I b → I (f b a)) : ∀ (l : List α) (b : β), I b → I (l.foldl f b) := by
  intro l
  induction l with
  | nil => intro b hb; exact hb
  | cons a rest ih => intro b hb; exact ih (f b a) (h b a hb)

theorem jsGt_stock_self (S : Nat) :
    jsGt (parseInt (numberToString (some (S : Int)))) (some (S : Int)) = false := by
  have e : numberToString (some (S : Int)) = toString S := rfl
  rw [e, parseInt_toString]
  simp [jsGt]

theorem selectType_bound (S : Nat) (type : String) (q : StockPage)
    (hS : q.currentStock = some (S : Int)) :
    (selectType type q).currentStock = some (S : Int) ∧
    (selectType type q).adjustmentType = type ∧
    (type = "subtract" →
      jsGt (parseInt (selectType type q).quantityValue) (some (S : Int)) = false) := by
  unfold selectType onTypeChange
  dsimp only
  split_ifs with h1 h2 h3
  · refine ⟨hS, rfl, fun _ => ?_⟩
    show jsGt (parseInt (numberToString q.currentStock)) (some (S : Int)) = false
    rw [hS]
    exact jsGt_stock_self S
  · refine ⟨hS, rfl, fun _ => ?_⟩
    show jsGt (parseInt q.quantityValue) (some (S : Int)) = false
    rw [hS] at h2
    simpa using h2
  · exact ⟨hS, rfl, fun h => absurd h h1⟩
  · exact ⟨hS, rfl, fun h => absurd h h1⟩

theorem enterQuantity_bound (S : Nat) (text : String) (q : StockPage)
    (hS : q.currentStock = some (S : Int)) :
    (enterQuantity text q).currentStock = some (S : Int) ∧
    (enterQuantity text q).adjustmentType = q.adjustmentType ∧
    (q.adjustmentType = "subtract" →
      jsGt (parseInt (enterQuantity text q).quantityValue) (some (S : Int)) = false) := by
  unfold enterQuantity onQuantityInput
  dsimp only
  split_ifs with hc
  · refine ⟨hS, rfl, fun _ => ?_⟩
    show jsGt (parseInt (numberToString q.currentStock)) (some (S : Int)) = false
    rw [hS]
    exact jsGt_stock_self S
  · refine ⟨hS, rfl, fun ht => ?_⟩
    show jsGt (parseInt text) (some (S : Int)) = false
    rw [hS] at hc
    cases hg : jsGt (parseInt text) (some (S : Int)) with
    | false => rfl
    | true => exact absurd ⟨ht, hg⟩ hc

/-- C28. For a current stock S that is a non-negative integer, starting from an
empty field `quantity` (whatever the type selected then), after any sequence of
`change` events of the type select and `input` events of the field `quantity`,
each followed by its listener: if the selected type is 'subtract', the quantity
that parseInt reads in the field is not greater than S.  The stock itself is
never changed. -/
theorem subtract_quantity_within_stock (S : Nat) (steps : List StockStep) (p : StockPage)
    (hS : p.currentStock = some (S : Int)) (hempty : p.quantityValue = "") :
    (StockAdjustment.run steps p).currentStock = some (S : Int) ∧
    ((StockAdjustment.run steps p).adjustmentType = "subtract" →
      jsGt (parseInt (StockAdjustment.run steps p).quantityValue) (some (S : Int)) = false ∧
      ∀ q, parseInt (StockAdjustment.run steps p).quantityValue = some q → q ≤ (S : Int)) := by
  have hinv := foldl_invariant
    (fun q : StockPage => q.currentStock = some (S : Int) ∧
      (q.adjustmentType = "subtract" →
        jsGt (parseInt q.quantityValue) (some (S : Int)) = false))
    (fun q s => match s with
      | .select type => selectType type q
      | .input text => enterQuantity text q)
    (by
      intro q s hq
      cases s with
      | select type =>
        obtain ⟨h1, h2, h3⟩ := selectType_bound S type q hq.1
        exact ⟨h1, fun ht => h3 (h2.symm.trans ht)⟩
      | input text =>
        obtain ⟨h1, h2, h3⟩ := enterQuantity_bound S text q hq.1
        exact ⟨h1, fun ht => h3 (h2.symm.trans ht)⟩)
    steps p ⟨hS, fun _ => by rw [hempty]; rfl⟩
  refine ⟨hinv.1, fun ht => ⟨hinv.2 ht, ?_⟩⟩
  intro q hq
  have := hinv.2 ht
  rw [show StockAdjustment.run steps p = List.foldl (fun q s => match s with
      | .select type => selectType type q
      | .input text => enterQuantity text q) p steps from rfl] at hq
  rw [hq] at this
  simpa [jsGt] using this

theorem subtract_quantity_within_stock_witness :
    (stockPage.currentStock = some ((12 : Nat) : Int) ∧ stockPage.quantityValue = "") ∧
    (StockAdjustment.run [.select "add", .input "40", .select "subtract"] stockPage).currentStock
      = some ((12 : Nat) : Int) ∧
    ((StockAdjustment.run [.select "add", .input "40", .select "subtract"]
        stockPage).adjustmentType = "subtract" →
      jsGt (parseInt (StockAdjustment.run [.select "add", .input "40", .select "subtract"]
        stockPage).quantityValue) (some ((12 : Nat) : Int)) = false ∧
      ∀ q, parseInt (StockAdjustment.run [.select "add", .input "40", .select "subtract"]
        stockPage).quantityValue = some q → q ≤ ((12 : Nat) : Int)) :=
  ⟨⟨by decide, by decide⟩,
   subtract_quantity_within_stock 12 [.select "add", .input "40", .select "subtract"] stockPage
     (by decide) (by decide)⟩

/-! ## The form scripts: one message at a time -/

theorem length_drop_one_le {α : Type} (l : List α) (h : l.length ≤ 1) : l.drop 1 = [] := by
  cases l with
  | nil => rfl
  | cons a rest =>
    cases rest with
    | nil => rfl
    | cons b r => simp at h

theorem productPage_fireTimer_alerts (h : Nat) (p : ProductPage) :
    (p.fireTimer h).alerts.length ≤ p.alerts.length := by
  unfold ProductPage.fireTimer
  split
  · exact le_refl _
  · dsimp only
    split
    · exact le_refl _
    · exact List.length_filter_le _ _

theorem reportPage_fireTimer_alerts (h : Nat) (p : ReportPage) :
    (p.fireTimer h).alerts.length ≤ p.alerts.length := by
  unfold ReportPage.fireTimer
  split
  · exact le_refl _
  · dsimp only
    split
    · exact List.length_filter_le _ _
    · exact le_refl _

theorem stockPage_fireTimer_warnings (h : Nat) (p : StockPage) :
    (p.fireTimer h).warnings.length ≤ p.warnings.length := by
  unfold StockPage.fireTimer
  split
  · exact le_refl _
  · dsimp only
    split
    · split
      · simp
      · exact le_refl _
    · exact List.length_filter_le _ _

/-- C24. On the add-product page, on the report page and on the stock
adjustment page alike: starting with at most one message element (of class
`validation-alert`, or `temporary-warning` on the stock page) in the document,
after any sequence of calls of the function that shows a message
(showValidationError, or showTemporaryWarning) and of firings of pending timers,
at most one message element is in the document; and right after a further call
the document holds exactly one, with the message of that call. -/
theorem singleton_notice (steps : List NoticeStep) (message : String) :
    (∀ p : ProductPage, p.alerts.length ≤ 1 →
      (AddProduct.runNotices steps p).alerts.length ≤ 1 ∧
      (AddProduct.showValidationError message (AddProduct.runNotices steps p)).alerts.map
        Notice.text = [message]) ∧
    (∀ p : ReportPage, p.alerts.length ≤ 1 →
      (CustomReports.runNotices steps p).alerts.length ≤ 1 ∧
      (CustomReports.showValidationError message (CustomReports.runNotices steps p)).alerts.map
        Notice.text = [message]) ∧
    (∀ p : StockPage, p.warnings.length ≤ 1 →
      (StockAdjustment.runNotices steps p).warnings.length ≤ 1 ∧
      (showTemporaryWarning message (StockAdjustment.runNotices steps p)).warnings.map
        Notice.text = [message]) := by
  refine ⟨?_, ?_, ?_⟩
  · intro p hp
    have hinv : (AddProduct.runNotices steps p).alerts.length ≤ 1 := by
      unfold AddProduct.runNotices
      refine foldl_invariant (fun q : ProductPage => q.alerts.length ≤ 1) _ ?_ steps p hp
      intro q s hq
      cases s with
      | call m =>
        show (_ :: q.alerts.drop 1).length ≤ 1
        rw [length_drop_one_le _ hq]
        exact le_refl _
      | timer h => exact le_trans (productPage_fireTimer_alerts h q) hq
    refine ⟨hinv, ?_⟩
    show (_ :: (AddProduct.runNotices steps p).alerts.drop 1).map Notice.text = [message]
    rw [length_drop_one_le _ hinv]
    rfl
  · intro p hp
    have hinv : (CustomReports.runNotices steps p).alerts.length ≤ 1 := by
      unfold CustomReports.runNotices
      refine foldl_invariant (fun q : ReportPage => q.alerts.length ≤ 1) _ ?_ steps p hp
      intro q s hq
      cases s with
      | call m =>
        show (_ :: q.alerts.drop 1).length ≤ 1
        rw [length_drop_one_le _ hq]
        exact le_refl _
      | timer h => exact le_trans (reportPage_fireTimer_alerts h q) hq
    refine ⟨hinv, ?_⟩
    show (_ :: (CustomReports.runNotices steps p).alerts.drop 1).map Notice.text = [message]
    rw [length_drop_one_le _ hinv]
    rfl
  · intro p hp
    have hinv : (StockAdjustment.runNotices steps p).warnings.length ≤ 1 := by
      unfold StockAdjustment.runNotices
      refine foldl_invariant (fun q : StockPage => q.warnings.length ≤ 1) _ ?_ steps p hp
      intro q s hq
      cases s with
      | call m =>
        show (q.warnings.drop 1 ++ [_]).length ≤ 1
        rw [length_drop_one_le _ hq]
        exact le_refl _
      | timer h => exact le_trans (stockPage_fireTimer_warnings h q) hq
    refine ⟨hinv, ?_⟩
    show ((StockAdjustment.runNotices steps p).warnings.drop 1 ++ [_]).map Notice.text = [message]
    rw [length_drop_one_le _ hinv]
    rfl

theorem singleton_notice_witness :
    (productPage.alerts.length ≤ 1 ∧ stockPage.warnings.length ≤ 1) ∧
    ((AddProduct.runNotices [.call "uno", .call "dos", .timer 0] productPage).alerts.length ≤ 1 ∧
      (AddProduct.showValidationError "tres"
        (AddProduct.runNotices [.call "uno", .call "dos", .timer 0] productPage)).alerts.map
          Notice.text = ["tres"]) ∧
    ((StockAdjustment.runNotices [.call "uno", .call "dos", .timer 0] stockPage).warnings.length
        ≤ 1 ∧
      (showTemporaryWarning "tres"
        (StockAdjustment.runNotices [.call "uno", .call "dos", .timer 0] stockPage)).warnings.map
          Notice.text = ["tres"]) :=
  ⟨⟨by decide, by decide⟩,
   (singleton_notice [.call "uno", .call "dos", .timer 0] "tres").1 productPage (by decide),
   (singleton_notice [.call "uno", .call "dos", .timer 0] "tres").2.2 stockPage (by decide)⟩

/-! ## The reports page: the labels of the chart -/

theorem chartLabel_length (name : List Nat) : (chartLabel name).length ≤ 18 := by
  unfold chartLabel
  split_ifs with h
  · have hd : (utf16 "...").length = 3 := by decide
    rw [List.length_append, List.length_take, hd]
    omega
  · omega

/-- C26. For every non-empty list of products, with the canvas `mostMovedChart`
in the document, createMostMovedChart creates a chart with one label per product,
in the order of the list: the label of a product is its name when the name has at
most 15 characters (code units), and the first 15 characters followed by '...'
otherwise, so a label has at most 18 characters; and the tooltip title for the
index i is the whole name of the product i. -/
theorem mostMovedChart_labels (products : List MovedProduct) (hne : products ≠ []) :
    ∃ c, createMostMovedChart (some products) true = some c ∧
      c.labels.length = products.length ∧
      ∀ i p, products[i]? = some p →
        ∃ label, c.labels[i]? = some label ∧
          (p.productName.length ≤ 15 → label = p.productName) ∧
          (15 < p.productName.length → label = p.productName.take 15 ++ utf16 "...") ∧
          label.length ≤ 18 ∧
          c.tooltipTitle i = some p.productName := by
  have hlen : ¬ products.length = 0 := by
    intro h
    exact hne (List.length_eq_zero.mp h)
  have e : createMostMovedChart (some products) true =
      some { labels := products.map (fun product => chartLabel product.productName)
             data := products.map (fun product => product.movementCount)
             fullNames := products.map (fun product => product.productName) } := by
    simp [createMostMovedChart, hlen]
  refine ⟨_, e, by simp, ?_⟩
  intro i p hp
  refine ⟨chartLabel p.productName, by simp [hp], ?_, ?_, chartLabel_length _, ?_⟩
  · intro h
    unfold chartLabel
    rw [if_neg (by omega)]
  · intro h
    unfold chartLabel
    rw [if_pos (by omega)]
  · simp [BarChart.tooltipTitle, hp]

theorem mostMovedChart_labels_witness :
    sampleProducts ≠ [] ∧
    ∃ c, createMostMovedChart (some sampleProducts) true = some c ∧
      c.labels.length = sampleProducts.length ∧
      ∀ i p, sampleProducts[i]? = some p →
        ∃ label, c.labels[i]? = some label ∧
          (p.productName.length ≤ 15 → label = p.productName) ∧
          (15 < p.productName.length → label = p.productName.take 15 ++ utf16 "...") ∧
          label.length ≤ 18 ∧
          c.tooltipTitle i = some p.productName :=
  ⟨by decide, mostMovedChart_labels sampleProducts (by decide)⟩

/-! ## The life of an alert: creation, fade-in, dismissal, removal -/

theorem nextDue_min {T : Nat} {ts : List Timer} {u : Timer} (h : nextDue T ts = some u) :
    ∀ t ∈ ts, t.fireAt ≤ T → u.fireAt ≤ t.fireAt := by
  induction ts generalizing u with
  | nil => simp [nextDue] at h
  | cons v vs ih =>
    simp only [nextDue] at h
    intro t ht htT
    cases hn : nextDue T vs with
    | none =>
      simp only [hn] at h
      have hall := nextDue_eq_none.mp hn
      by_cases hv : v.fireAt ≤ T
      · simp only [hv, if_true, Option.some.injEq] at h
        subst h
        rcases List.mem_cons.mp ht with rfl | hm
        · exact le_refl _
        · have := hall t hm
          omega
      · simp [hv] at h
    | some b =>
      simp only [hn] at h
      have hb := ih hn
      by_cases hv : v.fireAt ≤ b.fireAt
      · simp only [hv, if_true, Option.some.injEq] at h
        subst h
        rcases List.mem_cons.mp ht with rfl | hm
        · exact le_refl _
        · exact le_trans hv (hb t hm htT)
      · simp only [hv, if_false, Option.some.injEq] at h
        subst h
        rcases List.mem_cons.mp ht with rfl | hm
        · omega
        · exact hb t hm htT

theorem runNext_dequeued {T : Nat} {q r : Page} (h : runNext T q = some r) :
    ∃ u, nextDue T q.timers = some u ∧ r = fire u.cb (dequeued u q) :=
  runNext_eq_some h

theorem timersOn_dequeued (n : Nat) (u : Timer) (q : Page) :
    timersOn n (dequeued u q) = (timersOn n q).filter (fun v => v.handle != u.handle) := by
  unfold timersOn dequeued
  simp only [List.filter_filter]
  apply List.filter_congr
  intro x _
  exact Bool.and_comm _ _

theorem timersOn_dequeued_other {n : Nat} {u : Timer} {q : Page} (hok : TimersOk q)
    (hu : u ∈ q.timers) (hcb : u.cb.target ≠ some n) :
    timersOn n (dequeued u q) = timersOn n q := by
  rw [timersOn_dequeued, List.filter_eq_self]
  intro t ht
  obtain ⟨htm, htn⟩ := List.mem_filter.mp ht
  have hne : t.handle ≠ u.handle := by
    intro e
    have := List.inj_on_of_nodup_map hok.2.1 htm hu e
    subst this
    simp at htn
    exact hcb htn
  simpa using hne

theorem timersOn_setTimeout (n : Nat) (cb : Callback) (d : Nat) (q : Page) :
    timersOn n (setTimeout cb d q).2 =
      timersOn n q ++ (if cb.target = some n then
        [{ handle := q.nextHandle, fireAt := q.now + d, cb := cb }] else []) := by
  unfold timersOn setTimeout
  simp only [List.filter_append]
  by_cases h : cb.target = some n <;> simp [h]

theorem alerts_setStyle_other {n k : Nat} {f : Style → Style} {q : Page} (hk : k ≠ n) :
    (∀ a ∈ (q.setStyle k f).alerts, a.node = n → a ∈ q.alerts) := by
  intro a ha hn
  rcases mem_setStyle ha with ⟨h1, _⟩ | ⟨b, _, _, hak, _⟩
  · exact h1
  · exact absurd (hak.symm.trans hn) hk

theorem nodeIn_of_ident {n : Nat} {q r : Page}
    (h1 : r.beforeContainer.map AlertEl.ident = q.beforeContainer.map AlertEl.ident)
    (h2 : r.fromContainer.map AlertEl.ident = q.fromContainer.map AlertEl.ident)
    (h : ∃ a ∈ q.alerts, a.node = n) : ∃ a ∈ r.alerts, a.node = n := by
  obtain ⟨a, ha, hn⟩ := h
  have hmap : r.alerts.map AlertEl.ident = q.alerts.map AlertEl.ident := by
    simp only [Page.alerts, List.map_append, h1, h2]
  have : a.ident ∈ r.alerts.map AlertEl.ident := hmap ▸ List.mem_map_of_mem _ ha
  obtain ⟨b, hb, hab⟩ := List.mem_map.mp this
  exact ⟨b, hb, (congrArg Prod.fst hab).trans hn⟩

theorem stage_congr {n : Nat} {disp op : String} {pend : List Timer} {q r : Page}
    (ha : r.alerts = q.alerts) (ht : r.timers = q.timers) (h : Stage n disp op pend q) :
    Stage n disp op pend r := by
  unfold Stage timersOn at h ⊢
  rw [ha, ht]
  exact h

theorem stage_setStyle_other {n k : Nat} {disp op : String} {pend : List Timer} {q : Page}
    (f : Style → Style) (hk : k ≠ n) (h : Stage n disp op pend q) :
    Stage n disp op pend (q.setStyle k f) := by
  refine ⟨nodeIn_of_ident (setStyle_ident q k f).1 (setStyle_ident q k f).2 h.1, ?_, h.2.2⟩
  intro a ha hn
  exact h.2.1 a (alerts_setStyle_other hk a ha hn) hn

theorem stage_hideAlert_other {n k : Nat} {disp op : String} {pend : List Timer} {q : Page}
    (hk : k ≠ n) (h : Stage n disp op pend q) : Stage n disp op pend (hideAlert (some k) q) := by
  rcases hideAlert_cases (some k) q with e | ⟨a, ha, _, e⟩
  · rw [e]
    exact h
  · rw [e]
    have hak : a.node = k := alert?_node (by simpa using ha)
    have h1 := stage_setStyle_other fadeOut (hak ▸ hk : a.node ≠ n) h
    refine ⟨h1.1, h1.2.1, ?_⟩
    rw [timersOn_setTimeout, if_neg (by simp [Callback.target, hak, hk]), List.append_nil]
    exact h1.2.2

/-- A callback that does not act on the element `n` leaves its stage alone. -/
theorem stage_fire_other {n : Nat} {disp op : String} {pend : List Timer} {q : Page}
    (cb : Callback) (hcb : cb.target ≠ some n) (h : Stage n disp op pend q) :
    Stage n disp op pend (fire cb q) := by
  cases cb with
  | hideDone k =>
    exact stage_setStyle_other _ (by simpa [Callback.target] using hcb) h
  | fadeIn k =>
    exact stage_setStyle_other _ (by simpa [Callback.target] using hcb) h
  | autoHide k =>
    exact stage_hideAlert_other (by simpa [Callback.target] using hcb) h
  | initAutoHide k txt =>
    exact stage_congr rfl rfl
      (stage_hideAlert_other (by simpa [Callback.target] using hcb) h)
  | inactivity =>
    simp only [fire]
    split
    · exact stage_congr rfl rfl h
    · exact h
  | forcedLogout => exact stage_congr rfl rfl h

theorem fire_now (cb : Callback) (q : Page) : (fire cb q).now = q.now := by
  have hh : ∀ k, (hideAlert (some k) q).now = q.now := by
    intro k
    rcases hideAlert_cases (some k) q with e | ⟨a, _, _, e⟩
    · rw [e]
    · rw [e]
      rfl
  cases cb with
  | hideDone k => rfl
  | fadeIn k => rfl
  | autoHide k => exact hh k
  | initAutoHide k txt => exact hh k
  | inactivity =>
    simp only [fire]
    split <;> rfl
  | forcedLogout => rfl

theorem stage_setStyle_self {n : Nat} {disp op disp2 op2 : String} {pend : List Timer}
    {q : Page} (f : Style → Style)
    (hf : ∀ s : Style, s.display = disp → s.opacity = op →
      (f s).display = disp2 ∧ (f s).opacity = op2)
    (h : Stage n disp op pend q) : Stage n disp2 op2 pend (q.setStyle n f) := by
  refine ⟨nodeIn_of_ident (setStyle_ident q n f).1 (setStyle_ident q n f).2 h.1, ?_, h.2.2⟩
  intro a ha hn
  rcases mem_setStyle ha with ⟨_, h2⟩ | ⟨b, hb, hbn, _, hs⟩
  · exact absurd hn h2
  · rw [hs]
    exact hf b.style (h.2.1 b hb hbn).1 (h.2.1 b hb hbn).2

theorem stage_dequeued {n : Nat} {disp op : String} {pend : List Timer} {q : Page} (u : Timer)
    (h : Stage n disp op pend q) :
    Stage n disp op (pend.filter (fun v => v.handle != u.handle)) (dequeued u q) := by
  refine ⟨h.1, h.2.1, ?_⟩
  rw [timersOn_dequeued, h.2.2]

theorem alert?_of_nodeIn {n : Nat} {q : Page} (h : ∃ a ∈ q.alerts, a.node = n) :
    ∃ a, q.alert? n = some a ∧ a ∈ q.alerts ∧ a.node = n := by
  obtain ⟨b, hb, hbn⟩ := h
  cases hf : q.alert? n with
  | none =>
    simp only [Page.alert?, List.find?_eq_none] at hf
    exact absurd (by simpa using hbn) (hf b hb)
  | some a => exact ⟨a, rfl, List.mem_of_find?_eq_some hf, alert?_node hf⟩

theorem stage_afterHide {n : Nat} {op : String} {pend : List Timer} {q : Page}
    (h : Stage n "" op pend q) :
    hideAlert (some n) q = afterHide n q ∧
    Stage n "" "0" (pend ++ [{ handle := q.nextHandle, fireAt := q.now + 300, cb := .hideDone n }])
      (afterHide n q) := by
  obtain ⟨a, ha, hm, hn⟩ := alert?_of_nodeIn h.1
  have hd : a.style.display ≠ "none" := by
    rw [(h.2.1 a hm hn).1]
    decide
  refine ⟨hideAlert_shown ha hd, ?_⟩
  have h1 : Stage n "" "0" pend (q.setStyle n fadeOut) :=
    stage_setStyle_self fadeOut (fun s hs _ => ⟨hs, rfl⟩) h
  refine ⟨h1.1, h1.2.1, ?_⟩
  have e := timersOn_setTimeout n (.hideDone n) 300 (q.setStyle n fadeOut)
  rw [if_pos (show (Callback.hideDone n).target = some n from rfl), h1.2.2] at e
  exact e

theorem mem_of_timersOn {n : Nat} {q : Page} {t : Timer} (h : t ∈ timersOn n q) :
    t ∈ q.timers :=
  (List.mem_filter.mp h).1

/-- Running the next due timer moves the life of the alert on by at most one
stage, in order. -/
theorem life_runNext {n h0 t0 D T : Nat} (hD : 100 < D) {q r : Page}
    (h : Life n h0 t0 D T q) (hr : runNext T q = some r) : Life n h0 t0 D T r := by
  obtain ⟨hok, hph⟩ := h
  have hokr := timersOk_runNext hok hr
  obtain ⟨u, hu, rfl⟩ := runNext_dequeued hr
  obtain ⟨hum, huT⟩ := nextDue_mem hu
  have hmin := nextDue_min hu
  have hnow : (fire u.cb (dequeued u q)).now = max q.now u.fireAt := fire_now _ _
  refine ⟨hokr, ?_⟩
  by_cases hcb : u.cb.target = some n
  · have hun : u ∈ timersOn n q := List.mem_filter.mpr ⟨hum, by simpa using hcb⟩
    rcases hph with ⟨hs, hn⟩ | ⟨hs, hn, hT⟩ | ⟨h, hs, hT⟩ | ⟨hs, hT⟩
    · have hf : ({ handle := h0, fireAt := t0 + 100, cb := .fadeIn n } : Timer) ∈ q.timers :=
        mem_of_timersOn (by rw [hs.2.2]; simp)
      rw [hs.2.2] at hun
      simp only [List.mem_cons, List.mem_singleton, List.not_mem_nil, or_false] at hun
      rcases hun with rfl | rfl
      · right; left
        refine ⟨?_, ?_, huT⟩
        · have h1 := stage_dequeued
            ({ handle := h0, fireAt := t0 + 100, cb := .fadeIn n } : Timer) hs
          have e : ([{ handle := h0, fireAt := t0 + 100, cb := .fadeIn n },
              { handle := h0 + 1, fireAt := t0 + D, cb := .autoHide n }] : List Timer).filter
              (fun v => v.handle != h0) =
              [{ handle := h0 + 1, fireAt := t0 + D, cb := .autoHide n }] := by
            simp
          rw [e] at h1
          exact stage_setStyle_self _ (fun s hs _ => ⟨hs, rfl⟩) h1
        · rw [hnow]
          exact max_le hn (by show t0 + 100 ≤ t0 + D; omega)
      · exfalso
        have := hmin _ hf (by
          show t0 + 100 ≤ T
          have : t0 + D ≤ T := huT
          omega)
        have h2 : t0 + D ≤ t0 + 100 := this
        omega
    · rw [hs.2.2] at hun
      simp only [List.mem_singleton] at hun
      subst hun
      right; right; left
      have h1 := stage_dequeued
        ({ handle := h0 + 1, fireAt := t0 + D, cb := .autoHide n } : Timer) hs
      have e : ([{ handle := h0 + 1, fireAt := t0 + D, cb := .autoHide n }] : List Timer).filter
          (fun v => v.handle != h0 + 1) = [] := by
        simp
      rw [e] at h1
      obtain ⟨e1, h2⟩ := stage_afterHide h1
      have hq1 : (dequeued ({ handle := h0 + 1, fireAt := t0 + D, cb := .autoHide n } : Timer)
          q).now = t0 + D := max_eq_right hn
      rw [hq1] at h2
      refine ⟨q.nextHandle, ?_, huT⟩
      show Stage n "" "0" _ (hideAlert (some n) _)
      rw [e1]
      exact h2
    · rw [hs.2.2] at hun
      simp only [List.mem_singleton] at hun
      subst hun
      right; right; right
      refine ⟨?_, huT⟩
      have h1 := stage_dequeued
        ({ handle := h, fireAt := t0 + D + 300, cb := .hideDone n } : Timer) hs
      have e : ([{ handle := h, fireAt := t0 + D + 300, cb := .hideDone n }] : List Timer).filter
          (fun v => v.handle != h) = [] := by
        simp
      rw [e] at h1
      exact stage_setStyle_self _ (fun s _ ho => ⟨rfl, ho⟩) h1
    · rw [hs.2.2] at hun
      simp at hun
  · have hkeep : ∀ disp op pend, Stage n disp op pend q →
        Stage n disp op pend (fire u.cb (dequeued u q)) := by
      intro disp op pend hs
      refine stage_fire_other u.cb hcb ⟨hs.1, hs.2.1, ?_⟩
      rw [timersOn_dequeued_other hok hum hcb]
      exact hs.2.2
    have hbound : ∀ t : Timer, t ∈ timersOn n q → t.fireAt ≤ T → q.now ≤ t.fireAt →
        (fire u.cb (dequeued u q)).now ≤ t.fireAt := by
      intro t ht htT hqn
      rw [hnow]
      exact max_le hqn (hmin t (mem_of_timersOn ht) htT)
    rcases hph with ⟨hs, hn⟩ | ⟨hs, hn, hT⟩ | ⟨h, hs, hT⟩ | ⟨hs, hT⟩
    · left
      refine ⟨hkeep _ _ _ hs, ?_⟩
      rw [hnow]
      by_cases hdue : t0 + D ≤ T
      · exact max_le hn (hmin { handle := h0 + 1, fireAt := t0 + D, cb := .autoHide n }
          (mem_of_timersOn (by rw [hs.2.2]; simp)) hdue)
      · exact max_le hn (by omega)
    · right; left
      refine ⟨hkeep _ _ _ hs, ?_, hT⟩
      rw [hnow]
      by_cases hdue : t0 + D ≤ T
      · exact max_le hn (hmin { handle := h0 + 1, fireAt := t0 + D, cb := .autoHide n }
          (mem_of_timersOn (by rw [hs.2.2]; simp)) hdue)
      · exact max_le hn (by omega)
    · right; right; left
      exact ⟨h, hkeep _ _ _ hs, hT⟩
    · right; right; right
      exact ⟨hkeep _ _ _ hs, hT⟩

theorem life_elapse {n h0 t0 D dt : Nat} (hD : 100 < D) {q : Page} (hnow : q.now = t0)
    (h : Life n h0 t0 D (t0 + dt) q) :
    ∃ a, (elapse dt q).alert? n = some a ∧
      (dt < 100 → a.style.display = "" ∧ a.style.opacity = "0" ∧
        ({ handle := h0, fireAt := t0 + 100, cb := .fadeIn n } : Timer) ∈ (elapse dt q).timers) ∧
      (100 ≤ dt → dt < D → a.style.display = "" ∧ a.style.opacity = "1" ∧
        ({ handle := h0 + 1, fireAt := t0 + D, cb := .autoHide n } : Timer) ∈
          (elapse dt q).timers) ∧
      (D ≤ dt → dt < D + 300 → a.style.display = "" ∧ a.style.opacity = "0" ∧
        ∃ k, ({ handle := k, fireAt := t0 + D + 300, cb := .hideDone n } : Timer) ∈
          (elapse dt q).timers) ∧
      (D + 300 ≤ dt → a.style.display = "none" ∧
        ∀ t ∈ (elapse dt q).timers, t.cb.target ≠ some n) := by
  have hrun : Life n h0 t0 D (t0 + dt) (runTimers (budget q.timers) (q.now + dt) q) := by
    rw [hnow]
    exact runTimers_invariant (Life n h0 t0 D (t0 + dt)) (t0 + dt)
      (fun a b ha hb => life_runNext hD ha hb) (budget q.timers) q h
  have hcomp := elapse_complete dt q
  rw [hnow] at hcomp
  have hstage : ∀ disp op pend,
      Stage n disp op pend (runTimers (budget q.timers) (q.now + dt) q) →
      Stage n disp op pend (elapse dt q) := fun _ _ _ hs => stage_congr rfl rfl hs
  have hlate : ∀ {disp op pend} {t : Timer}, Stage n disp op pend (elapse dt q) → t ∈ pend →
      t ∈ (elapse dt q).timers ∧ t0 + dt < t.fireAt := by
    intro disp op pend t hs ht
    have hm : t ∈ (elapse dt q).timers := mem_of_timersOn (by rw [hs.2.2]; exact ht)
    exact ⟨hm, hcomp t hm⟩
  rcases hrun.2 with ⟨hs, _⟩ | ⟨hs, _, hT⟩ | ⟨k, hs, hT⟩ | ⟨hs, hT⟩
  · have hs2 := hstage _ _ _ hs
    obtain ⟨a, ha, hm, hn⟩ := alert?_of_nodeIn hs2.1
    obtain ⟨hf, hlt⟩ := hlate hs2 (List.mem_cons_self _ _)
    have hlt2 : t0 + dt < t0 + 100 := hlt
    refine ⟨a, ha, fun _ => ⟨(hs2.2.1 a hm hn).1, (hs2.2.1 a hm hn).2, hf⟩, ?_, ?_, ?_⟩
    · intro h1
      omega
    · intro h1
      omega
    · intro h1
      omega
  · have hs2 := hstage _ _ _ hs
    obtain ⟨a, ha, hm, hn⟩ := alert?_of_nodeIn hs2.1
    obtain ⟨hf, hlt⟩ := hlate hs2 (List.mem_cons_self _ _)
    have hlt2 : t0 + dt < t0 + D := hlt
    refine ⟨a, ha, ?_, fun _ _ => ⟨(hs2.2.1 a hm hn).1, (hs2.2.1 a hm hn).2, hf⟩, ?_, ?_⟩
    · intro h1
      omega
    · intro h1
      omega
    · intro h1
      omega
  · have hs2 := hstage _ _ _ hs
    obtain ⟨a, ha, hm, hn⟩ := alert?_of_nodeIn hs2.1
    obtain ⟨hf, hlt⟩ := hlate hs2 (List.mem_cons_self _ _)
    have hlt2 : t0 + dt < t0 + D + 300 := hlt
    refine ⟨a, ha, ?_, ?_, fun _ _ => ⟨(hs2.2.1 a hm hn).1, (hs2.2.1 a hm hn).2, k, hf⟩, ?_⟩
    · intro h1
      omega
    · intro _ h1
      omega
    · intro h1
      omega
  · have hs2 := hstage _ _ _ hs
    obtain ⟨a, ha, hm, hn⟩ := alert?_of_nodeIn hs2.1
    refine ⟨a, ha, ?_, ?_, ?_, fun _ => ⟨(hs2.2.1 a hm hn).1, ?_⟩⟩
    · intro h1
      omega
    · intro _ h1
      omega
    · intro _ h1
      omega
    · intro t ht hc
      have : t ∈ timersOn n (elapse dt q) := List.mem_filter.mpr ⟨ht, by simpa using hc⟩
      rw [hs2.2.2] at this
      simp at this

theorem life_showAlert (m type : String) (d : Int) (p : Page) (T : Nat)
    (hok : TimersOk p)
    (hnew : ∀ a ∈ p.alerts, jsIncludes a.textContent m = false)
    (hnode : ∀ a ∈ p.alerts, a.node ≠ p.nextNode)
    (htimers : ∀ t ∈ p.timers, t.cb.target ≠ some p.nextNode)
    (hd : 0 < d) :
    (showAlert m type d p).1 = p.nextNode ∧ (showAlert m type d p).2.now = p.now ∧
    Life p.nextNode p.nextHandle p.now (timerDelay d) T (showAlert m type d p).2 := by
  have hokq := timersOk_showAlert m type d hok
  have hpage := showAlert_new m type d p hnew
  simp only [gt_iff_lt, hd, if_true] at hpage
  rw [hpage] at hokq ⊢
  refine ⟨rfl, rfl, hokq, Or.inl ⟨⟨?_, ?_, ?_⟩, ?_⟩⟩
  · exact ⟨newAlert p.nextNode m type, by simp [Page.alerts, setTimeout], rfl⟩
  · intro a ha hn
    simp only [Page.alerts, setTimeout, List.mem_append, List.mem_cons] at ha
    rcases ha with ha | rfl | ha
    · exact absurd hn (hnode a (List.mem_append_left _ ha))
    · exact ⟨rfl, rfl⟩
    · exact absurd hn (hnode a (List.mem_append_right _ ha))
  · rw [timersOn_setTimeout, timersOn_setTimeout,
      if_pos (show (Callback.autoHide p.nextNode).target = some p.nextNode from rfl),
      if_pos (show (Callback.fadeIn p.nextNode).target = some p.nextNode from rfl)]
    have hnil : timersOn p.nextNode
        { p with fromContainer := newAlert p.nextNode m type :: p.fromContainer
                 nextNode := p.nextNode + 1 } = [] := by
      unfold timersOn
      rw [List.filter_eq_nil_iff]
      intro t ht
      simpa using htimers t ht
    rw [hnil]
    rfl
  · show p.now ≤ p.now + timerDelay d
    omega

/-- C21 as stated fails for a duration below 100 ms.  An alert is shown with a
duration of 50 ms on the empty page.  After 60 ms hideAlert has started its
dismissal (the timer that ends it is pending, due at 350 ms) while the fade-in,
due at 100 ms, has not run: the opacity is still 0.  At 200 ms the fade-in has
made the alert opaque, in the middle of its dismissal; at 400 ms the alert is
out of the layout with opacity 1. -/
theorem showAlert_brief_dismissal_before_fadeIn :
    briefAlertPage.timers =
      [{ handle := 0, fireAt := 100, cb := .fadeIn 0 },
       { handle := 1, fireAt := 50, cb := .autoHide 0 }] ∧
    (elapse 60 briefAlertPage).timers =
      [{ handle := 0, fireAt := 100, cb := .fadeIn 0 },
       { handle := 2, fireAt := 350, cb := .hideDone 0 }] ∧
    ((elapse 60 briefAlertPage).alert? 0).map (fun a => (a.style.display, a.style.opacity)) =
      some ("", "0") ∧
    ((elapse 200 briefAlertPage).alert? 0).map (fun a => (a.style.display, a.style.opacity)) =
      some ("", "1") ∧
    ((elapse 400 briefAlertPage).alert? 0).map (fun a => (a.style.display, a.style.opacity)) =
      some ("none", "1") := by
  decide

/-- C21, amended. When showAlert creates an alert with a duration d above 100 ms
and of at most 2 147 483 647 ms (the largest delay of `setTimeout`), on a page
where no pending timer acts on the new element, and nothing but time passes,
the steps of its life are strictly ordered in time.  Until 100 ms after
the call the alert is in the layout with opacity 0, its fade-in pending; from
100 ms until d it has opacity 1, its dismissal pending; from d until d + 300 ms
hideAlert has set its opacity to 0 and the end of the dismissal is pending; from
d + 300 ms on its display is 'none' and no timer acts on it. -/
theorem showAlert_lifecycle (m type : String) (d : Int) (p : Page) (dt : Nat)
    (hok : TimersOk p)
    (hnew : ∀ a ∈ p.alerts, jsIncludes a.textContent m = false)
    (hnode : ∀ a ∈ p.alerts, a.node ≠ p.nextNode)
    (htimers : ∀ t ∈ p.timers, t.cb.target ≠ some p.nextNode)
    (hd : 100 < d) (hmax : d ≤ 2147483647) :
    ∃ a, (elapse dt (showAlert m type d p).2).alert? (showAlert m type d p).1 = some a ∧
      (dt < 100 → a.style.display = "" ∧ a.style.opacity = "0" ∧
        ({ handle := p.nextHandle, fireAt := p.now + 100, cb := .fadeIn p.nextNode } : Timer) ∈
          (elapse dt (showAlert m type d p).2).timers) ∧
      (100 ≤ dt → (dt : Int) < d → a.style.display = "" ∧ a.style.opacity = "1" ∧
        ({ handle := p.nextHandle + 1, fireAt := p.now + d.toNat,
           cb := .autoHide p.nextNode } : Timer) ∈
          (elapse dt (showAlert m type d p).2).timers) ∧
      (d ≤ (dt : Int) → (dt : Int) < d + 300 → a.style.display = "" ∧ a.style.opacity = "0" ∧
        ∃ k, ({ handle := k, fireAt := p.now + d.toNat + 300,
                cb := .hideDone p.nextNode } : Timer) ∈
          (elapse dt (showAlert m type d p).2).timers) ∧
      (d + 300 ≤ (dt : Int) → a.style.display = "none" ∧
        ∀ t ∈ (elapse dt (showAlert m type d p).2).timers, t.cb.target ≠ some p.nextNode) := by
  obtain ⟨h1, h2, hl⟩ := life_showAlert m type d p (p.now + dt) hok hnew hnode htimers
    (by omega)
  rw [timerDelay_eq d (by omega) hmax] at hl
  have hD : 100 < d.toNat := by omega
  have hDd : (d.toNat : Int) = d := Int.toNat_of_nonneg (by omega)
  obtain ⟨a, ha, c1, c2, c3, c4⟩ := life_elapse hD h2 hl
  rw [h1]
  refine ⟨a, ha, c1, ?_, ?_, ?_⟩
  · intro x y
    exact c2 x (by omega)
  · intro x y
    exact c3 (by omega) (by omega)
  · intro x
    exact c4 (by omega)

theorem showAlert_lifecycle_witness :
    (TimersOk (sessionPage sweptPage (.number 7) someActivity) ∧
      (∀ a ∈ (sessionPage sweptPage (.number 7) someActivity).alerts,
        jsIncludes a.textContent "Sin conexión" = false) ∧
      (∀ a ∈ (sessionPage sweptPage (.number 7) someActivity).alerts,
        a.node ≠ (sessionPage sweptPage (.number 7) someActivity).nextNode) ∧
      (∀ t ∈ (sessionPage sweptPage (.number 7) someActivity).timers,
        t.cb.target ≠ some (sessionPage sweptPage (.number 7) someActivity).nextNode) ∧
      (100 : Int) < 3000 ∧ (3000 : Int) ≤ 2147483647) ∧
    ∃ a, (elapse 3100 (showAlert "Sin conexión" "error" 3000
        (sessionPage sweptPage (.number 7) someActivity)).2).alert?
        (showAlert "Sin conexión" "error" 3000
          (sessionPage sweptPage (.number 7) someActivity)).1 = some a ∧
      ((3000 : Int) ≤ ((3100 : Nat) : Int) → (((3100 : Nat) : Int)) < 3000 + 300 →
        a.style.display = "" ∧ a.style.opacity = "0" ∧
        ∃ k, ({ handle := k,
                fireAt := (sessionPage sweptPage (.number 7) someActivity).now +
                  (3000 : Int).toNat + 300,
                cb := .hideDone (sessionPage sweptPage (.number 7) someActivity).nextNode }
                : Timer) ∈
          (elapse 3100 (showAlert "Sin conexión" "error" 3000
            (sessionPage sweptPage (.number 7) someActivity)).2).timers) :=
  ⟨⟨(sessionPage_ok sweptPage (.number 7) someActivity ⟨by decide, by decide, by decide⟩
      (by decide)).1, by decide, by decide, by decide, by decide, by decide⟩,
   (showAlert_lifecycle "Sin conexión" "error" 3000
      (sessionPage sweptPage (.number 7) someActivity) 3100
      (sessionPage_ok sweptPage (.number 7) someActivity ⟨by decide, by decide, by decide⟩
        (by decide)).1 (by decide) (by decide) (by decide) (by decide) (by decide)).imp
     (fun _ h => ⟨h.1, h.2.2.2.1⟩)⟩

/-! ## The report form: what loadSavedFilters restores -/

/-- C27 does not hold of the code: saveFilters stores six values, and
loadSavedFilters gives back three of them.  After saveFilters on a form set for
the general inventory with the stock level 'low', loadSavedFilters on the empty
form of a later visit restores the report type and the category, and leaves the
stock level empty.  After saveFilters on a form set for the movements of January
2024, it restores the report type, and updateFormFields then fills the empty date
fields with its own dates, one month ago and today, not with the saved ones. -/
theorem loadSavedFilters_restores_three_fields :
    (saveFilters inventoryFilters).storage =
      some { report_type := "inventory_general", category := "Periféricos", provider := "",
             date_from := "", date_to := "", stock_level := "low" } ∧
    (loadSavedFilters "2024-06-15" "2024-05-15"
      (reloaded (saveFilters inventoryFilters))).reportType = "inventory_general" ∧
    (loadSavedFilters "2024-06-15" "2024-05-15"
      (reloaded (saveFilters inventoryFilters))).category = some "Periféricos" ∧
    (loadSavedFilters "2024-06-15" "2024-05-15"
      (reloaded (saveFilters inventoryFilters))).stockLevel = "" ∧
    (saveFilters movementFilters).storage.map SavedFilters.date_from = some "2024-01-01" ∧
    (loadSavedFilters "2024-06-15" "2024-05-15"
      (reloaded (saveFilters movementFilters))).reportType = "movements_by_period" ∧
    (loadSavedFilters "2024-06-15" "2024-05-15"
      (reloaded (saveFilters movementFilters))).dateFrom = "2024-05-15" ∧
    (loadSavedFilters "2024-06-15" "2024-05-15"
      (reloaded (saveFilters movementFilters))).dateTo = "2024-06-15" := by
  decide

/-! ## The dashboard: pausing the automatic refresh -/

/-- C30 does not hold of the code: the listener of `visibilitychange` starts an
interval whenever the page is shown, whether the user has paused the automatic
refresh or not, and startAutoRefresh does not stop the interval that is already
running.  The user pauses, the page is hidden and shown again: one interval is
active while `isAutoRefreshEnabled` is false.  The user then resumes: two
intervals are active.  The user pauses again: the interval of the variable
`refreshTimer` is stopped, the other one keeps running. -/
theorem refresh_runs_while_paused :
    dashboardLoaded.intervals = [1] ∧
    (Dashboard.run [.toggle] dashboardLoaded).intervals = [] ∧
    (Dashboard.run [.toggle, .visibility true, .visibility false]
      dashboardLoaded).isAutoRefreshEnabled = false ∧
    (Dashboard.run [.toggle, .visibility true, .visibility false]
      dashboardLoaded).hidden = false ∧
    (Dashboard.run [.toggle, .visibility true, .visibility false]
      dashboardLoaded).intervals = [3] ∧
    (Dashboard.run [.toggle, .visibility true, .visibility false, .toggle]
      dashboardLoaded).isAutoRefreshEnabled = true ∧
    (Dashboard.run [.toggle, .visibility true, .visibility false, .toggle]
      dashboardLoaded).intervals = [3, 4] ∧
    (Dashboard.run [.toggle, .visibility true, .visibility false, .toggle, .toggle]
      dashboardLoaded).isAutoRefreshEnabled = false ∧
    (Dashboard.run [.toggle, .visibility true, .visibility false, .toggle, .toggle]
      dashboardLoaded).intervals = [3] := by
  decide

/-! ## The form scripts: an element is missing -/

theorem runLookups_spec (present : String → Bool) (l : List Lookup) :
    ∀ done : List (String × String),
      ((runLookups present l done).2 = none ↔
        ∀ s ∈ requiredSelectors l, present s = true) ∧
      ((runLookups present l done).2 = none →
        (runLookups present l done).1 = done ++ usesMade present l) ∧
      (∀ s, (requiredSelectors l).find? (fun s => !present s) = some s →
        (runLookups present l done).2 = some ("TypeError: " ++ s ++ " is null")) := by
  induction l with
  | nil =>
    intro done
    simp [runLookups, requiredSelectors, usesMade]
  | cons k rest ih =>
    intro done
    cases k with
    | required sel use =>
      by_cases hp : present sel = true
      · obtain ⟨h1, h2, h3⟩ := ih (done ++ [(sel, use)])
        simp only [runLookups, hp, if_true, requiredSelectors, List.mem_cons, forall_eq_or_imp,
          true_and]
        refine ⟨h1, ?_, ?_⟩
        · intro hn
          rw [h2 hn]
          simp [usesMade, Lookup.selector, Lookup.use, Lookup.made, hp]
        · intro s hs
          simp only [List.find?_cons, hp, Bool.not_true] at hs
          exact h3 s hs
      · simp only [runLookups, hp, if_false, requiredSelectors, List.mem_cons, forall_eq_or_imp]
        refine ⟨?_, ?_, ?_⟩
        · simp [hp]
        · intro hn
          simp at hn
        · intro s hs
          have hp2 : present sel = false := by simpa using hp
          simp only [List.find?_cons, hp2, Bool.not_false, Option.some.injEq] at hs
          subst hs
          rfl
    | optional sel use =>
      obtain ⟨h1, h2, h3⟩ := ih (if present sel = true then done ++ [(sel, use)] else done)
      simp only [runLookups, requiredSelectors]
      refine ⟨h1, ?_, h3⟩
      intro hn
      rw [h2 hn]
      by_cases hp : present sel = true <;>
        simp [usesMade, Lookup.selector, Lookup.use, Lookup.made, hp]
    | optionalUnless sel other use =>
      obtain ⟨h1, h2, h3⟩ :=
        ih (if (present sel && !present other) = true then done ++ [(sel, use)] else done)
      simp only [runLookups, requiredSelectors]
      refine ⟨h1, ?_, h3⟩
      intro hn
      rw [h2 hn]
      by_cases hp : (present sel && !present other) = true <;>
        simp [usesMade, Lookup.selector, Lookup.use, Lookup.made, hp]

/-- C22 as stated fails: the elements that the claim names are used with no
check of presence.  Without the element `#name`, the initialisation of
add_product.js raises a TypeError at its first listener, and registers none;
without `#sku` it raises at the last one, after 13 listeners.  Without the
element that carries `data-current-stock`, the initialisation of
quick_stock_adjustment.js raises before any listener is registered.  Without
`#report_type`, or without `.btn-primary`, or with a button `.btn-primary` that has
no child node, the initialisation of custom_reports.js raises in its first call
of updateFormFields. -/
theorem init_raises_on_absent_element :
    AddProduct.init (allBut "#name") = ([], some "TypeError: #name is null") ∧
    (AddProduct.init (allBut "#sku")).1.length = 13 ∧
    (AddProduct.init (allBut "#sku")).2 = some "TypeError: #sku is null" ∧
    StockAdjustment.init (allBut "[data-current-stock]") =
      ([], some "TypeError: [data-current-stock] is null") ∧
    CustomReports.init "" (allBut "#report_type") =
      ([], some "TypeError: #report_type is null") ∧
    CustomReports.init "" (allBut ".btn-primary") =
      ([("#report_type", "value")], some "TypeError: .btn-primary is null") ∧
    CustomReports.init "" (allBut ".btn-primary lastChild") =
      ([("#report_type", "value"), (".btn-primary", "querySelector")],
       some "TypeError: .btn-primary lastChild is null") := by
  decide

/-- C22, amended. The initialisation of each form script completes with no error
exactly when every node that it uses with no check is in the document: all
the elements of add_product.js and of quick_stock_adjustment.js, and
`#report_type`, `.btn-primary`, a child node of `.btn-primary`, and `.report-form`
(with `#date_from` and `#date_to` for a report of movements) of custom_reports.js.
It then has made every use of an element that is present (the button that
clears the filters is added unless the page has one), and has skipped, as a
no-op, the uses that a check guards of the elements that are absent.  When a
node used with no check is absent, the initialisation raises a TypeError at the
first such use, and nothing after it runs. -/
theorem init_completes_iff (present : String → Bool) (reportType : String) :
    (((AddProduct.init present).2 = none ↔
        ∀ s ∈ requiredSelectors AddProduct.lookups, present s = true) ∧
      ((AddProduct.init present).2 = none →
        (AddProduct.init present).1 = usesMade present AddProduct.lookups) ∧
      (∀ s, (requiredSelectors AddProduct.lookups).find? (fun s => !present s) = some s →
        (AddProduct.init present).2 = some ("TypeError: " ++ s ++ " is null"))) ∧
    (((StockAdjustment.init present).2 = none ↔
        ∀ s ∈ requiredSelectors StockAdjustment.lookups, present s = true) ∧
      ((StockAdjustment.init present).2 = none →
        (StockAdjustment.init present).1 = usesMade present StockAdjustment.lookups) ∧
      (∀ s, (requiredSelectors StockAdjustment.lookups).find? (fun s => !present s) = some s →
        (StockAdjustment.init present).2 = some ("TypeError: " ++ s ++ " is null"))) ∧
    (((CustomReports.init reportType present).2 = none ↔
        ∀ s ∈ requiredSelectors (CustomReports.lookups reportType), present s = true) ∧
      ((CustomReports.init reportType present).2 = none →
        (CustomReports.init reportType present).1 =
          usesMade present (CustomReports.lookups reportType)) ∧
      (∀ s, (requiredSelectors (CustomReports.lookups reportType)).find?
          (fun s => !present s) = some s →
        (CustomReports.init reportType present).2 =
          some ("TypeError: " ++ s ++ " is null"))) ∧
    requiredSelectors (CustomReports.lookups "") =
      ["#report_type", ".btn-primary", ".btn-primary lastChild", ".report-form"] ∧
    requiredSelectors (CustomReports.lookups "movements_by_period") =
      ["#report_type", "#date_from", "#date_to", ".btn-primary", ".btn-primary lastChild",
       ".report-form"] ∧
    (∀ s u, (s, u) ∈ usesMade present (CustomReports.lookups reportType) → present s = true) := by
  refine ⟨?_, ?_, ?_, by decide, by decide, ?_⟩
  · have h := runLookups_spec present AddProduct.lookups []
    simpa [AddProduct.init] using h
  · have h := runLookups_spec present StockAdjustment.lookups []
    simpa [StockAdjustment.init] using h
  · have h := runLookups_spec present (CustomReports.lookups reportType) []
    simpa [CustomReports.init] using h
  · intro s u h
    simp only [usesMade, List.mem_map, List.mem_filter] at h
    obtain ⟨k, ⟨_, hk⟩, he⟩ := h
    have : k.selector = s := congrArg Prod.fst he
    rw [← this]
    cases k with
    | required sel use => exact hk
    | optional sel use => exact hk
    | optionalUnless sel other use =>
      simp only [Lookup.made, Bool.and_eq_true] at hk
      exact hk.1

theorem init_completes_iff_witness :
    (∀ s ∈ requiredSelectors (CustomReports.lookups ""), noCategoryDocument s = true) ∧
    (CustomReports.init "" (noCategoryDocument)).2 = none ∧
    (CustomReports.init "" (noCategoryDocument)).1 =
      usesMade (noCategoryDocument) (CustomReports.lookups "") ∧
    (CustomReports.init "" (noCategoryDocument)).1.length = 12 :=
  ⟨by decide,
   (init_completes_iff (noCategoryDocument) "").2.2.1.1.mpr (by decide),
   (init_completes_iff (noCategoryDocument) "").2.2.1.2.1
     ((init_completes_iff (noCategoryDocument) "").2.2.1.1.mpr (by decide)),
   by decide⟩

/-! ## An alert that is being hidden -/

theorem find?_updateNode_other {n k : Nat} (g : AlertEl → AlertEl)
    (hg : ∀ a, (g a).node = a.node) (hk : k ≠ n) (l : List AlertEl) :
    (updateNode k g l).find? (fun a => a.node = n) = l.find? (fun a => a.node = n) := by
  induction l with
  | nil => rfl
  | cons b l ih =>
    have hnode : (if b.node = k then g b else b).node = b.node := by
      split
      · exact hg b
      · rfl
    show List.find? _ ((if b.node = k then g b else b) :: updateNode k g l) = _
    by_cases hb : b.node = n
    · have hbk : ¬ b.node = k := fun e => hk (e ▸ hb)
      rw [if_neg hbk]
      simp [hb]
    · have h1 : decide ((if b.node = k then g b else b).node = n) = false := by
        rw [hnode]
        simpa using hb
      have h2 : decide (b.node = n) = false := by simpa using hb
      rw [List.find?_cons, List.find?_cons, h1, h2]
      exact ih

theorem alert?_setStyle_other {n k : Nat} (f : Style → Style) (p : Page) (hk : k ≠ n) :
    (p.setStyle k f).alert? n = p.alert? n := by
  simp only [Page.alert?, Page.alerts, Page.setStyle, List.find?_append]
  rw [find?_updateNode_other (fun a => { a with style := f a.style }) (fun _ => rfl) hk,
    find?_updateNode_other (fun a => { a with style := f a.style }) (fun _ => rfl) hk]

theorem alert?_hideAlert_other {n k : Nat} (p : Page) (hk : k ≠ n) :
    (hideAlert (some k) p).alert? n = p.alert? n := by
  rcases hideAlert_cases (some k) p with e | ⟨a, ha, _, e⟩
  · rw [e]
  · rw [e]
    have hak : a.node = k := alert?_node (by simpa using ha)
    rw [hak]
    exact alert?_setStyle_other fadeOut p hk

theorem hideAlert_timers_sub (alert : Option Nat) (p : Page) :
    (∀ t ∈ p.timers, t ∈ (hideAlert alert p).timers) ∧
    (∀ t ∈ (hideAlert alert p).timers, t ∈ p.timers ∨ ∃ k, t.cb = .hideDone k) := by
  rcases hideAlert_cases alert p with e | ⟨a, _, _, e⟩
  · rw [e]
    exact ⟨fun t h => h, fun t h => Or.inl h⟩
  · rw [e]
    constructor
    · intro t ht
      simp only [setTimeout, Page.setStyle, List.mem_append]
      exact Or.inl ht
    · intro t ht
      simp only [setTimeout, Page.setStyle, List.mem_append, List.mem_singleton] at ht
      rcases ht with ht | rfl
      · exact Or.inl ht
      · exact Or.inr ⟨_, rfl⟩

theorem fire_timers_mem (cb : Callback) (p : Page) :
    (∀ t ∈ p.timers, t ∈ (fire cb p).timers) ∧
    (∀ t ∈ (fire cb p).timers, t ∈ p.timers ∨ ∃ k, t.cb = .hideDone k) := by
  cases cb with
  | hideDone k => exact ⟨fun t h => h, fun t h => Or.inl h⟩
  | fadeIn k => exact ⟨fun t h => h, fun t h => Or.inl h⟩
  | autoHide k => exact hideAlert_timers_sub (some k) p
  | initAutoHide k txt => exact hideAlert_timers_sub (some k) p
  | inactivity =>
    simp only [fire]
    split
    · exact ⟨fun t h => h, fun t h => Or.inl h⟩
    · exact ⟨fun t h => h, fun t h => Or.inl h⟩
  | forcedLogout => exact ⟨fun t h => h, fun t h => Or.inl h⟩

/-- hideAlert on the element itself keeps it hidden or about to be. -/
theorem hidden_hideAlert_self {n D : Nat} {S : AlertEl → Prop} (hS : HideStable S) {q : Page}
    (h : Hidden n S D q) : Hidden n S D (hideAlert (some n) q) := by
  obtain ⟨a, ha, hSa, hd⟩ := h
  by_cases hdisp : a.style.display = "none"
  · rw [hideAlert_hidden ha hdisp]
    exact ⟨a, ha, hSa, hd⟩
  · rw [hideAlert_shown ha hdisp]
    rcases hd with hd | ⟨t, ht, hcb, hdue⟩
    · exact absurd hd hdisp
    · refine ⟨{ a with style := fadeOut a.style }, ?_, hS.1 a hSa hdisp, Or.inr ⟨t, ?_, hcb, hdue⟩⟩
      · have h1 : (afterHide n q).alert? n = (q.setStyle n fadeOut).alert? n := rfl
        rw [h1, alert?_setStyle, ha]
        rfl
      · show t ∈ q.timers ++ _
        exact List.mem_append_left _ ht

/-- hideAlert on an element starts its hiding, if it is displayed: the timer is
due 300 ms later. -/
theorem hidden_hideAlert_start {n : Nat} {S : AlertEl → Prop} {q : Page}
    {a : AlertEl} (ha : q.alert? n = some a)
    (h0 : a.style.display = "none" → S a)
    (h1 : a.style.display ≠ "none" → S { a with style := fadeOut a.style }) :
    Hidden n S (q.now + 300) (hideAlert (some n) q) := by
  by_cases hdisp : a.style.display = "none"
  · rw [hideAlert_hidden ha hdisp]
    exact ⟨a, ha, h0 hdisp, Or.inl hdisp⟩
  · rw [hideAlert_shown ha hdisp]
    refine ⟨{ a with style := fadeOut a.style }, ?_, h1 hdisp,
      Or.inr ⟨{ handle := q.nextHandle, fireAt := q.now + 300, cb := .hideDone n }, ?_, rfl,
        le_refl _⟩⟩
    · have h1 : (afterHide n q).alert? n = (q.setStyle n fadeOut).alert? n := rfl
      rw [h1, alert?_setStyle, ha]
      rfl
    · show _ ∈ q.timers ++ _
      simp

theorem hidden_hideAlert_other {n k D : Nat} {S : AlertEl → Prop} {q : Page} (hk : k ≠ n)
    (h : Hidden n S D q) : Hidden n S D (hideAlert (some k) q) := by
  obtain ⟨a, ha, hSa, hd⟩ := h
  refine ⟨a, by rw [alert?_hideAlert_other q hk]; exact ha, hSa, ?_⟩
  rcases hd with hd | ⟨t, ht, hcb, hdue⟩
  · exact Or.inl hd
  · exact Or.inr ⟨t, (hideAlert_timers_sub (some k) q).1 t ht, hcb, hdue⟩

theorem hidden_hideAlert {n k D : Nat} {S : AlertEl → Prop} (hS : HideStable S) {q : Page}
    (h : Hidden n S D q) : Hidden n S D (hideAlert (some k) q) := by
  by_cases hk : k = n
  · subst hk
    exact hidden_hideAlert_self hS h
  · exact hidden_hideAlert_other hk h

theorem hidden_congr {n D : Nat} {S : AlertEl → Prop} {q r : Page}
    (ha : r.alerts = q.alerts) (ht : r.timers = q.timers) (h : Hidden n S D q) :
    Hidden n S D r := by
  obtain ⟨a, ha1, hSa, hd⟩ := h
  refine ⟨a, ?_, hSa, ?_⟩
  · unfold Page.alert? at ha1 ⊢
    rw [ha]
    exact ha1
  · rw [ht]
    exact hd

/-- A callback other than the fade-in of the element keeps it hidden or about to
be, when the timer that the invariant counts on is not the one that runs. -/
theorem hidden_fire {n D : Nat} {S : AlertEl → Prop} (hS : HideStable S) {q : Page}
    (cb : Callback)
    (hfade : cb = .fadeIn n → ∀ b, S b → S { b with style := fadedIn b.style })
    (h : ∃ a, q.alert? n = some a ∧ S a ∧
      (a.style.display = "none" ∨ cb = .hideDone n ∨
        ∃ t ∈ q.timers, t.cb = .hideDone n ∧ t.fireAt ≤ D)) :
    Hidden n S D (fire cb q) := by
  obtain ⟨a, ha, hSa, hd⟩ := h
  cases cb with
  | hideDone k =>
    by_cases hk : k = n
    · subst hk
      refine ⟨{ a with style := displayNone a.style }, ?_, hS.2 a hSa, Or.inl rfl⟩
      show (q.setStyle k displayNone).alert? k = _
      rw [alert?_setStyle, ha]
      rfl
    · refine ⟨a, ?_, hSa, ?_⟩
      · show (q.setStyle k _).alert? n = _
        rw [alert?_setStyle_other _ q hk]
        exact ha
      · rcases hd with hd | hd | hd
        · exact Or.inl hd
        · exact absurd (Callback.hideDone.inj hd) hk
        · exact Or.inr hd
  | fadeIn k =>
    have hd2 : a.style.display = "none" ∨ ∃ t ∈ q.timers, t.cb = .hideDone n ∧ t.fireAt ≤ D := by
      rcases hd with hd | hd | hd
      · exact Or.inl hd
      · cases hd
      · exact Or.inr hd
    by_cases hk : k = n
    · subst hk
      refine ⟨{ a with style := fadedIn a.style }, ?_, hfade rfl a hSa, hd2⟩
      show (q.setStyle k fadedIn).alert? k = _
      rw [alert?_setStyle, ha]
      rfl
    · refine ⟨a, ?_, hSa, hd2⟩
      show (q.setStyle k _).alert? n = _
      rw [alert?_setStyle_other _ q hk]
      exact ha
  | autoHide k =>
    have hd2 : a.style.display = "none" ∨ ∃ t ∈ q.timers, t.cb = .hideDone n ∧ t.fireAt ≤ D := by
      rcases hd with hd | hd | hd
      · exact Or.inl hd
      · cases hd
      · exact Or.inr hd
    exact hidden_hideAlert hS ⟨a, ha, hSa, hd2⟩
  | initAutoHide k txt =>
    have hd2 : a.style.display = "none" ∨ ∃ t ∈ q.timers, t.cb = .hideDone n ∧ t.fireAt ≤ D := by
      rcases hd with hd | hd | hd
      · exact Or.inl hd
      · cases hd
      · exact Or.inr hd
    exact hidden_congr rfl rfl (hidden_hideAlert (k := k) hS ⟨a, ha, hSa, hd2⟩)
  | inactivity =>
    have hd2 : a.style.display = "none" ∨ ∃ t ∈ q.timers, t.cb = .hideDone n ∧ t.fireAt ≤ D := by
      rcases hd with hd | hd | hd
      · exact Or.inl hd
      · cases hd
      · exact Or.inr hd
    simp only [fire]
    split
    · exact hidden_congr rfl rfl ⟨a, ha, hSa, hd2⟩
    · exact ⟨a, ha, hSa, hd2⟩
  | forcedLogout =>
    have hd2 : a.style.display = "none" ∨ ∃ t ∈ q.timers, t.cb = .hideDone n ∧ t.fireAt ≤ D := by
      rcases hd with hd | hd | hd
      · exact Or.inl hd
      · cases hd
      · exact Or.inr hd
    exact hidden_congr rfl rfl ⟨a, ha, hSa, hd2⟩

theorem hiding_runNext {n D T : Nat} {S : AlertEl → Prop} (hS : HideStable S) {q r : Page}
    (h : Hiding n S D q) (hr : runNext T q = some r) : Hiding n S D r := by
  obtain ⟨hok, hfade, a, ha, hSa, hd⟩ := h
  have hokr := timersOk_runNext hok hr
  obtain ⟨u, hnd, rfl⟩ := runNext_dequeued hr
  have hu := (nextDue_mem hnd).1
  have hsub : ∀ t ∈ (dequeued u q).timers, t ∈ q.timers := fun t ht =>
    (List.mem_filter.mp ht).1
  have hkeep : ∀ t ∈ q.timers, t.cb ≠ u.cb → t ∈ (dequeued u q).timers := by
    intro t ht hne
    refine List.mem_filter.mpr ⟨ht, ?_⟩
    have : t.handle ≠ u.handle := by
      intro e
      have := List.inj_on_of_nodup_map hok.2.1 ht hu e
      exact hne (this ▸ rfl)
    simpa using this
  refine ⟨hokr, ?_, ?_⟩
  · rintro ⟨t, ht, hcb⟩
    rcases (fire_timers_mem u.cb (dequeued u q)).2 t ht with h1 | ⟨k, h1⟩
    · exact hfade ⟨t, hsub t h1, hcb⟩
    · rw [hcb] at h1
      cases h1
  · apply hidden_fire hS u.cb
    · intro hcb
      exact hfade ⟨u, hu, hcb⟩
    · refine ⟨a, ha, hSa, ?_⟩
      rcases hd with hd | ⟨t, ht, hcb, hdue⟩
      · exact Or.inl hd
      · by_cases hne : u.cb = .hideDone n
        · exact Or.inr (Or.inl hne)
        · exact Or.inr (Or.inr ⟨t, hkeep t ht (by rw [hcb]; exact fun e => hne e.symm), hcb, hdue⟩)

/-- Once the time `D` has passed, the element is out of the layout. -/
theorem hiding_elapse {n D : Nat} {S : AlertEl → Prop} (hS : HideStable S) (dt : Nat)
    {q : Page} (h : Hiding n S D q) :
    Hiding n S D (elapse dt q) ∧
    (D ≤ q.now + dt → ∃ a, (elapse dt q).alert? n = some a ∧ S a ∧ a.style.display = "none") := by
  have hinv := runTimers_invariant (Hiding n S D) (q.now + dt)
    (fun a b ha hb => hiding_runNext hS ha hb) (budget q.timers) q h
  have hH : Hiding n S D (elapse dt q) :=
    ⟨timersOk_elapse dt h.1, hinv.2.1, hidden_congr rfl rfl hinv.2.2⟩
  refine ⟨hH, ?_⟩
  intro hD
  obtain ⟨a, ha, hSa, hd⟩ := hH.2.2
  refine ⟨a, ha, hSa, ?_⟩
  rcases hd with hd | ⟨t, ht, _, hdue⟩
  · exact hd
  · have := elapse_complete dt q t ht
    omega

theorem hiding_hideAlert {n k D : Nat} {S : AlertEl → Prop} (hS : HideStable S) {q : Page}
    (h : Hiding n S D q) : Hiding n S D (hideAlert (some k) q) := by
  refine ⟨timersOk_hideAlert _ h.1, ?_, hidden_hideAlert hS h.2.2⟩
  rintro ⟨t, ht, hcb⟩
  rcases (hideAlert_timers_sub (some k) q).2 t ht with h1 | ⟨j, h1⟩
  · exact h.2.1 ⟨t, h1, hcb⟩
  · rw [hcb] at h1
    cases h1

theorem hideAlert_now (alert : Option Nat) (p : Page) : (hideAlert alert p).now = p.now := by
  rcases hideAlert_cases alert p with e | ⟨a, _, _, e⟩
  · rw [e]
  · rw [e]
    rfl

/-- The start of a hiding on a page with well-formed timers. -/
theorem hiding_hideAlert_start {n : Nat} {S : AlertEl → Prop} {q : Page} {a : AlertEl}
    (hok : TimersOk q) (ha : q.alert? n = some a)
    (hfade : (∃ t ∈ q.timers, t.cb = .fadeIn n) →
      ∀ b, S b → S { b with style := fadedIn b.style })
    (h0 : a.style.display = "none" → S a)
    (h1 : a.style.display ≠ "none" → S { a with style := fadeOut a.style }) :
    Hiding n S (q.now + 300) (hideAlert (some n) q) := by
  refine ⟨timersOk_hideAlert _ hok, ?_, hidden_hideAlert_start ha h0 h1⟩
  rintro ⟨t, ht, hcb⟩
  rcases (hideAlert_timers_sub (some n) q).2 t ht with h2 | ⟨j, h2⟩
  · exact hfade ⟨t, h2, hcb⟩
  · rw [hcb] at h2
    cases h2

/-- hideAlert twice and hideAlert once both end with the element out of the
layout, in a state that satisfies `S`. -/
theorem hiding_twice_once {n : Nat} {S : AlertEl → Prop} (hS : HideStable S) {p : Page}
    (dt T : Nat) (hT : 300 ≤ T) (h : Hiding n S (p.now + 300) (hideAlert (some n) p)) :
    (∃ b, (elapse T (hideAlert (some n) (elapse dt (hideAlert (some n) p)))).alert? n = some b ∧
      S b ∧ b.style.display = "none") ∧
    (∃ b, (elapse (dt + T) (hideAlert (some n) p)).alert? n = some b ∧
      S b ∧ b.style.display = "none") := by
  have hnow : (hideAlert (some n) p).now = p.now := hideAlert_now _ p
  constructor
  · have h2 := (hiding_elapse hS dt h).1
    have h3 := hiding_hideAlert (k := n) hS h2
    refine (hiding_elapse hS T h3).2 ?_
    rw [hideAlert_now]
    show p.now + 300 ≤ (hideAlert (some n) p).now + dt + T
    omega
  · refine (hiding_elapse hS (dt + T) h).2 ?_
    omega

/-- C4, amended. hideAlert is idempotent on every page with well-formed timers
on which no fade-in of the alert is pending, whatever other timers are pending
and run: calling hideAlert on an alert, letting `dt` milliseconds pass (less
than 300: the first timer is still pending; 300 or more: it has fired), calling
hideAlert on it again and letting `T` more milliseconds pass, at least 300, ends
with the alert in the same state as calling it once and letting `dt + T`
milliseconds pass.  The alert ends with display 'none'; when it was displayed
at the first call, with opacity 0, the upward translation and the transition of
hideAlert, and its other properties as they were; when it was already hidden,
as it was. -/
theorem hideAlert_twice_same_as_once (p : Page) (n : Nat) (a : AlertEl) (dt T : Nat)
    (hok : TimersOk p) (ha : p.alert? n = some a)
    (hfade : ∀ t ∈ p.timers, t.cb ≠ .fadeIn n) (hT : 300 ≤ T) :
    ∃ b, (elapse T (hideAlert (some n) (elapse dt (hideAlert (some n) p)))).alert? n = some b ∧
      (elapse (dt + T) (hideAlert (some n) p)).alert? n = some b ∧
      b.style.display = "none" ∧
      (a.style.display ≠ "none" →
        b = { a with style := displayNone (fadeOut a.style) } ∧
        b.style.opacity = "0" ∧ b.style.transform = "translateY(-10px)") ∧
      (a.style.display = "none" → b = a) := by
  have hnofade : ¬ ∃ t ∈ p.timers, t.cb = .fadeIn n := fun ⟨t, ht, hcb⟩ => hfade t ht hcb
  by_cases hd : a.style.display = "none"
  · have hS : HideStable (fun b => b = a) := by
      constructor
      · intro b hb hdisp
        subst hb
        exact absurd hd hdisp
      · intro b hb
        subst hb
        obtain ⟨node, cn, tc, hc, st⟩ := b
        obtain ⟨disp, op, tr, tn, pos, mg⟩ := st
        simp only at hd
        subst hd
        rfl
    have h := hiding_hideAlert_start (S := fun b => b = a) hok ha
      (fun hex => absurd hex hnofade) (fun _ => rfl) (fun hdisp => absurd hd hdisp)
    obtain ⟨⟨b, hb, hbS, hbd⟩, ⟨c, hc, hcS, _⟩⟩ := hiding_twice_once hS dt T hT h
    have hbS2 : b = a := hbS
    have hcS2 : c = a := hcS
    subst hbS2
    exact ⟨b, hb, hcS2 ▸ hc, hbd, fun hdisp => absurd hd hdisp, fun _ => rfl⟩
  · have hS : HideStable (fun b => b = { a with style := fadeOut a.style } ∨
        b = { a with style := displayNone (fadeOut a.style) }) := by
      constructor
      · intro b hb hdisp
        rcases hb with hb | hb
        · subst hb
          exact Or.inl rfl
        · subst hb
          exact absurd rfl hdisp
      · intro b hb
        rcases hb with hb | hb
        · subst hb
          exact Or.inr rfl
        · subst hb
          exact Or.inr rfl
    have h := hiding_hideAlert_start
      (S := fun b => b = { a with style := fadeOut a.style } ∨
        b = { a with style := displayNone (fadeOut a.style) }) hok ha
      (fun hex => absurd hex hnofade) (fun hdisp => absurd hdisp hd) (fun _ => Or.inl rfl)
    obtain ⟨⟨b, hb, hbS, hbd⟩, ⟨c, hc, hcS, hcd⟩⟩ := hiding_twice_once hS dt T hT h
    have hfin : ∀ x : AlertEl, (x = { a with style := fadeOut a.style } ∨
        x = { a with style := displayNone (fadeOut a.style) }) → x.style.display = "none" →
        x = { a with style := displayNone (fadeOut a.style) } := by
      intro x hx hxd
      rcases hx with hx | hx
      · subst hx
        exact absurd hxd hd
      · exact hx
    have hb2 := hfin b hbS hbd
    have hc2 := hfin c hcS hcd
    refine ⟨b, hb, ?_, hbd, fun _ => ⟨hb2, ?_, ?_⟩, fun hdisp => absurd hdisp hd⟩
    · rw [hb2, ← hc2]
      exact hc
    · rw [hb2]
      rfl
    · rw [hb2]
      rfl

theorem hideAlert_twice_same_as_once_witness :
    (busyPage.alert? 1 = some (plainAlert 1 "Stock bajo" true) ∧
      (∀ t ∈ busyPage.timers, t.cb ≠ .fadeIn 1) ∧ 300 ≤ 300 ∧
      busyPage.timers.length = 4) ∧
    ∃ b, (elapse 300 (hideAlert (some 1) (elapse 100 (hideAlert (some 1) busyPage)))).alert? 1 =
        some b ∧
      (elapse (100 + 300) (hideAlert (some 1) busyPage)).alert? 1 = some b ∧
      b.style.display = "none" ∧
      ((plainAlert 1 "Stock bajo" true).style.display ≠ "none" →
        b = { plainAlert 1 "Stock bajo" true with
              style := displayNone (fadeOut (plainAlert 1 "Stock bajo" true).style) } ∧
        b.style.opacity = "0" ∧ b.style.transform = "translateY(-10px)") ∧
      ((plainAlert 1 "Stock bajo" true).style.display = "none" →
        b = plainAlert 1 "Stock bajo" true) :=
  ⟨⟨by decide, by decide, by decide, by decide⟩,
   hideAlert_twice_same_as_once busyPage 1 (plainAlert 1 "Stock bajo" true) 100 300
     (sessionPage_ok sweptPage (.number 7) [.wait 1000] ⟨by decide, by decide, by decide⟩
       (by decide)).1 (by decide) (by decide) (by decide)⟩

/-! ## A hidden alert is found again by showAlert -/

theorem find?_node_append {n : Nat} {pre rest : List AlertEl} {x : AlertEl}
    (hpre : ∀ a ∈ pre, a.node ≠ n) (hx : x.node = n) :
    (pre ++ x :: rest).find? (fun a => a.node = n) = some x := by
  rw [List.find?_eq_some]
  exact ⟨by simpa using hx, pre, rest, rfl, fun a ha => by simpa using hpre a ha⟩

theorem node_ne_of_ident {n : Nat} {l l0 : List AlertEl}
    (h : l.map AlertEl.ident = l0.map AlertEl.ident) (h0 : ∀ a ∈ l0, a.node ≠ n) :
    ∀ a ∈ l, a.node ≠ n := by
  intro a ha
  have : a.ident ∈ l0.map AlertEl.ident := h ▸ List.mem_map_of_mem _ ha
  obtain ⟨b, hb, hab⟩ := List.mem_map.mp this
  have hn : b.node = a.node := congrArg Prod.fst hab
  rw [← hn]
  exact h0 b hb

/-- C29, amended. Let showAlert create an alert for a message m that the HTML
parser reads as plain text, on a page with well-formed timers where no alert
matches m.  After any time `dt1`, hideAlert is called on the alert, and at least
300 ms pass: the alert is in the document with display 'none'.  A later
showAlert(m), of any type and duration, returns that hidden element and leaves
the page as it is, so that no element is created, no style is changed and no
timer is armed; every alert whose text contains m is hidden after the call. -/
theorem showAlert_after_hide_returns_hidden (m type type2 : String) (d d2 : Int) (p : Page)
    (dt1 dt2 : Nat)
    (hplain : plainMessage m = true) (hok : TimersOk p)
    (hnew : ∀ a ∈ p.alerts, jsIncludes a.textContent m = false)
    (hnode : ∀ a ∈ p.alerts, a.node ≠ p.nextNode)
    (hdt : 300 ≤ dt2) :
    (showAlert m type d p).1 = p.nextNode ∧
    (∃ a, (shownThenHidden m type d dt1 dt2 p).alert? p.nextNode = some a ∧
      a.textContent = alertTextContent m ∧ a.style.display = "none") ∧
    showAlert m type2 d2 (shownThenHidden m type d dt1 dt2 p) =
      (p.nextNode, shownThenHidden m type d dt1 dt2 p) ∧
    (shownThenHidden m type d dt1 dt2 p).alerts.length = p.alerts.length + 1 ∧
    (∀ b ∈ (showAlert m type2 d2 (shownThenHidden m type d dt1 dt2 p)).2.alerts,
      jsIncludes b.textContent m = true → b.style.display = "none") := by
  obtain ⟨h1, h2, h3⟩ := showAlert_new_lists m type d p hnew
  have hok1 : TimersOk (showAlert m type d p).2 := timersOk_showAlert m type d hok
  have hok2 := timersOk_elapse dt1 hok1
  -- the lists of alerts keep their nodes and texts
  obtain ⟨a1, a2⟩ := elapse_ident dt1 (showAlert m type d p).2
  obtain ⟨b1, b2⟩ := hideAlert_ident (some p.nextNode) (elapse dt1 (showAlert m type d p).2)
  obtain ⟨c1, c2⟩ := elapse_ident dt2
    (hideAlert (some p.nextNode) (elapse dt1 (showAlert m type d p).2))
  have e1 : (shownThenHidden m type d dt1 dt2 p).beforeContainer.map AlertEl.ident =
      p.beforeContainer.map AlertEl.ident := by
    unfold shownThenHidden
    rw [h1, c1, b1, a1, h2]
  have e2 : (shownThenHidden m type d dt1 dt2 p).fromContainer.map AlertEl.ident =
      (newAlert p.nextNode m type :: p.fromContainer).map AlertEl.ident := by
    unfold shownThenHidden
    rw [h1, c2, b2, a2, h3]
  obtain ⟨x, rest, hx, hrest, hcons⟩ := List.map_eq_cons_iff.mp e2
  have hxnode : x.node = p.nextNode := congrArg Prod.fst hrest
  have hxtc : x.textContent = alertTextContent m := congrArg Prod.snd hrest
  have hxtext : jsIncludes x.textContent m = true := by
    rw [hxtc]
    exact jsIncludes_alertTextContent m hplain
  have hpre : ∀ a ∈ (shownThenHidden m type d dt1 dt2 p).beforeContainer,
      jsIncludes a.textContent m = false :=
    no_match_of_ident e1 (fun a ha => hnew a (List.mem_append_left _ ha))
  have hpost : ∀ a ∈ rest, jsIncludes a.textContent m = false :=
    no_match_of_ident hcons (fun a ha => hnew a (List.mem_append_right _ ha))
  have hprenode : ∀ a ∈ (shownThenHidden m type d dt1 dt2 p).beforeContainer,
      a.node ≠ p.nextNode :=
    node_ne_of_ident e1 (fun a ha => hnode a (List.mem_append_left _ ha))
  have halerts : (shownThenHidden m type d dt1 dt2 p).alerts =
      (shownThenHidden m type d dt1 dt2 p).beforeContainer ++ x :: rest := by
    rw [Page.alerts, hx]
  have hxfind : (shownThenHidden m type d dt1 dt2 p).alert? p.nextNode = some x := by
    unfold Page.alert?
    rw [halerts]
    exact find?_node_append hprenode hxnode
  -- the alert is in the document when hideAlert is called
  have hex : ∃ a ∈ (elapse dt1 (showAlert m type d p).2).alerts, a.node = p.nextNode := by
    rw [h3] at a2
    obtain ⟨y, rest2, hy, hyrest, _⟩ := List.map_eq_cons_iff.mp a2
    exact ⟨y, by simp [Page.alerts, hy], congrArg Prod.fst hyrest⟩
  obtain ⟨a0, ha0, _, _⟩ := alert?_of_nodeIn hex
  have hS : HideStable (fun _ => True) := ⟨fun _ _ _ => trivial, fun _ _ => trivial⟩
  have hhid := hiding_hideAlert_start (S := fun _ => True) hok2 ha0
    (fun _ _ _ => trivial) (fun _ => trivial) (fun _ => trivial)
  obtain ⟨a4, ha4, _, hd4⟩ := (hiding_elapse hS dt2 hhid).2 (by
    rw [hideAlert_now]
    omega)
  have ha4' : (shownThenHidden m type d dt1 dt2 p).alert? p.nextNode = some a4 := by
    unfold shownThenHidden
    rw [h1]
    exact ha4
  have hxa : a4 = x := by
    rw [hxfind] at ha4'
    exact (Option.some.inj ha4').symm
  subst hxa
  have hfind : (shownThenHidden m type d dt1 dt2 p).alerts.find?
      (fun a => jsIncludes a.textContent m) = some a4 := by
    rw [List.find?_eq_some]
    exact ⟨hxtext, _, rest, halerts, fun a ha => by simp [hpre a ha]⟩
  have hcall := showAlert_existing m type2 d2 _ a4 hfind
  refine ⟨h1, ⟨a4, hxfind, hxtc, hd4⟩, ?_, ?_, ?_⟩
  · rw [hcall, hxnode]
  · have hl1 := congrArg List.length e1
    have hl2 := congrArg List.length e2
    simp only [List.length_map, List.length_cons] at hl1 hl2
    simp only [Page.alerts, List.length_append]
    omega
  · rw [hcall]
    intro b hb hinc
    rw [halerts] at hb
    simp only [List.mem_append, List.mem_cons] at hb
    rcases hb with hb | rfl | hb
    · rw [hpre b hb] at hinc
      exact absurd hinc (by simp)
    · exact hd4
    · rw [hpost b hb] at hinc
      exact absurd hinc (by simp)

theorem showAlert_after_hide_returns_hidden_witness :
    (plainMessage "Sin conexión" = true ∧
      (∀ a ∈ (sessionPage sweptPage (.number 7) someActivity).alerts,
        jsIncludes a.textContent "Sin conexión" = false) ∧
      (∀ a ∈ (sessionPage sweptPage (.number 7) someActivity).alerts,
        a.node ≠ (sessionPage sweptPage (.number 7) someActivity).nextNode) ∧
      300 ≤ 400) ∧
    (showAlert "Sin conexión" "error" 0 (sessionPage sweptPage (.number 7) someActivity)).1 =
      (sessionPage sweptPage (.number 7) someActivity).nextNode ∧
    (∃ a, (shownThenHidden "Sin conexión" "error" 0 50 400
        (sessionPage sweptPage (.number 7) someActivity)).alert?
          (sessionPage sweptPage (.number 7) someActivity).nextNode = some a ∧
      a.textContent = alertTextContent "Sin conexión" ∧ a.style.display = "none") ∧
    showAlert "Sin conexión" "warning" 5000
        (shownThenHidden "Sin conexión" "error" 0 50 400
          (sessionPage sweptPage (.number 7) someActivity)) =
      ((sessionPage sweptPage (.number 7) someActivity).nextNode,
       shownThenHidden "Sin conexión" "error" 0 50 400
         (sessionPage sweptPage (.number 7) someActivity)) :=
  ⟨⟨by decide, by decide, by decide, by decide⟩,
   (showAlert_after_hide_returns_hidden "Sin conexión" "error" "warning" 0 5000
      (sessionPage sweptPage (.number 7) someActivity) 50 400 (by decide)
      (sessionPage_ok sweptPage (.number 7) someActivity ⟨by decide, by decide, by decide⟩
        (by decide)).1 (by decide) (by decide) (by decide)).1,
   (showAlert_after_hide_returns_hidden "Sin conexión" "error" "warning" 0 5000
      (sessionPage sweptPage (.number 7) someActivity) 50 400 (by decide)
      (sessionPage_ok sweptPage (.number 7) someActivity ⟨by decide, by decide, by decide⟩
        (by decide)).1 (by decide) (by decide) (by decide)).2.1,
   (showAlert_after_hide_returns_hidden "Sin conexión" "error" "warning" 0 5000
      (sessionPage sweptPage (.number 7) someActivity) 50 400 (by decide)
      (sessionPage_ok sweptPage (.number 7) someActivity ⟨by decide, by decide, by decide⟩
        (by decide)).1 (by decide) (by decide) (by decide)).2.2.1⟩

/-- C29 as stated fails for a message with markup of its own.  showAlert creates
an alert for '<b>Stock</b> bajo' on the empty page, hideAlert hides it, and 400 ms
pass: the alert is in the document with display 'none'.  Its text content, made
by the HTML parser, is 'Stock bajo' and does not contain the message, so a later
showAlert with the same message does not return it: a second element is created
and is displayed. -/
theorem showAlert_after_hide_markup_creates :
    ((shownThenHidden markupMessage "warning" 0 200 400 emptyPage).alerts.map
        (fun a => (a.node, a.style.display, a.textContent)) =
      [(0, "none", "\n            Stock bajo\n            ×\n        ")]) ∧
    (showAlert markupMessage "warning" 0
      (shownThenHidden markupMessage "warning" 0 200 400 emptyPage)).1 = 1 ∧
    ((showAlert markupMessage "warning" 0
      (shownThenHidden markupMessage "warning" 0 200 400 emptyPage)).2.alerts.map
        (fun a => (a.node, a.style.display)) = [(1, ""), (0, "none")]) := by
  decide

/-- C1 as stated fails for a message with markup of its own.  showAlert creates
an alert for '<b>Stock</b> bajo' on the empty page; the text content of the
element, made by the HTML parser, is 'Stock bajo' and does not contain the
message.  A second call with the same message, while the first alert is
displayed, finds no match and inserts a second element: two alerts with the
text 'Stock bajo' are displayed. -/
theorem showAlert_twice_markup_two_alerts :
    plainMessage markupMessage = false ∧
    (showAlert markupMessage "warning" 5000 emptyPage).1 = 0 ∧
    ((showAlert markupMessage "warning" 5000 emptyPage).2.alerts.map
        (fun a => (a.node, a.style.display, a.textContent)) =
      [(0, "", "\n            Stock bajo\n            ×\n        ")]) ∧
    (showAlert markupMessage "warning" 5000
      (showAlert markupMessage "warning" 5000 emptyPage).2).1 = 1 ∧
    ((showAlert markupMessage "warning" 5000
      (showAlert markupMessage "warning" 5000 emptyPage).2).2.alerts.map
        (fun a => (a.node, a.style.display, a.textContent)) =
      [(1, "", "\n            Stock bajo\n            ×\n        "),
       (0, "", "\n            Stock bajo\n            ×\n        ")]) := by
  decide

end Layout
